import Mathlib

/-!
Pixel prediction core of the alfalfa VP8 decoder (`src/decoder/prediction.cc`).

A shallow embedding of the intra and inter predictors, followed by theorems about them.

Conventions of the embedding.
* Samples (`uint8_t`) are natural numbers; a conversion to `uint8_t` is `toUInt8`.
* `int` and `unsigned int` values are integers; every conversion between them is written
  out (`toInt32`, `toUInt32`), so that wrap-around is part of the model.
* `x >> n` on an `int` is the flooring division by `2 ^ n`, and `x & 7` is `x % 8`
  (two's complement).
* A failed `assert`, an out-of-range read and a loop that never reaches its exit test
  make the function return `none`.
-/

namespace Alfalfa

open Finset

/-! ## Machine integers -/

/-- Conversion to `unsigned int` (32 bits). -/
def toUInt32 (x : Int) : Int := x % 4294967296

/-- Conversion to `int` (32 bits, two's complement). -/
def toInt32 (x : Int) : Int := (x + 2147483648) % 4294967296 - 2147483648

/-- Conversion to `int16_t`. -/
def toInt16 (x : Int) : Int := (x + 32768) % 65536 - 32768

/-- Conversion to `int8_t`. -/
def toInt8 (x : Int) : Int := (x + 128) % 256 - 128

/-- Conversion to `uint8_t`, the type of a stored sample. -/
def toUInt8 (x : Int) : Nat := (x % 256).toNat

/-- Modelled from the spec: `clamp255` (declared outside `prediction.cc`) saturates a signed
value into `[0, 255]`: `max(0, min(255, x))`. -/
def clamp255 (value : Int) : Nat :=
  if value < 0 then 0 else if value > 255 then 255 else value.toNat

/-! ## Loops -/

/-- The loop `for ( i = 0; i < n; i++ ) body( i )` over a state. -/
def forLoop {σ : Type} (body : Nat → σ → σ) : Nat → σ → σ
  | 0, s => s
  | n + 1, s => body n (forLoop body n s)

/-- The loop `for ( i = 0; i < n; i++ ) body( i )` over a state that the body may fail to
produce. -/
def forLoopM {σ : Type} (body : Nat → σ → Option σ) : Nat → σ → Option σ
  | 0, s => some s
  | n + 1, s => (forLoopM body n s).bind (body n)

/-- The loop `while ( cond ) body`, cut off after `fuel` iterations. -/
def whileLoop {σ : Type} (cond : σ → Bool) (body : σ → Option σ) : Nat → σ → Option σ
  | 0, _ => none
  | fuel + 1, s => if cond s then (body s).bind (whileLoop cond body fuel) else some s

/-! ## Sample grids and block views -/

/-- Modelled from the spec: the contents of a block view (`TwoDSubRange`, declared outside
`prediction.cc`), addressed by `(column, row)` local to the view. Only the cells with
`column < size` and `row < size` belong to the block. -/
abbrev Contents := Nat → Nat → Nat

/-- Assignment `contents_.at( column, row ) = v`. -/
def Contents.set (b : Contents) (column row v : Nat) : Contents :=
  fun c r => if c = column ∧ r = row then v else b c r

/-- Modelled from the spec: `forall_ij( f )` applies `f` to every cell of the view together
with its `(column, row)` indices; `f` returns the new value of the cell. -/
def Contents.forall_ij (size : Nat) (f : Nat → Nat → Nat → Nat) (b : Contents) : Contents :=
  fun c r => if c < size ∧ r < size then f (b c r) c r else b c r

/-- Modelled from the spec: `fill( v )` on the whole block view. -/
def Contents.fill (size : Nat) (v : Nat) (b : Contents) : Contents :=
  fun c r => if c < size ∧ r < size then v else b c r

/-- Modelled from the spec: `row( row ).fill( v )`, the fill of one row of the view. -/
def Contents.row_fill (size : Nat) (row v : Nat) (b : Contents) : Contents :=
  fun c r => if c < size ∧ r = row then v else b c r

/-- Modelled from the spec: `column( column ).fill( v )`, the fill of one column of the view. -/
def Contents.column_fill (size : Nat) (column v : Nat) (b : Contents) : Contents :=
  fun c r => if c = column ∧ r < size then v else b c r

/-- A store `*p = v` through a pointer into the destination view. The pointer is its offset
from `&contents_.at( 0, 0 )`; the rows of a view are `stride` bytes apart, so the offset
`row * stride + column` is the cell `(column, row)`. -/
def Contents.store (stride : Nat) (b : Contents) (offset v : Nat) : Contents :=
  b.set (offset % stride) (offset / stride) v

/-- Modelled from the spec: a sample grid `TwoD< uint8_t >` (declared outside
`prediction.cc`): `width * height` samples stored row by row, the rows `width` samples
apart (the pitch `unsafe_inter_predict` asserts and steps by). -/
structure TwoD where
  width : Nat
  height : Nat
  storage : List Nat

/-- Modelled from the spec: the bounds-checked point read `at( column, row )` of a grid;
both arguments are `unsigned int`. -/
def TwoD.at (g : TwoD) (column row : Nat) : Option Nat :=
  if column < g.width ∧ row < g.height then g.storage[row * g.width + column]? else none

/-- The address `&reference.at( column, row )` as an index into the storage. -/
def TwoD.addr (g : TwoD) (column row : Nat) : Option Nat :=
  if column < g.width ∧ row < g.height then some (row * g.width + column) else none

/-- A motion vector; the components are `int16_t` in the decoder. -/
structure MotionVector where
  x : Int
  y : Int

/-- Modelled from the spec: `forall_ij( f )` for an `f` that reads through a bounds-checked
accessor and so may fail; the cells are visited row by row. -/
def Contents.forall_ijM (size : Nat) (f : Nat → Nat → Nat → Option Nat) (b : Contents) :
    Option Contents :=
  forLoopM (fun row b => forLoopM (fun column (b : Contents) => do
      let val ← f (b column row) column row
      pure (b.set column row val)) size b) size b

/-! ## Neighbour predictors -/

/-- Modelled from the spec: the grid `Context` of a block (`TwoD< Block >::Context`, declared
outside `prediction.cc`): its position and the four optional neighbours, each given by the
contents of the neighbouring block. -/
structure Context where
  column : Nat
  row : Nat
  left : Option Contents
  above_left : Option Contents
  above : Option Contents
  above_right : Option Contents

/-- Embeds `Predictors::AboveRightBottomRowPredictor`: a row view, the sample a pointer
refers to, and the flag that selects between the two. -/
structure AboveRightBottomRowPredictor where
  above_right_bottom_row : Nat → Nat
  above_bottom_right_pixel : Nat
  use_row : Bool

/-- Embeds `Raster::Block<size>::Predictors`. A row view maps a column to its sample, a
column view maps a row to its sample; a view holds the samples it shows when the block is
predicted. -/
structure Predictors where
  above_row : Nat → Nat
  left_column : Nat → Nat
  above_left : Nat
  above_right_bottom_row_predictor : AboveRightBottomRowPredictor

/-- Embeds `Predictors::row127`: the row view of a `size` by 1 grid filled with 127. -/
def Predictors.row127 : Nat → Nat := fun _ => 127

/-- Embeds `Predictors::col129`: the column view of a 1 by `size` grid filled with 129. -/
def Predictors.col129 : Nat → Nat := fun _ => 129

/-- The constructor `Predictors::Predictors( context )`. -/
def Predictors.new (size : Nat) (context : Context) : Predictors where
  above_row :=
    match context.above with
    | some above => fun column => above column (size - 1)
    | none => Predictors.row127
  left_column :=
    match context.left with
    | some left => fun row => left (size - 1) row
    | none => Predictors.col129
  above_left :=
    match context.above_left with
    | some above_left => above_left (size - 1) (size - 1)
    | none =>
      match context.above with
      | some _ => Predictors.col129 0
      | none => Predictors.row127 0
  above_right_bottom_row_predictor :=
    { above_right_bottom_row :=
        match context.above_right with
        | some above_right => fun column => above_right column (size - 1)
        | none => Predictors.row127
      above_bottom_right_pixel :=
        match context.above with
        | some above => above (size - 1) (size - 1)
        | none => Predictors.row127 0
      use_row := context.above_right.isSome }

/-- Embeds `AboveRightBottomRowPredictor::above_right`. -/
def AboveRightBottomRowPredictor.above_right (p : AboveRightBottomRowPredictor)
    (column : Nat) : Nat :=
  if p.use_row then p.above_right_bottom_row column else p.above_bottom_right_pixel

/-- Embeds `Predictors::above`; the argument is an `int8_t`. -/
def Predictors.above (size : Nat) (p : Predictors) (column : Int) : Option Nat :=
  if column ≥ -1 ∧ column < toInt8 (size * 2) then
    if column = -1 then some p.above_left
    else if 0 ≤ column ∧ column < toInt32 size then some (p.above_row column.toNat)
    else some (p.above_right_bottom_row_predictor.above_right (toUInt32 (column - size)).toNat)
  else none

/-- Embeds `Predictors::left`; the argument is an `int8_t`. -/
def Predictors.left (size : Nat) (p : Predictors) (row : Int) : Option Nat :=
  if row ≥ -1 ∧ row < toInt8 size then
    if row = -1 then some p.above_left
    else some (p.left_column row.toNat)
  else none

/-- Embeds `Predictors::east`; the argument is an `int8_t`. -/
def Predictors.east (size : Nat) (p : Predictors) (num : Int) : Option Nat :=
  if 0 ≤ num ∧ num ≤ toInt8 (size * 2) then
    if num ≤ 4 then p.left size (toInt8 (3 - num))
    else p.above size (toInt8 (num - 5))
  else none

/-- Modelled from the spec: `sum( int16_t() )` of a 1-D view of `size` samples, accumulated
in an `int16_t`. -/
def sum (size : Nat) (view : Nat → Nat) : Int :=
  forLoop (fun i acc => toInt16 (acc + view i)) size 0

/-! ## Blocks and intra prediction -/

/-- Embeds `Raster::Block<size>`: the view of the block's samples, its context and its
predictors. -/
structure Block where
  contents_ : Contents
  context_ : Context
  predictors_ : Predictors

/-- The constructor `Block( c, raster_component )`; `contents` is the view of
`raster_component` anchored at `(size * c.column, size * c.row)`. -/
def Block.new (size : Nat) (c : Context) (contents : Contents) : Block :=
  { contents_ := contents, context_ := c, predictors_ := Predictors.new size c }

/-- Embeds `Raster::Block<size>::true_motion_predict`. -/
def Block.true_motion_predict (size : Nat) (blk : Block) : Block :=
  { blk with contents_ := blk.contents_.forall_ij size (fun _ column row =>
      clamp255 ((blk.predictors_.left_column row : Int)
                + blk.predictors_.above_row column
                - blk.predictors_.above_left)) }

/-- Embeds `Raster::Block<size>::horizontal_predict`. -/
def Block.horizontal_predict (size : Nat) (blk : Block) : Block :=
  { blk with contents_ := forLoop (fun row (b : Contents) =>
      b.row_fill size row (blk.predictors_.left_column row)) size blk.contents_ }

/-- Embeds `Raster::Block<size>::vertical_predict`. -/
def Block.vertical_predict (size : Nat) (blk : Block) : Block :=
  { blk with contents_ := forLoop (fun column (b : Contents) =>
      b.column_fill size column (blk.predictors_.above_row column)) size blk.contents_ }

/-- The constant `log2size` of `dc_predict_simple` and `dc_predict`. -/
def log2size (size : Nat) : Nat :=
  if size = 4 then 2 else if size = 8 then 3 else if size = 16 then 4 else 0

/-- Embeds `Raster::Block<size>::dc_predict_simple`. -/
def Block.dc_predict_simple (size : Nat) (blk : Block) : Block :=
  { blk with contents_ := blk.contents_.fill size (toUInt8
      (((sum size blk.predictors_.above_row + sum size blk.predictors_.left_column)
          + 2 ^ log2size size) / 2 ^ (log2size size + 1))) }

/-- Embeds `Raster::Block<size>::dc_predict`. -/
def Block.dc_predict (size : Nat) (blk : Block) : Block :=
  if blk.context_.above.isSome ∧ blk.context_.left.isSome then
    blk.dc_predict_simple size
  else
    let value := 128
    let value :=
      if blk.context_.above.isSome then
        toUInt8 ((sum size blk.predictors_.above_row + 2 ^ (log2size size - 1))
                  / 2 ^ log2size size)
      else if blk.context_.left.isSome then
        toUInt8 ((sum size blk.predictors_.left_column + 2 ^ (log2size size - 1))
                  / 2 ^ log2size size)
      else value
    { blk with contents_ := blk.contents_.fill size value }

/-- Modelled from the spec: the macroblock prediction modes `mbmode` (declared outside
`prediction.cc`): DC, V, H and TM, and `B_PRED` for a value the `switch` of `intra_predict`
does not list. -/
inductive mbmode where
  | DC_PRED | V_PRED | H_PRED | TM_PRED | B_PRED
  deriving DecidableEq, Repr

/-- Modelled from the spec: the ten sub-block prediction modes `bmode` (declared outside
`prediction.cc`). -/
inductive bmode where
  | B_DC_PRED | B_TM_PRED | B_VE_PRED | B_HE_PRED | B_LD_PRED
  | B_RD_PRED | B_VR_PRED | B_VL_PRED | B_HD_PRED | B_HU_PRED
  deriving DecidableEq, Repr

/-- Embeds `Raster::Block8::intra_predict( mbmode )`, chroma prediction. -/
def Block8.intra_predict (uv_mode : mbmode) (blk : Block) : Option Block :=
  match uv_mode with
  | .DC_PRED => some (blk.dc_predict 8)
  | .V_PRED => some (blk.vertical_predict 8)
  | .H_PRED => some (blk.horizontal_predict 8)
  | .TM_PRED => some (blk.true_motion_predict 8)
  | _ => none

/-- Embeds `Raster::Block16::intra_predict( mbmode )`, Y prediction for the whole macroblock. -/
def Block16.intra_predict (uv_mode : mbmode) (blk : Block) : Option Block :=
  match uv_mode with
  | .DC_PRED => some (blk.dc_predict 16)
  | .V_PRED => some (blk.vertical_predict 16)
  | .H_PRED => some (blk.horizontal_predict 16)
  | .TM_PRED => some (blk.true_motion_predict 16)
  | _ => none

/-- The function `avg3`. -/
def avg3 (x y z : Nat) : Nat := toUInt8 (((x : Int) + 2 * y + z + 2) / 4)

/-- The function `avg2`. -/
def avg2 (x y : Nat) : Nat := toUInt8 (((x : Int) + y + 1) / 2)

/-- The value `avg3` of three neighbour reads, each of which may fail its index assertion. -/
def avg3M (x y z : Option Nat) : Option Nat := do
  let x ← x
  let y ← y
  let z ← z
  pure (avg3 x y z)

/-- The value `avg2` of two neighbour reads, each of which may fail its index assertion. -/
def avg2M (x y : Option Nat) : Option Nat := do
  let x ← x
  let y ← y
  pure (avg2 x y)

/-- Modelled from the spec: the methods `above`, `left` and `east` of a 4x4 block (declared
outside `prediction.cc`) are the projections of its predictors (section 4.2). -/
def Block.above (blk : Block) (column : Int) : Option Nat := blk.predictors_.above 4 column

/-- Modelled from the spec: see `Block.above`. -/
def Block.left (blk : Block) (row : Int) : Option Nat := blk.predictors_.left 4 row

/-- Modelled from the spec: see `Block.above`. -/
def Block.east (blk : Block) (num : Int) : Option Nat := blk.predictors_.east 4 num

/-- Embeds `Raster::Block4::vertical_smoothed_predict`. -/
def Block4.vertical_smoothed_predict (blk : Block) : Option Block := do
  let c := blk.contents_
  let c := c.column_fill 4 0 (← avg3M (blk.above (-1)) (blk.above 0) (blk.above 1))
  let c := c.column_fill 4 1 (← avg3M (blk.above 0) (blk.above 1) (blk.above 2))
  let c := c.column_fill 4 2 (← avg3M (blk.above 1) (blk.above 2) (blk.above 3))
  let c := c.column_fill 4 3 (← avg3M (blk.above 2) (blk.above 3) (blk.above 4))
  pure { blk with contents_ := c }

/-- Embeds `Raster::Block4::horizontal_smoothed_predict`. -/
def Block4.horizontal_smoothed_predict (blk : Block) : Option Block := do
  let c := blk.contents_
  let c := c.row_fill 4 0 (← avg3M (blk.left (-1)) (blk.left 0) (blk.left 1))
  let c := c.row_fill 4 1 (← avg3M (blk.left 0) (blk.left 1) (blk.left 2))
  let c := c.row_fill 4 2 (← avg3M (blk.left 1) (blk.left 2) (blk.left 3))
  let c := c.row_fill 4 3 (← avg3M (blk.left 2) (blk.left 3) (blk.left 3))
  pure { blk with contents_ := c }

/-- Embeds `Raster::Block4::left_down_predict`. A chain `at( a ) = at( b ) = v` assigns the
rightmost cell first. -/
def Block4.left_down_predict (blk : Block) : Option Block := do
  let c := blk.contents_
  let v ← avg3M (blk.above 0) (blk.above 1) (blk.above 2)
  let c := c.set 0 0 v
  let v ← avg3M (blk.above 1) (blk.above 2) (blk.above 3)
  let c := (c.set 0 1 v).set 1 0 v
  let v ← avg3M (blk.above 2) (blk.above 3) (blk.above 4)
  let c := ((c.set 0 2 v).set 1 1 v).set 2 0 v
  let v ← avg3M (blk.above 3) (blk.above 4) (blk.above 5)
  let c := (((c.set 0 3 v).set 1 2 v).set 2 1 v).set 3 0 v
  let v ← avg3M (blk.above 4) (blk.above 5) (blk.above 6)
  let c := ((c.set 1 3 v).set 2 2 v).set 3 1 v
  let v ← avg3M (blk.above 5) (blk.above 6) (blk.above 7)
  let c := (c.set 2 3 v).set 3 2 v
  let v ← avg3M (blk.above 6) (blk.above 7) (blk.above 7)
  let c := c.set 3 3 v
  pure { blk with contents_ := c }

/-- Embeds `Raster::Block4::right_down_predict`. -/
def Block4.right_down_predict (blk : Block) : Option Block := do
  let c := blk.contents_
  let v ← avg3M (blk.east 0) (blk.east 1) (blk.east 2)
  let c := c.set 0 3 v
  let v ← avg3M (blk.east 1) (blk.east 2) (blk.east 3)
  let c := (c.set 0 2 v).set 1 3 v
  let v ← avg3M (blk.east 2) (blk.east 3) (blk.east 4)
  let c := ((c.set 0 1 v).set 1 2 v).set 2 3 v
  let v ← avg3M (blk.east 3) (blk.east 4) (blk.east 5)
  let c := (((c.set 0 0 v).set 1 1 v).set 2 2 v).set 3 3 v
  let v ← avg3M (blk.east 4) (blk.east 5) (blk.east 6)
  let c := ((c.set 1 0 v).set 2 1 v).set 3 2 v
  let v ← avg3M (blk.east 5) (blk.east 6) (blk.east 7)
  let c := (c.set 2 0 v).set 3 1 v
  let v ← avg3M (blk.east 6) (blk.east 7) (blk.east 8)
  let c := c.set 3 0 v
  pure { blk with contents_ := c }

/-- Embeds `Raster::Block4::vertical_right_predict`. -/
def Block4.vertical_right_predict (blk : Block) : Option Block := do
  let c := blk.contents_
  let v ← avg3M (blk.east 1) (blk.east 2) (blk.east 3)
  let c := c.set 0 3 v
  let v ← avg3M (blk.east 2) (blk.east 3) (blk.east 4)
  let c := c.set 0 2 v
  let v ← avg3M (blk.east 3) (blk.east 4) (blk.east 5)
  let c := (c.set 0 1 v).set 1 3 v
  let v ← avg2M (blk.east 4) (blk.east 5)
  let c := (c.set 0 0 v).set 1 2 v
  let v ← avg3M (blk.east 4) (blk.east 5) (blk.east 6)
  let c := (c.set 1 1 v).set 2 3 v
  let v ← avg2M (blk.east 5) (blk.east 6)
  let c := (c.set 1 0 v).set 2 2 v
  let v ← avg3M (blk.east 5) (blk.east 6) (blk.east 7)
  let c := (c.set 2 1 v).set 3 3 v
  let v ← avg2M (blk.east 6) (blk.east 7)
  let c := (c.set 2 0 v).set 3 2 v
  let v ← avg3M (blk.east 6) (blk.east 7) (blk.east 8)
  let c := c.set 3 1 v
  let v ← avg2M (blk.east 7) (blk.east 8)
  let c := c.set 3 0 v
  pure { blk with contents_ := c }

/-- Embeds `Raster::Block4::vertical_left_predict`. -/
def Block4.vertical_left_predict (blk : Block) : Option Block := do
  let c := blk.contents_
  let v ← avg2M (blk.above 0) (blk.above 1)
  let c := c.set 0 0 v
  let v ← avg3M (blk.above 0) (blk.above 1) (blk.above 2)
  let c := c.set 0 1 v
  let v ← avg2M (blk.above 1) (blk.above 2)
  let c := (c.set 1 0 v).set 0 2 v
  let v ← avg3M (blk.above 1) (blk.above 2) (blk.above 3)
  let c := (c.set 0 3 v).set 1 1 v
  let v ← avg2M (blk.above 2) (blk.above 3)
  let c := (c.set 2 0 v).set 1 2 v
  let v ← avg3M (blk.above 2) (blk.above 3) (blk.above 4)
  let c := (c.set 2 1 v).set 1 3 v
  let v ← avg2M (blk.above 3) (blk.above 4)
  let c := (c.set 3 0 v).set 2 2 v
  let v ← avg3M (blk.above 3) (blk.above 4) (blk.above 5)
  let c := (c.set 3 1 v).set 2 3 v
  let v ← avg3M (blk.above 4) (blk.above 5) (blk.above 6)
  let c := c.set 3 2 v
  let v ← avg3M (blk.above 5) (blk.above 6) (blk.above 7)
  let c := c.set 3 3 v
  pure { blk with contents_ := c }

/-- Embeds `Raster::Block4::horizontal_down_predict`. -/
def Block4.horizontal_down_predict (blk : Block) : Option Block := do
  let c := blk.contents_
  let v ← avg2M (blk.east 0) (blk.east 1)
  let c := c.set 0 3 v
  let v ← avg3M (blk.east 0) (blk.east 1) (blk.east 2)
  let c := c.set 1 3 v
  let v ← avg2M (blk.east 1) (blk.east 2)
  let c := (c.set 2 3 v).set 0 2 v
  let v ← avg3M (blk.east 1) (blk.east 2) (blk.east 3)
  let c := (c.set 3 3 v).set 1 2 v
  let v ← avg2M (blk.east 2) (blk.east 3)
  let c := (c.set 0 1 v).set 2 2 v
  let v ← avg3M (blk.east 2) (blk.east 3) (blk.east 4)
  let c := (c.set 1 1 v).set 3 2 v
  let v ← avg2M (blk.east 3) (blk.east 4)
  let c := (c.set 0 0 v).set 2 1 v
  let v ← avg3M (blk.east 3) (blk.east 4) (blk.east 5)
  let c := (c.set 1 0 v).set 3 1 v
  let v ← avg3M (blk.east 4) (blk.east 5) (blk.east 6)
  let c := c.set 2 0 v
  let v ← avg3M (blk.east 5) (blk.east 6) (blk.east 7)
  let c := c.set 3 0 v
  pure { blk with contents_ := c }

/-- Embeds `Raster::Block4::horizontal_up_predict`. -/
def Block4.horizontal_up_predict (blk : Block) : Option Block := do
  let c := blk.contents_
  let v ← avg2M (blk.left 0) (blk.left 1)
  let c := c.set 0 0 v
  let v ← avg3M (blk.left 0) (blk.left 1) (blk.left 2)
  let c := c.set 1 0 v
  let v ← avg2M (blk.left 1) (blk.left 2)
  let c := (c.set 0 1 v).set 2 0 v
  let v ← avg3M (blk.left 1) (blk.left 2) (blk.left 3)
  let c := (c.set 1 1 v).set 3 0 v
  let v ← avg2M (blk.left 2) (blk.left 3)
  let c := (c.set 0 2 v).set 2 1 v
  let v ← avg3M (blk.left 2) (blk.left 3) (blk.left 3)
  let c := (c.set 1 2 v).set 3 1 v
  let v ← blk.left 3
  let c := (((((c.set 3 3 v).set 2 3 v).set 1 3 v).set 0 3 v).set 3 2 v).set 2 2 v
  pure { blk with contents_ := c }

/-- Embeds `Raster::Block4::intra_predict( bmode )`, luma prediction. -/
def Block4.intra_predict (b_mode : bmode) (blk : Block) : Option Block :=
  match b_mode with
  | .B_DC_PRED => some (blk.dc_predict_simple 4)
  | .B_TM_PRED => some (blk.true_motion_predict 4)
  | .B_VE_PRED => Block4.vertical_smoothed_predict blk
  | .B_HE_PRED => Block4.horizontal_smoothed_predict blk
  | .B_LD_PRED => Block4.left_down_predict blk
  | .B_RD_PRED => Block4.right_down_predict blk
  | .B_VR_PRED => Block4.vertical_right_predict blk
  | .B_VL_PRED => Block4.vertical_left_predict blk
  | .B_HD_PRED => Block4.horizontal_down_predict blk
  | .B_HU_PRED => Block4.horizontal_up_predict blk

/-! ## Macroblocks and the raster -/

/-- Embeds `Raster::Block4::set_above_right_bottom_row_predictor`: the three members of the
block's predictor are overwritten one after the other. The method `set` of a view is declared
outside `prediction.cc` and is modelled from the spec: the view shows from then on what the
replacement shows. -/
def Block4.set_above_right_bottom_row_predictor (blk : Block)
    (replacement : AboveRightBottomRowPredictor) : Block :=
  let p := blk.predictors_.above_right_bottom_row_predictor
  let p := { p with above_right_bottom_row := replacement.above_right_bottom_row }
  let p := { p with above_bottom_right_pixel := replacement.above_bottom_right_pixel }
  let p := { p with use_row := replacement.use_row }
  { blk with predictors_ := { blk.predictors_ with above_right_bottom_row_predictor := p } }

/-- Modelled from the spec: the members of a `Raster` that are declared and initialised
outside `prediction.cc`: the grids of 16x16 Y blocks, of 8x8 U and V blocks and of 4x4
sub-blocks, each addressed by `(column, row)`. -/
structure RasterBlocks where
  Y_bigblocks_ : Nat → Nat → Block
  U_bigblocks_ : Nat → Nat → Block
  V_bigblocks_ : Nat → Nat → Block
  Y_subblocks_ : Nat → Nat → Block
  U_subblocks_ : Nat → Nat → Block
  V_subblocks_ : Nat → Nat → Block

/-- Embeds `Raster`: the members above and the two display dimensions that the constructor
of `prediction.cc` stores. -/
structure Raster extends RasterBlocks where
  display_width_ : Nat
  display_height_ : Nat

/-- Modelled from the spec: the exception `Unsupported` (declared outside `prediction.cc`)
and its message. -/
structure Unsupported where
  what : String
  deriving DecidableEq, Repr

/-- Embeds the constructor `Raster::Raster( display_width, display_height )`; `members` stands
for the members that are initialised outside `prediction.cc`. -/
def Raster.new (display_width display_height : Nat) (members : RasterBlocks) :
    Except Unsupported Raster :=
  let raster : Raster :=
    { members with display_width_ := display_width, display_height_ := display_height }
  if raster.display_width_ % 2 ≠ 0 ∨ raster.display_height_ % 2 ≠ 0 then
    Except.error (Unsupported.mk "display dimensions must be even")
  else
    Except.ok raster

/-- Modelled from the spec: `TwoD< Macroblock >::Context` (declared outside
`prediction.cc`); the constructor of a macroblock uses the position only. -/
structure MacroblockContext where
  column : Nat
  row : Nat

/-- Embeds `Raster::Macroblock`: references to the three blocks of the macroblock and views
of its sub-blocks, addressed by `(column, row)` local to the macroblock. A reference holds the
block it refers to when the constructor returns. -/
structure Macroblock where
  Y : Block
  U : Block
  V : Block
  Y_sub : Nat → Nat → Block
  U_sub : Nat → Nat → Block
  V_sub : Nat → Nat → Block

/-- An assignment through the view `Y_sub`, which lands in the grid `Y_subblocks_` of the
raster. -/
def Raster.set_Y_subblock (raster : Raster) (column row : Nat) (blk : Block) : Raster :=
  { raster with
    Y_subblocks_ := fun c r => if c = column ∧ r = row then blk else raster.Y_subblocks_ c r }

/-- Embeds the constructor `Raster::Macroblock::Macroblock( c, raster )`. The anchors
`4 * c.column` and `2 * c.column` are `unsigned int` products. The loop runs `row` over
1, 2, 3 and changes blocks that the raster owns, so the raster is returned as well. -/
def Macroblock.new (c : MacroblockContext) (raster : Raster) : Macroblock × Raster :=
  let raster := forLoop (fun i (raster : Raster) =>
      let row := 1 + i
      let Y_sub : Nat → Nat → Block := fun column row =>
        raster.Y_subblocks_ (4 * c.column % 4294967296 + column) (4 * c.row % 4294967296 + row)
      raster.set_Y_subblock (4 * c.column % 4294967296 + 3) (4 * c.row % 4294967296 + row)
        (Block4.set_above_right_bottom_row_predictor (Y_sub 3 row)
          (Y_sub 3 0).predictors_.above_right_bottom_row_predictor)) 3 raster
  ({ Y := raster.Y_bigblocks_ c.column c.row
     U := raster.U_bigblocks_ c.column c.row
     V := raster.V_bigblocks_ c.column c.row
     Y_sub := fun column row =>
       raster.Y_subblocks_ (4 * c.column % 4294967296 + column) (4 * c.row % 4294967296 + row)
     U_sub := fun column row =>
       raster.U_subblocks_ (2 * c.column % 4294967296 + column) (2 * c.row % 4294967296 + row)
     V_sub := fun column row =>
       raster.V_subblocks_ (2 * c.column % 4294967296 + column) (2 * c.row % 4294967296 + row) },
   raster)

/-! ## Inter prediction -/

/-- Embeds `EdgeExtendedRaster::at`: the read of `master` with the column clamped to
`[0, width - 1]` and the row to `[0, height - 1]`. -/
def EdgeExtendedRaster.at (master : TwoD) (column row : Int) : Option Nat :=
  let bounded_column := column
  let bounded_column := if bounded_column < 0 then 0 else bounded_column
  let bounded_column :=
    if bounded_column > toInt32 (toUInt32 (master.width - 1))
    then toInt32 (toUInt32 (master.width - 1)) else bounded_column
  let bounded_row := row
  let bounded_row := if bounded_row < 0 then 0 else bounded_row
  let bounded_row :=
    if bounded_row > toInt32 (toUInt32 (master.height - 1))
    then toInt32 (toUInt32 (master.height - 1)) else bounded_row
  master.at (toUInt32 bounded_column).toNat (toUInt32 bounded_row).toNat

/-- The table `sixtap_filters`: eight filters of six taps. -/
def sixtap_filters : List (List Int) :=
  [ [0,  0,  128,    0,   0,  0],
    [0, -6,  123,   12,  -1,  0],
    [2, -11, 108,   36,  -8,  1],
    [0, -9,   93,   50,  -6,  0],
    [3, -16,  77,   77, -16,  3],
    [0, -6,   50,   93,  -9,  0],
    [1, -8,   36,  108, -11,  2],
    [0, -1,   12,  123,  -6,  0] ]

/-- The expression both predictors evaluate for a filtered sample:
`clamp255( ( s0 * filter.at( 0 ) + ... + s5 * filter.at( 5 ) + 64 ) >> 7 )`, with the
bounds-checked `SafeArray::at`. -/
def sixtap (filter : List Int) (s0 s1 s2 s3 s4 s5 : Nat) : Option Nat := do
  let t0 ← filter[0]?
  let t1 ← filter[1]?
  let t2 ← filter[2]?
  let t3 ← filter[3]?
  let t4 ← filter[4]?
  let t5 ← filter[5]?
  pure (clamp255 (((s0 : Int) * t0 + s1 * t1 + s2 * t2 + s3 * t3 + s4 * t4 + s5 * t5 + 64) / 128))

/-- Embeds `Raster::Block<size>::inter_predict`, for a reference read through
`reference column row` (the template parameter `ReferenceType`). -/
def inter_predict (size : Nat) (mv : MotionVector) (reference : Int → Int → Option Nat)
    (source_column source_row : Int) (contents_ : Contents) : Option Contents :=
  if mv.x % 8 = 0 ∧ mv.y % 8 = 0 then
    contents_.forall_ijM size (fun _ column row =>
      reference (toInt32 (toUInt32 (source_column + column)))
                (toInt32 (toUInt32 (source_row + row))))
  else do
    let horizontal_filter ← sixtap_filters[(mv.x % 8).toNat]?
    let intermediate ← forLoopM (fun row im => forLoopM (fun column (im : Contents) => do
        let real_row := source_row + row - 2
        let real_column := source_column + column
        let s0 ← reference (real_column - 2) real_row
        let s1 ← reference (real_column - 1) real_row
        let s2 ← reference real_column real_row
        let s3 ← reference (real_column + 1) real_row
        let s4 ← reference (real_column + 2) real_row
        let s5 ← reference (real_column + 3) real_row
        let v ← sixtap horizontal_filter s0 s1 s2 s3 s4 s5
        pure (im.set column row v)) size im) (size + 5) (fun _ _ => 0)
    let vertical_filter ← sixtap_filters[(mv.y % 8).toNat]?
    forLoopM (fun row b => forLoopM (fun column (b : Contents) => do
        let v ← sixtap vertical_filter (intermediate column row) (intermediate column (row + 1))
                  (intermediate column (row + 2)) (intermediate column (row + 3))
                  (intermediate column (row + 4)) (intermediate column (row + 5))
        pure (b.set column row v)) size b) size contents_

/-- The state of the copy loop of `unsafe_inter_predict`: the two running pointers and the
destination. -/
structure CopyState where
  dest_row_start : Nat
  src_row_start : Nat
  contents : Contents

/-- The state of the horizontal pass of `unsafe_inter_predict`: the pointer into the
intermediate array, the pointer into the reference, and the intermediate array (flat). -/
structure HState where
  intermediate_row_start : Nat
  src_row_start : Nat
  intermediate : Nat → Nat

/-- The state of the vertical pass of `unsafe_inter_predict`: the pointer into the
destination, the pointer into the intermediate array, and the destination. -/
structure VState where
  dest_row_start : Nat
  intermediate_row_start : Nat
  contents : Contents

/-- The copy loop of `unsafe_inter_predict` (both phases zero): `size` rows of `size` bytes,
`memcpy`ed from the reference pointer `src_row_start` to the destination, both pointers
advancing by `stride` per row. -/
def unsafe_copy_rows (size stride : Nat) (reference : TwoD) (src_row_start : Nat)
    (contents_ : Contents) : Option Contents := do
  let dest_row_start := 0
  let dest_last_row_start := dest_row_start + size * stride
  let s ← whileLoop (fun s : CopyState => s.dest_row_start != dest_last_row_start)
    (fun s => do
      let contents ← forLoopM (fun k (b : Contents) => do
          let v ← reference.storage[s.src_row_start + k]?
          pure (b.store stride (s.dest_row_start + k) v)) size s.contents
      pure ⟨s.dest_row_start + stride, s.src_row_start + stride, contents⟩)
    (size * stride + 1) ⟨dest_row_start, src_row_start, contents_⟩
  pure s.contents

/-- The first block of `unsafe_inter_predict`: the horizontal pass, from the reference
pointer `src_row_start` into the flat intermediate array of `size + 5` rows. -/
def unsafe_horizontal_pass (size stride : Nat) (reference : TwoD)
    (horizontal_filter : List Int) (src_row_start : Nat) : Option (Nat → Nat) := do
  let intermediate_row_start := 0
  let intermediate_last_row_start := intermediate_row_start + size * (size + 5)
  let h ← whileLoop (fun s : HState => s.intermediate_row_start != intermediate_last_row_start)
    (fun s => do
      let intermediate ← forLoopM (fun k (im : Nat → Nat) => do
          let s0 ← reference.storage[s.src_row_start + k]?
          let s1 ← reference.storage[s.src_row_start + k + 1]?
          let s2 ← reference.storage[s.src_row_start + k + 2]?
          let s3 ← reference.storage[s.src_row_start + k + 3]?
          let s4 ← reference.storage[s.src_row_start + k + 4]?
          let s5 ← reference.storage[s.src_row_start + k + 5]?
          let v ← sixtap horizontal_filter s0 s1 s2 s3 s4 s5
          pure (Function.update im (s.intermediate_row_start + k) v)) size s.intermediate
      pure ⟨s.intermediate_row_start + size,
            s.src_row_start + size + (toUInt32 ((stride : Int) - size)).toNat, intermediate⟩)
    (size * (size + 5) + 1) ⟨intermediate_row_start, src_row_start, fun _ => 0⟩
  pure h.intermediate

/-- The second block of `unsafe_inter_predict`: the vertical pass, from the flat intermediate
array into the destination. -/
def unsafe_vertical_pass (size stride : Nat) (vertical_filter : List Int)
    (intermediate : Nat → Nat) (contents_ : Contents) : Option Contents := do
  let dest_row_start := 0
  let dest_last_row_start := dest_row_start + size * stride
  let intermediate_row_start := 0
  let s ← whileLoop (fun s : VState => s.dest_row_start != dest_last_row_start)
    (fun s => do
      let contents ← forLoopM (fun k (b : Contents) => do
          let i := s.intermediate_row_start + k
          let v ← sixtap vertical_filter (intermediate i) (intermediate (i + size))
                    (intermediate (i + size * 2)) (intermediate (i + size * 3))
                    (intermediate (i + size * 4)) (intermediate (i + size * 5))
          pure (b.store stride (s.dest_row_start + k) v)) size s.contents
      pure ⟨s.dest_row_start + size + (toUInt32 ((stride : Int) - size)).toNat,
            s.intermediate_row_start + size, contents⟩)
    (size * stride + 1) ⟨dest_row_start, intermediate_row_start, contents_⟩
  pure s.contents

/-- Embeds `Raster::Block<size>::unsafe_inter_predict`. `stride` is `contents_.stride()`. Pointers
into the reference are indices into its storage, pointers into the intermediate array are
indices into the flat array, pointers into the destination are offsets from
`&contents_.at( 0, 0 )`. The inner loops run from a pointer to that pointer plus `size` in
steps of one, which is `size` iterations; the outer loops test a running pointer against an
end pointer and get as fuel the distance between the two, plus one. -/
def unsafe_inter_predict (size stride : Nat) (mv : MotionVector) (reference : TwoD)
    (source_column source_row : Int) (contents_ : Contents) : Option Contents :=
  if stride ≠ reference.width then none else
  let mx := toUInt8 (mv.x % 8)
  let my := toUInt8 (mv.y % 8)
  if mx % 8 = 0 ∧ my % 8 = 0 then do
    let src_row_start ← reference.addr (toUInt32 source_column).toNat (toUInt32 source_row).toNat
    unsafe_copy_rows size stride reference src_row_start contents_
  else do
    let src_row_start ←
      reference.addr (toUInt32 (source_column - 2)).toNat (toUInt32 (source_row - 2)).toNat
    let horizontal_filter ← sixtap_filters[mx]?
    let intermediate ← unsafe_horizontal_pass size stride reference horizontal_filter src_row_start
    let vertical_filter ← sixtap_filters[my]?
    unsafe_vertical_pass size stride vertical_filter intermediate contents_

/-- The local `source_column` of `safe_inter_predict`:
`context().column * size + (mv.x() >> 3)`, an `unsigned int` sum converted to `int`. -/
def source_column (size column : Nat) (mv : MotionVector) : Int :=
  toInt32 (toUInt32 ((column : Int) * size + mv.x / 8))

/-- The local `source_row` of `safe_inter_predict`. -/
def source_row (size row : Nat) (mv : MotionVector) : Int :=
  toInt32 (toUInt32 ((row : Int) * size + mv.y / 8))

/-- The guard of `safe_inter_predict`; the sums with `size` are `unsigned int`. -/
def needs_edge_extension (size : Nat) (reference : TwoD) (source_column source_row : Int) :
    Prop :=
  source_column - 2 < 0
    ∨ toUInt32 (source_column + size + 3) > reference.width
    ∨ source_row - 2 < 0
    ∨ toUInt32 (source_row + size + 3) > reference.height

instance (size : Nat) (reference : TwoD) (source_column source_row : Int) :
    Decidable (needs_edge_extension size reference source_column source_row) :=
  inferInstanceAs (Decidable (source_column - 2 < 0
    ∨ toUInt32 (source_column + size + 3) > reference.width
    ∨ source_row - 2 < 0
    ∨ toUInt32 (source_row + size + 3) > reference.height))

/-- Embeds `Raster::Block<size>::safe_inter_predict` for the block at `(column, row)` of its grid,
whose views have row pitch `stride`. -/
def safe_inter_predict (size column row stride : Nat) (mv : MotionVector) (reference : TwoD)
    (contents_ : Contents) : Option Contents :=
  if needs_edge_extension size reference (source_column size column mv)
      (source_row size row mv) then
    inter_predict size mv (EdgeExtendedRaster.at reference) (source_column size column mv)
      (source_row size row mv) contents_
  else
    unsafe_inter_predict size stride mv reference (source_column size column mv)
      (source_row size row mv) contents_

/-! ## The reads of the fast path -/

/-- The copy loop of `unsafe_inter_predict` as in `unsafe_copy_rows`, recording in order the
addresses of the reference that it reads. -/
def unsafe_copy_rows_traced (size stride : Nat) (reference : TwoD) (src_row_start : Nat)
    (contents_ : Contents) : Option (Contents × List Nat) := do
  let dest_row_start := 0
  let dest_last_row_start := dest_row_start + size * stride
  let s ← whileLoop (fun s : CopyState × List Nat => s.1.dest_row_start != dest_last_row_start)
    (fun s => do
      let r ← forLoopM (fun k (b : Contents × List Nat) => do
          let v ← reference.storage[s.1.src_row_start + k]?
          pure (b.1.store stride (s.1.dest_row_start + k) v, b.2 ++ [s.1.src_row_start + k]))
        size (s.1.contents, s.2)
      pure (⟨s.1.dest_row_start + stride, s.1.src_row_start + stride, r.1⟩, r.2))
    (size * stride + 1) (⟨dest_row_start, src_row_start, contents_⟩, [])
  pure (s.1.contents, s.2)

/-- The horizontal pass of `unsafe_inter_predict` as in `unsafe_horizontal_pass`, recording in
order the addresses of the reference that it reads. -/
def unsafe_horizontal_pass_traced (size stride : Nat) (reference : TwoD)
    (horizontal_filter : List Int) (src_row_start : Nat) : Option ((Nat → Nat) × List Nat) := do
  let intermediate_row_start := 0
  let intermediate_last_row_start := intermediate_row_start + size * (size + 5)
  let h ← whileLoop
    (fun s : HState × List Nat => s.1.intermediate_row_start != intermediate_last_row_start)
    (fun s => do
      let r ← forLoopM (fun k (im : (Nat → Nat) × List Nat) => do
          let s0 ← reference.storage[s.1.src_row_start + k]?
          let s1 ← reference.storage[s.1.src_row_start + k + 1]?
          let s2 ← reference.storage[s.1.src_row_start + k + 2]?
          let s3 ← reference.storage[s.1.src_row_start + k + 3]?
          let s4 ← reference.storage[s.1.src_row_start + k + 4]?
          let s5 ← reference.storage[s.1.src_row_start + k + 5]?
          let v ← sixtap horizontal_filter s0 s1 s2 s3 s4 s5
          pure (Function.update im.1 (s.1.intermediate_row_start + k) v,
            im.2 ++ [s.1.src_row_start + k, s.1.src_row_start + k + 1,
              s.1.src_row_start + k + 2, s.1.src_row_start + k + 3,
              s.1.src_row_start + k + 4, s.1.src_row_start + k + 5]))
        size (s.1.intermediate, s.2)
      pure (⟨s.1.intermediate_row_start + size,
             s.1.src_row_start + size + (toUInt32 ((stride : Int) - size)).toNat, r.1⟩, r.2))
    (size * (size + 5) + 1) (⟨intermediate_row_start, src_row_start, fun _ => 0⟩, [])
  pure (h.1.intermediate, h.2)

/-- Embeds `Raster::Block<size>::unsafe_inter_predict` as `unsafe_inter_predict` does, and
returns with the block the addresses of the reference that were read; the vertical pass
reads the intermediate array only. -/
def unsafe_inter_predict_traced (size stride : Nat) (mv : MotionVector) (reference : TwoD)
    (source_column source_row : Int) (contents_ : Contents) : Option (Contents × List Nat) :=
  if stride ≠ reference.width then none else
  let mx := toUInt8 (mv.x % 8)
  let my := toUInt8 (mv.y % 8)
  if mx % 8 = 0 ∧ my % 8 = 0 then do
    let src_row_start ← reference.addr (toUInt32 source_column).toNat (toUInt32 source_row).toNat
    unsafe_copy_rows_traced size stride reference src_row_start contents_
  else do
    let src_row_start ←
      reference.addr (toUInt32 (source_column - 2)).toNat (toUInt32 (source_row - 2)).toNat
    let horizontal_filter ← sixtap_filters[mx]?
    let h ← unsafe_horizontal_pass_traced size stride reference horizontal_filter src_row_start
    let vertical_filter ← sixtap_filters[my]?
    let contents ← unsafe_vertical_pass size stride vertical_filter h.1 contents_
    pure (contents, h.2)

/-! ## The predicted samples in closed form -/

/-- The six-tap filter of the table row `p` as a total function: the value `sixtap` returns
on the row `sixtap_filters[p]`. -/
def filtered (p : Nat) (s0 s1 s2 s3 s4 s5 : Nat) : Nat :=
  ((sixtap_filters[p]?).bind (fun f => sixtap f s0 s1 s2 s3 s4 s5)).getD 0

/-- The intermediate sample `(column, row)` of the horizontal pass over the reads `R`. -/
def interRow (mv : MotionVector) (R : Int → Int → Nat) (sc sr : Int) (column row : Nat) : Nat :=
  filtered (mv.x % 8).toNat
    (R (sc + column - 2) (sr + row - 2)) (R (sc + column - 1) (sr + row - 2))
    (R (sc + column) (sr + row - 2)) (R (sc + column + 1) (sr + row - 2))
    (R (sc + column + 2) (sr + row - 2)) (R (sc + column + 3) (sr + row - 2))

/-- The predicted sample `(column, row)` over the reads `R`. -/
def interCell (mv : MotionVector) (R : Int → Int → Nat) (sc sr : Int) (column row : Nat) : Nat :=
  if mv.x % 8 = 0 ∧ mv.y % 8 = 0 then
    R (toInt32 (toUInt32 (sc + column))) (toInt32 (toUInt32 (sr + row)))
  else
    filtered (mv.y % 8).toNat
      (interRow mv R sc sr column row) (interRow mv R sc sr column (row + 1))
      (interRow mv R sc sr column (row + 2)) (interRow mv R sc sr column (row + 3))
      (interRow mv R sc sr column (row + 4)) (interRow mv R sc sr column (row + 5))

/-- The tap table as printed in section 4.4 of the spec, by phase. -/
def spec_taps : Nat → List Int
  | 0 => [0, 0, 128, 0, 0, 0]
  | 1 => [0, -6, 123, 12, -1, 0]
  | 2 => [2, -11, 108, 36, -8, 1]
  | 3 => [0, -9, 93, 50, -6, 0]
  | 4 => [3, -16, 77, 77, -16, 3]
  | 5 => [0, -6, 50, 93, -9, 0]
  | 6 => [1, -8, 36, 108, -11, 2]
  | 7 => [0, -1, 12, 123, -6, 0]
  | _ => []

/-- The filter application of the spec for the phase `p`:
`clamp255((s0·t0 + s1·t1 + s2·t2 + s3·t3 + s4·t4 + s5·t5 + 64) >> 7)`, with
`clamp255(x) = max(0, min(255, x))` and `>>` the flooring shift. -/
def spec_filter (p : Nat) (s0 s1 s2 s3 s4 s5 : Nat) : Nat :=
  match spec_taps p with
  | [t0, t1, t2, t3, t4, t5] =>
    (max 0 (min 255 (((s0 : Int) * t0 + s1 * t1 + s2 * t2 + s3 * t3 + s4 * t4 + s5 * t5 + 64)
      >>> (7 : Nat)))).toNat
  | _ => 0

/-- The integer source offset of the spec: `src_col = block.col·S + (mv.x >> 3)`, and the
same for rows, as a mathematical integer. -/
def spec_src (size pos : Nat) (v : Int) : Int := (pos : Int) * size + (v >>> (3 : Nat))

/-- The reference read of the spec: the sample at the column clamped to `[0, W - 1]` and the
row clamped to `[0, H - 1]`. -/
def spec_read (reference : TwoD) (x y : Int) : Option Nat :=
  reference.at (max 0 (min ((reference.width : Int) - 1) x)).toNat
    (max 0 (min ((reference.height : Int) - 1) y)).toNat

/-- The read of the edge-extended reference as a total function. -/
def edgeRead (reference : TwoD) (column row : Int) : Nat :=
  (EdgeExtendedRaster.at reference column row).getD 0

/-! ## Well-formed inputs -/

/-- Every sample the predictors can read is a `uint8_t`. -/
def Predictors.valid (size : Nat) (p : Predictors) : Prop :=
  (∀ i, i < size → p.above_row i ≤ 255) ∧ (∀ i, i < size → p.left_column i ≤ 255)
    ∧ p.above_left ≤ 255
    ∧ (∀ i, i < size → p.above_right_bottom_row_predictor.above_right_bottom_row i ≤ 255)
    ∧ p.above_right_bottom_row_predictor.above_bottom_right_pixel ≤ 255

instance (size : Nat) (p : Predictors) : Decidable (p.valid size) :=
  inferInstanceAs (Decidable ((∀ i, i < size → p.above_row i ≤ 255)
    ∧ (∀ i, i < size → p.left_column i ≤ 255)
    ∧ p.above_left ≤ 255
    ∧ (∀ i, i < size → p.above_right_bottom_row_predictor.above_right_bottom_row i ≤ 255)
    ∧ p.above_right_bottom_row_predictor.above_bottom_right_pixel ≤ 255))

/-- The dimensions of a grid fit an `int`, and its storage holds `width * height` samples. -/
def TwoD.valid (g : TwoD) : Prop :=
  0 < g.width ∧ g.width < 2147483648 ∧ 0 < g.height ∧ g.height < 2147483648
    ∧ g.storage.length = g.width * g.height

instance (g : TwoD) : Decidable g.valid :=
  inferInstanceAs (Decidable (0 < g.width ∧ g.width < 2147483648 ∧ 0 < g.height
    ∧ g.height < 2147483648 ∧ g.storage.length = g.width * g.height))

/-- Every sample of a grid is a `uint8_t`. -/
def TwoD.is8bit (g : TwoD) : Prop := ∀ v, v ∈ g.storage → v ≤ 255

instance (g : TwoD) : Decidable g.is8bit :=
  inferInstanceAs (Decidable (∀ v, v ∈ g.storage → v ≤ 255))

/-- The components of a motion vector are `int16_t`. -/
def MotionVector.valid (mv : MotionVector) : Prop :=
  -32768 ≤ mv.x ∧ mv.x < 32768 ∧ -32768 ≤ mv.y ∧ mv.y < 32768

instance (mv : MotionVector) : Decidable mv.valid :=
  inferInstanceAs (Decidable (-32768 ≤ mv.x ∧ mv.x < 32768 ∧ -32768 ≤ mv.y ∧ mv.y < 32768))

/-- Every sample of the `size` by `size` contents of a block is a `uint8_t`. -/
def Contents.is8bit (size : Nat) (n : Contents) : Prop :=
  ∀ x, x < size → ∀ y, y < size → n x y ≤ 255

instance (size : Nat) (n : Contents) : Decidable (Contents.is8bit size n) :=
  inferInstanceAs (Decidable (∀ x, x < size → ∀ y, y < size → n x y ≤ 255))

/-- Every sample of every neighbour of the context is a `uint8_t`. -/
def Context.valid (size : Nat) (c : Context) : Prop :=
  (∀ n ∈ c.left, Contents.is8bit size n) ∧ (∀ n ∈ c.above_left, Contents.is8bit size n)
    ∧ (∀ n ∈ c.above, Contents.is8bit size n) ∧ (∀ n ∈ c.above_right, Contents.is8bit size n)

instance (size : Nat) (c : Context) : Decidable (c.valid size) :=
  inferInstanceAs (Decidable ((∀ n ∈ c.left, Contents.is8bit size n)
    ∧ (∀ n ∈ c.above_left, Contents.is8bit size n)
    ∧ (∀ n ∈ c.above, Contents.is8bit size n) ∧ (∀ n ∈ c.above_right, Contents.is8bit size n)))

/-! ## Example inputs -/

/-- A 12x12 reference grid. -/
def exampleReference : TwoD :=
  ⟨12, 12, (List.range 144).map (fun i => (i * 37 + (i / 12) * 11) % 256)⟩

/-- A 24x24 reference grid. -/
def exampleReference24 : TwoD :=
  ⟨24, 24, (List.range 576).map (fun i => (i * 13 + 5) % 256)⟩

/-- A motion vector with both phases non-zero. -/
def exampleVector : MotionVector := ⟨3, 5⟩

/-- A motion vector with horizontal phase 4 and vertical phase 0. -/
def exampleVectorH : MotionVector := ⟨4, 0⟩

/-- A context with the above and the left neighbour present, both filled with 128. -/
def exampleContext : Context :=
  { column := 1, row := 1, left := some (fun _ _ => 128), above_left := none,
    above := some (fun _ _ => 128), above_right := none }

/-- The context of the top-left block of a frame: no neighbour. -/
def exampleContextCorner : Context :=
  { column := 0, row := 0, left := none, above_left := none, above := none,
    above_right := none }

/-- A context that depends on the position: the above neighbour is filled with
`10 * column + row`, and in row 0 only there is an above-right neighbour whose column `c`
holds `c + column`. -/
def exampleBlockContext (column row : Nat) : Context :=
  { column := column, row := row, left := none, above_left := none,
    above := some (fun _ _ => 10 * column + row),
    above_right := if row = 0 then some (fun c _ => c + column) else none }

/-- A raster whose blocks are freshly constructed with `exampleBlockContext` and
hold the sample 0 everywhere. -/
def exampleRaster : Raster :=
  { Y_bigblocks_ := fun x y => Block.new 16 (exampleBlockContext x y) (fun _ _ => 0),
    U_bigblocks_ := fun x y => Block.new 8 (exampleBlockContext x y) (fun _ _ => 0),
    V_bigblocks_ := fun x y => Block.new 8 (exampleBlockContext x y) (fun _ _ => 0),
    Y_subblocks_ := fun x y => Block.new 4 (exampleBlockContext x y) (fun _ _ => 0),
    U_subblocks_ := fun x y => Block.new 4 (exampleBlockContext x y) (fun _ _ => 0),
    V_subblocks_ := fun x y => Block.new 4 (exampleBlockContext x y) (fun _ _ => 0),
    display_width_ := 32, display_height_ := 32 }

/-- A 12x12 reference grid whose samples are all 100. -/
def exampleConstantReference : TwoD := ⟨12, 12, List.replicate 144 100⟩

/-! ## Auxiliary lemmas -/

theorem toUInt8_eq (x : Int) (h0 : 0 ≤ x) (h : x ≤ 255) : (toUInt8 x : Int) = x := by
  unfold toUInt8
  omega

theorem clamp255_le (x : Int) : clamp255 x ≤ 255 := by
  unfold clamp255
  split_ifs <;> omega

theorem clamp255_eq_max_min (x : Int) : (clamp255 x : Int) = max 0 (min 255 x) := by
  unfold clamp255
  split_ifs <;> omega

theorem sum_eq_aux (view : Nat → Nat) (n : Nat) (hn : n ≤ 16) (hv : ∀ i, i < n → view i ≤ 255) :
    forLoop (fun i acc => toInt16 (acc + view i)) n 0 = ((∑ i ∈ Finset.range n, view i : Nat) : Int)
      ∧ (∑ i ∈ Finset.range n, view i) ≤ 255 * n := by
  induction n with
  | zero => simp [forLoop]
  | succ k ih =>
    obtain ⟨h1, h2⟩ := ih (by omega) (fun i hi => hv i (by omega))
    have hk := hv k (by omega)
    rw [Finset.sum_range_succ]
    refine ⟨?_, by omega⟩
    generalize (∑ i ∈ Finset.range k, view i) = t at h1 h2
    show toInt16 (forLoop (fun i acc => toInt16 (acc + view i)) k 0 + view k) = _
    rw [h1]
    unfold toInt16
    push_cast
    omega

theorem sum_eq (size : Nat) (view : Nat → Nat) (hn : size ≤ 16)
    (hv : ∀ i, i < size → view i ≤ 255) :
    sum size view = ((∑ i ∈ Finset.range size, view i : Nat) : Int) :=
  (sum_eq_aux view size hn hv).1

theorem sum_le (size : Nat) (view : Nat → Nat) (hv : ∀ i, i < size → view i ≤ 255) :
    (∑ i ∈ Finset.range size, view i) ≤ 255 * size := by
  induction size with
  | zero => simp
  | succ k ih =>
    have := ih (fun i hi => hv i (by omega))
    have hk := hv k (by omega)
    rw [Finset.sum_range_succ]
    omega

theorem forLoop_row_fill (size : Nat) (f : Nat → Nat) (b : Contents) (n c r : Nat) :
    forLoop (fun row (b : Contents) => b.row_fill size row (f row)) n b c r
      = if c < size ∧ r < n then f r else b c r := by
  induction n with
  | zero => simp [forLoop]
  | succ k ih =>
    simp only [forLoop, Contents.row_fill, ih]
    split_ifs with h1 <;> first | rfl | (exfalso; omega) | rw [h1.2]

theorem forLoop_column_fill (size : Nat) (f : Nat → Nat) (b : Contents) (n c r : Nat) :
    forLoop (fun column (b : Contents) => b.column_fill size column (f column)) n b c r
      = if c < n ∧ r < size then f c else b c r := by
  induction n with
  | zero => simp [forLoop]
  | succ k ih =>
    simp only [forLoop, Contents.column_fill, ih]
    split_ifs with h1 <;> first | rfl | (exfalso; omega) | rw [h1.1]

theorem Predictors.new_valid (size : Nat) (c : Context) (hs : 0 < size) (h : c.valid size) :
    (Predictors.new size c).valid size := by
  obtain ⟨hl, hal, ha, har⟩ := h
  unfold Predictors.valid Predictors.new
  refine ⟨?_, ?_, ?_, ?_, ?_⟩
  · intro i hi
    cases hc : c.above with
    | none => simp [Predictors.row127]
    | some n => exact ha n hc i hi _ (by omega)
  · intro i hi
    cases hc : c.left with
    | none => simp [Predictors.col129]
    | some n => exact hl n hc _ (by omega) i hi
  · cases hc : c.above_left with
    | none => cases hc2 : c.above <;> simp [Predictors.row127, Predictors.col129]
    | some n => exact hal n hc _ (by omega) _ (by omega)
  · intro i hi
    cases hc : c.above_right with
    | none => simp [Predictors.row127]
    | some n => exact har n hc i hi _ (by omega)
  · cases hc : c.above with
    | none => simp [Predictors.row127]
    | some n => exact ha n hc _ (by omega) _ (by omega)

theorem dc_value_both (a b : Nat → Nat) (k : Nat) (hk : k = 2 ∨ k = 3 ∨ k = 4)
    (ha : ∀ i, i < 2 ^ k → a i ≤ 255) (hb : ∀ i, i < 2 ^ k → b i ≤ 255) :
    toUInt8 ((sum (2 ^ k) a + sum (2 ^ k) b + 2 ^ log2size (2 ^ k)) / 2 ^ (log2size (2 ^ k) + 1))
      = ((∑ i ∈ range (2 ^ k), a i) + (∑ i ∈ range (2 ^ k), b i) + 1 <<< k) >>> (k + 1) := by
  have h1 := sum_le _ a ha
  have h2 := sum_le _ b hb
  rw [sum_eq _ a (by rcases hk with rfl | rfl | rfl <;> norm_num) ha,
    sum_eq _ b (by rcases hk with rfl | rfl | rfl <;> norm_num) hb]
  generalize (∑ i ∈ range (2 ^ k), a i) = sa at h1 ⊢
  generalize (∑ i ∈ range (2 ^ k), b i) = sb at h2 ⊢
  rcases hk with rfl | rfl | rfl <;>
    simp only [log2size, Nat.shiftLeft_eq, Nat.shiftRight_eq_div_pow, toUInt8] <;>
    norm_num at h1 h2 ⊢ <;> omega

theorem dc_value_one (a : Nat → Nat) (k : Nat) (hk : k = 2 ∨ k = 3 ∨ k = 4)
    (ha : ∀ i, i < 2 ^ k → a i ≤ 255) :
    toUInt8 ((sum (2 ^ k) a + 2 ^ (log2size (2 ^ k) - 1)) / 2 ^ log2size (2 ^ k))
      = ((∑ i ∈ range (2 ^ k), a i) + 1 <<< (k - 1)) >>> k := by
  have h1 := sum_le _ a ha
  rw [sum_eq _ a (by rcases hk with rfl | rfl | rfl <;> norm_num) ha]
  generalize (∑ i ∈ range (2 ^ k), a i) = sa at h1 ⊢
  rcases hk with rfl | rfl | rfl <;>
    simp only [log2size, Nat.shiftLeft_eq, Nat.shiftRight_eq_div_pow, toUInt8] <;>
    norm_num at h1 ⊢ <;> omega

theorem avg3_eq (x y z : Nat) (hx : x ≤ 255) (hy : y ≤ 255) (hz : z ≤ 255) :
    avg3 x y z = (x + 2 * y + z + 2) >>> 2 := by
  simp only [avg3, toUInt8, Nat.shiftRight_eq_div_pow]
  omega

theorem avg2_eq (x y : Nat) (hx : x ≤ 255) (hy : y ≤ 255) :
    avg2 x y = (x + y + 1) >>> 1 := by
  simp only [avg2, toUInt8, Nat.shiftRight_eq_div_pow]
  omega

/-- The value `above( column )` of a 4x4 block for a column in `0 .. 7`. -/
theorem Block.above_eq (blk : Block) (k : Nat) (hk : k < 8) :
    blk.above (k : Int) = some (if k < 4 then blk.predictors_.above_row k
      else blk.predictors_.above_right_bottom_row_predictor.above_right (k - 4)) := by
  have h : k = 0 ∨ k = 1 ∨ k = 2 ∨ k = 3 ∨ k = 4 ∨ k = 5 ∨ k = 6 ∨ k = 7 := by omega
  rcases h with rfl | rfl | rfl | rfl | rfl | rfl | rfl | rfl <;>
    simp [Block.above, Predictors.above, toInt8, toInt32, toUInt32]

theorem sixtap_filters_get (p : Nat) (hp : p < 8) :
    ∃ f, sixtap_filters[p]? = some f ∧ ∀ s0 s1 s2 s3 s4 s5,
      sixtap f s0 s1 s2 s3 s4 s5 = some (filtered p s0 s1 s2 s3 s4 s5) := by
  interval_cases p <;> exact ⟨_, rfl, fun _ _ _ _ _ _ => rfl⟩

theorem forLoopM_set_inner (body : Nat → Contents → Option Contents) (row : Nat) (v : Nat → Nat)
    (n : Nat) (h : ∀ c, c < n → ∀ b, body c b = some (b.set c row (v c))) (b : Contents) :
    forLoopM body n b = some (fun c r => if c < n ∧ r = row then v c else b c r) := by
  induction n with
  | zero => simp [forLoopM]
  | succ k ih =>
    rw [forLoopM, ih (fun c hc => h c (by omega)), Option.some_bind, h k (by omega)]
    congr 1
    funext c r
    simp only [Contents.set]
    split_ifs with h1 h2 h3 <;> first | rfl | (exfalso; omega) | rw [h1.1]

theorem forLoopM_set_outer (body : Nat → Contents → Option Contents) (n : Nat)
    (v : Nat → Nat → Nat) (m : Nat)
    (h : ∀ r, r < m → ∀ b : Contents,
      body r b = some (fun c r' => if c < n ∧ r' = r then v c r else b c r'))
    (b : Contents) :
    forLoopM body m b = some (fun c r => if c < n ∧ r < m then v c r else b c r) := by
  induction m with
  | zero => simp [forLoopM]
  | succ k ih =>
    rw [forLoopM, ih (fun r hr => h r (by omega)), Option.some_bind, h k (by omega)]
    congr 1
    funext c r
    split_ifs with h1 h2 h3 <;> first | rfl | (exfalso; omega) | rw [h1.2]

theorem phase_lt (x : Int) : (x % 8).toNat < 8 := by omega

theorem inter_predict_eq (size : Nat) (mv : MotionVector) (reference : Int → Int → Option Nat)
    (R : Int → Int → Nat) (hR : ∀ x y, reference x y = some (R x y)) (sc sr : Int)
    (b : Contents) :
    inter_predict size mv reference sc sr b
      = some (fun c r => if c < size ∧ r < size then interCell mv R sc sr c r else b c r) := by
  unfold inter_predict
  by_cases h : mv.x % 8 = 0 ∧ mv.y % 8 = 0
  · rw [if_pos h]
    unfold Contents.forall_ijM
    have := forLoopM_set_outer (fun row b => forLoopM (fun column (b : Contents) => do
        let val ← reference (toInt32 (toUInt32 (sc + column))) (toInt32 (toUInt32 (sr + row)))
        pure (b.set column row val)) size b) size (interCell mv R sc sr) size ?_ b
    · exact this
    · intro r _ b
      apply forLoopM_set_inner
      intro c _ b
      simp [hR, interCell, h]
  · rw [if_neg h]
    obtain ⟨hf, hhf, hsix⟩ := sixtap_filters_get (mv.x % 8).toNat (phase_lt _)
    obtain ⟨vf, hvf, vsix⟩ := sixtap_filters_get (mv.y % 8).toNat (phase_lt _)
    simp only [hhf, hvf, Option.bind_eq_bind, Option.some_bind, hR, hsix, vsix, Option.pure_def]
    have h1 := forLoopM_set_outer (fun row im => forLoopM (fun column (im : Contents) =>
        some (im.set column row (interRow mv R sc sr column row))) size im) size
        (interRow mv R sc sr) (size + 5)
        (fun r _ b => forLoopM_set_inner _ r (fun c => interRow mv R sc sr c r) size
          (fun c _ b => rfl) b) (fun _ _ => 0)
    simp only [interRow] at h1
    rw [h1]
    simp only [Option.some_bind]
    apply forLoopM_set_outer _ size (interCell mv R sc sr) size
    intro r hr b
    apply forLoopM_set_inner
    intro c hc b
    have e : ∀ k, k ≤ 5 → (c < size ∧ r + k < size + 5) := fun k hk => ⟨hc, by omega⟩
    simp only [interCell, if_neg h, interRow, hc, true_and]
    rw [if_pos (by omega), if_pos (by omega), if_pos (by omega), if_pos (by omega),
      if_pos (by omega), if_pos (by omega)]

theorem whileLoop_steps {σ : Type} (cond : σ → Bool) (body : σ → Option σ) (st : Nat → σ)
    (n : Nat) (hstep : ∀ i, i < n → cond (st i) = true ∧ body (st i) = some (st (i + 1)))
    (hexit : cond (st n) = false) :
    ∀ k i fuel, i + k = n → k < fuel → whileLoop cond body fuel (st i) = some (st n) := by
  intro k
  induction k with
  | zero =>
    intro i fuel hi hf
    obtain ⟨f, rfl⟩ : ∃ f, fuel = f + 1 := ⟨fuel - 1, by omega⟩
    have : i = n := by omega
    subst this
    simp [whileLoop, hexit]
  | succ k ih =>
    intro i fuel hi hf
    obtain ⟨f, rfl⟩ : ∃ f, fuel = f + 1 := ⟨fuel - 1, by omega⟩
    obtain ⟨h1, h2⟩ := hstep i (by omega)
    simp only [whileLoop, h1, if_true, h2, Option.some_bind]
    exact ih (i + 1) f (by omega) (by omega)

theorem forLoopM_update (body : Nat → (Nat → Nat) → Option (Nat → Nat)) (base : Nat)
    (v : Nat → Nat) (n : Nat)
    (h : ∀ k, k < n → ∀ im, body k im = some (Function.update im (base + k) (v k)))
    (im : Nat → Nat) :
    forLoopM body n im
      = some (fun j => if base ≤ j ∧ j < base + n then v (j - base) else im j) := by
  induction n with
  | zero =>
    simp only [forLoopM]
    congr 1
    funext j
    rw [if_neg (by omega)]
  | succ k ih =>
    rw [forLoopM, ih (fun c hc => h c (by omega)), Option.some_bind, h k (by omega)]
    congr 1
    funext j
    simp only [Function.update_apply]
    split_ifs with h1 h2 h3 <;> first | rfl | (exfalso; omega) | (subst h1; simp)

theorem store_eq_set (stride : Nat) (b : Contents) (r c v : Nat) (hc : c < stride) :
    b.store stride (r * stride + c) v = b.set c r v := by
  unfold Contents.store
  have h1 : (r * stride + c) % stride = c := by
    rw [Nat.add_comm, Nat.add_mul_mod_self_right, Nat.mod_eq_of_lt hc]
  have h2 : (r * stride + c) / stride = r := by
    rw [Nat.add_comm, Nat.add_mul_div_right _ _ (by omega), Nat.div_eq_of_lt hc, Nat.zero_add]
  rw [h1, h2]

theorem flat_index (size i c : Nat) (hc : c < size) :
    (i * size + c) / size = i ∧ (i * size + c) % size = c := by
  constructor
  · rw [Nat.add_comm, Nat.add_mul_div_right _ _ (by omega), Nat.div_eq_of_lt hc, Nat.zero_add]
  · rw [Nat.add_comm, Nat.add_mul_mod_self_right, Nat.mod_eq_of_lt hc]

theorem toUInt32_sub (stride size : Nat) (h1 : size ≤ stride) (h2 : stride < 4294967296) :
    (toUInt32 ((stride : Int) - size)).toNat = stride - size := by
  unfold toUInt32
  omega

theorem unsafe_copy_rows_eq (size stride : Nat) (ref : TwoD) (p0 : Nat) (b : Contents)
    (v : Nat → Nat → Nat) (hst : size ≤ stride) (hs : 0 < size)
    (hread : ∀ r c, r < size → c < size → ref.storage[p0 + r * stride + c]? = some (v c r)) :
    unsafe_copy_rows size stride ref p0 b
      = some (fun c r => if c < size ∧ r < size then v c r else b c r) := by
  unfold unsafe_copy_rows
  let st : Nat → CopyState := fun i =>
    ⟨i * stride, p0 + i * stride, fun c r => if c < size ∧ r < i then v c r else b c r⟩
  have hinit : (⟨0, p0, b⟩ : CopyState) = st 0 := by
    simp only [st, Nat.zero_mul, Nat.add_zero, Nat.not_lt_zero, and_false, if_false]
  have key := whileLoop_steps (fun s : CopyState => s.dest_row_start != 0 + size * stride)
    (fun s => do
      let contents ← forLoopM (fun k (b : Contents) => do
          let v ← ref.storage[s.src_row_start + k]?
          pure (b.store stride (s.dest_row_start + k) v)) size s.contents
      pure ⟨s.dest_row_start + stride, s.src_row_start + stride, contents⟩) st size ?_ ?_
      size 0 (size * stride + 1) (by omega) ?_
  · simp only [hinit]
    rw [key]
    simp only [Option.bind_eq_bind, Option.some_bind, Option.pure_def, st]
  · intro i hi
    constructor
    · have : i * stride < size * stride := Nat.mul_lt_mul_of_pos_right hi (by omega)
      simp only [st, bne_iff_ne, ne_eq, Nat.zero_add]
      omega
    · have := forLoopM_set_inner (fun k (b : Contents) => do
          let v ← ref.storage[(st i).src_row_start + k]?
          pure (b.store stride ((st i).dest_row_start + k) v)) i (fun c => v c i) size ?_
          (st i).contents
      · simp only [Option.bind_eq_bind, Option.pure_def] at this ⊢
        rw [this]
        simp only [Option.some_bind, st, Option.some.injEq, CopyState.mk.injEq]
        refine ⟨by ring, by ring, ?_⟩
        funext c r
        split_ifs with h1 h2 h3 <;> first | rfl | (exfalso; omega) | rw [h1.2]
      · intro c hc b'
        simp only [st, hread i c hi hc, Option.bind_eq_bind, Option.some_bind, Option.pure_def,
          store_eq_set stride b' i c _ (by omega)]
  · simp only [st, Nat.zero_add, bne_self_eq_false]
  · have : 1 ≤ stride := by omega
    have : size * 1 ≤ size * stride := Nat.mul_le_mul_left _ this
    omega

theorem unsafe_horizontal_pass_eq (size stride : Nat) (ref : TwoD) (hfilt : List Int) (p0 : Nat)
    (g : Nat → Nat → Nat) (f : Nat → Nat → Nat → Nat → Nat → Nat → Nat)
    (hst : size ≤ stride) (hs : 0 < size) (hst2 : stride < 4294967296)
    (hread : ∀ i x, i < size + 5 → x < size + 5 →
      ref.storage[p0 + i * stride + x]? = some (g x i))
    (hsix : ∀ s0 s1 s2 s3 s4 s5, sixtap hfilt s0 s1 s2 s3 s4 s5 = some (f s0 s1 s2 s3 s4 s5)) :
    unsafe_horizontal_pass size stride ref hfilt p0
      = some (fun j => if j < size * (size + 5) then
          f (g (j % size) (j / size)) (g (j % size + 1) (j / size)) (g (j % size + 2) (j / size))
            (g (j % size + 3) (j / size)) (g (j % size + 4) (j / size))
            (g (j % size + 5) (j / size))
        else 0) := by
  unfold unsafe_horizontal_pass
  let v : Nat → Nat → Nat := fun c i =>
    f (g c i) (g (c + 1) i) (g (c + 2) i) (g (c + 3) i) (g (c + 4) i) (g (c + 5) i)
  let st : Nat → HState := fun i =>
    ⟨i * size, p0 + i * stride, fun j => if j < i * size then v (j % size) (j / size) else 0⟩
  have hinit : (⟨0, p0, fun _ => 0⟩ : HState) = st 0 := by
    simp only [st, Nat.zero_mul, Nat.add_zero, Nat.not_lt_zero, if_false]
  have key := whileLoop_steps
    (fun s : HState => s.intermediate_row_start != 0 + size * (size + 5))
    (fun s => do
      let intermediate ← forLoopM (fun k (im : Nat → Nat) => do
          let s0 ← ref.storage[s.src_row_start + k]?
          let s1 ← ref.storage[s.src_row_start + k + 1]?
          let s2 ← ref.storage[s.src_row_start + k + 2]?
          let s3 ← ref.storage[s.src_row_start + k + 3]?
          let s4 ← ref.storage[s.src_row_start + k + 4]?
          let s5 ← ref.storage[s.src_row_start + k + 5]?
          let v ← sixtap hfilt s0 s1 s2 s3 s4 s5
          pure (Function.update im (s.intermediate_row_start + k) v)) size s.intermediate
      pure ⟨s.intermediate_row_start + size,
            s.src_row_start + size + (toUInt32 ((stride : Int) - size)).toNat, intermediate⟩)
    st (size + 5) ?_ ?_ (size + 5) 0 (size * (size + 5) + 1) (by omega) ?_
  · simp only [hinit]
    rw [key]
    simp only [Option.bind_eq_bind, Option.some_bind, Option.pure_def, st, v, Nat.mul_comm]
  · intro i hi
    constructor
    · have : i * size < (size + 5) * size := Nat.mul_lt_mul_of_pos_right hi hs
      simp only [st, bne_iff_ne, ne_eq, Nat.zero_add, Nat.mul_comm size]
      omega
    · have := forLoopM_update (fun k (im : Nat → Nat) => do
          let s0 ← ref.storage[(st i).src_row_start + k]?
          let s1 ← ref.storage[(st i).src_row_start + k + 1]?
          let s2 ← ref.storage[(st i).src_row_start + k + 2]?
          let s3 ← ref.storage[(st i).src_row_start + k + 3]?
          let s4 ← ref.storage[(st i).src_row_start + k + 4]?
          let s5 ← ref.storage[(st i).src_row_start + k + 5]?
          let v ← sixtap hfilt s0 s1 s2 s3 s4 s5
          pure (Function.update im ((st i).intermediate_row_start + k) v))
          (i * size) (fun c => v c i) size ?_ (st i).intermediate
      · simp only [Option.bind_eq_bind, Option.pure_def] at this ⊢
        rw [this]
        simp only [Option.some_bind, st, Option.some.injEq, HState.mk.injEq,
          toUInt32_sub stride size hst hst2]
        refine ⟨by ring, ?_, ?_⟩
        · have : (i + 1) * stride = i * stride + stride := by ring
          omega
        · funext j
          have e : (i + 1) * size = i * size + size := by ring
          by_cases h1 : i * size ≤ j ∧ j < i * size + size
          · have hd : j / size = i := Nat.div_eq_of_lt_le h1.1 (by omega)
            have hm : j % size = j - i * size := by
              have := Nat.mod_add_div j size
              rw [hd, Nat.mul_comm] at this
              omega
            rw [if_pos h1, if_pos (by omega), hd, hm]
          · rw [if_neg h1]
            by_cases h2 : j < i * size
            · rw [if_pos h2, if_pos (by omega)]
            · rw [if_neg h2, if_neg (by omega)]
      · intro k hk im
        have r0 := hread i k hi (by omega)
        have r1 := hread i (k + 1) hi (by omega)
        have r2 := hread i (k + 2) hi (by omega)
        have r3 := hread i (k + 3) hi (by omega)
        have r4 := hread i (k + 4) hi (by omega)
        have r5 := hread i (k + 5) hi (by omega)
        simp only [← Nat.add_assoc] at r1 r2 r3 r4 r5
        simp only [st, r0, r1, r2, r3, r4, r5, hsix, Option.bind_eq_bind, Option.some_bind,
          Option.pure_def, v]
  · simp only [st, Nat.zero_add, Nat.mul_comm size, bne_self_eq_false]
  · have : size * 1 ≤ size * (size + 5) := Nat.mul_le_mul_left _ (by omega)
    have : size * (size + 5) = size * size + 5 * size := by ring
    have : 1 * 1 ≤ size * size := Nat.mul_le_mul hs hs
    omega

theorem unsafe_vertical_pass_eq (size stride : Nat) (vfilt : List Int) (im : Nat → Nat)
    (b : Contents) (f : Nat → Nat → Nat → Nat → Nat → Nat → Nat)
    (hst : size ≤ stride) (hs : 0 < size) (hst2 : stride < 4294967296)
    (hsix : ∀ s0 s1 s2 s3 s4 s5, sixtap vfilt s0 s1 s2 s3 s4 s5 = some (f s0 s1 s2 s3 s4 s5)) :
    unsafe_vertical_pass size stride vfilt im b
      = some (fun c r => if c < size ∧ r < size then
          f (im (r * size + c)) (im (r * size + c + size)) (im (r * size + c + size * 2))
            (im (r * size + c + size * 3)) (im (r * size + c + size * 4))
            (im (r * size + c + size * 5))
        else b c r) := by
  unfold unsafe_vertical_pass
  let v : Nat → Nat → Nat := fun c r =>
    f (im (r * size + c)) (im (r * size + c + size)) (im (r * size + c + size * 2))
      (im (r * size + c + size * 3)) (im (r * size + c + size * 4))
      (im (r * size + c + size * 5))
  let st : Nat → VState := fun i =>
    ⟨i * stride, i * size, fun c r => if c < size ∧ r < i then v c r else b c r⟩
  have hinit : (⟨0, 0, b⟩ : VState) = st 0 := by
    simp only [st, Nat.zero_mul, Nat.not_lt_zero, and_false, if_false]
  have key := whileLoop_steps (fun s : VState => s.dest_row_start != 0 + size * stride)
    (fun s => do
      let contents ← forLoopM (fun k (b : Contents) => do
          let i := s.intermediate_row_start + k
          let v ← sixtap vfilt (im i) (im (i + size))
                    (im (i + size * 2)) (im (i + size * 3))
                    (im (i + size * 4)) (im (i + size * 5))
          pure (b.store stride (s.dest_row_start + k) v)) size s.contents
      pure ⟨s.dest_row_start + size + (toUInt32 ((stride : Int) - size)).toNat,
            s.intermediate_row_start + size, contents⟩)
    st size ?_ ?_ size 0 (size * stride + 1) (by omega) ?_
  · simp only [hinit]
    rw [key]
    simp only [Option.bind_eq_bind, Option.some_bind, Option.pure_def, st, v]
  · intro i hi
    constructor
    · have : i * stride < size * stride := Nat.mul_lt_mul_of_pos_right hi (by omega)
      simp only [st, bne_iff_ne, ne_eq, Nat.zero_add]
      omega
    · have := forLoopM_set_inner (fun k (b : Contents) => do
          let idx := (st i).intermediate_row_start + k
          let v ← sixtap vfilt (im idx) (im (idx + size))
                    (im (idx + size * 2)) (im (idx + size * 3))
                    (im (idx + size * 4)) (im (idx + size * 5))
          pure (b.store stride ((st i).dest_row_start + k) v)) i (fun c => v c i) size ?_
          (st i).contents
      · simp only [Option.bind_eq_bind, Option.pure_def] at this ⊢
        rw [this]
        simp only [Option.some_bind, st, Option.some.injEq, VState.mk.injEq,
          toUInt32_sub stride size hst hst2]
        refine ⟨?_, by ring, ?_⟩
        · have : (i + 1) * stride = i * stride + stride := by ring
          omega
        · funext c r
          split_ifs with h1 h2 h3 <;> first | rfl | (exfalso; omega) | rw [h1.2]
      · intro c hc b'
        simp only [st, hsix, Option.bind_eq_bind, Option.some_bind, Option.pure_def,
          store_eq_set stride b' i c _ (by omega), v]
  · simp only [st, Nat.zero_add, bne_self_eq_false]
  · have : size * 1 ≤ size * stride := Nat.mul_le_mul_left _ (by omega)
    omega

theorem TwoD.index_lt (g : TwoD) (hv : g.valid) (c r : Nat) (hc : c < g.width)
    (hr : r < g.height) : r * g.width + c < g.storage.length := by
  rw [hv.2.2.2.2]
  have : (r + 1) * g.width ≤ g.height * g.width := Nat.mul_le_mul_right _ hr
  have e : (r + 1) * g.width = r * g.width + g.width := by ring
  rw [Nat.mul_comm g.width g.height]
  omega

theorem EdgeExtendedRaster.at_eq (g : TwoD) (hv : g.valid) (x y : Int) :
    EdgeExtendedRaster.at g x y
      = g.at (max 0 (min ((g.width : Int) - 1) x)).toNat
          (max 0 (min ((g.height : Int) - 1) y)).toNat := by
  obtain ⟨h1, h2, h3, h4, -⟩ := hv
  have ew : toInt32 (toUInt32 ((g.width : Int) - 1)) = (g.width : Int) - 1 := by
    unfold toInt32 toUInt32; omega
  have eh : toInt32 (toUInt32 ((g.height : Int) - 1)) = (g.height : Int) - 1 := by
    unfold toInt32 toUInt32; omega
  unfold EdgeExtendedRaster.at
  simp only [ew, eh]
  congr 1
  · unfold toUInt32
    split_ifs <;> omega
  · unfold toUInt32
    split_ifs <;> omega

theorem EdgeExtendedRaster.at_some (g : TwoD) (hv : g.valid) (x y : Int) :
    EdgeExtendedRaster.at g x y = some (edgeRead g x y) := by
  have h := EdgeExtendedRaster.at_eq g hv x y
  have hv' := hv
  obtain ⟨h1, h2, h3, h4, -⟩ := hv
  have hc : (max 0 (min ((g.width : Int) - 1) x)).toNat < g.width := by omega
  have hr : (max 0 (min ((g.height : Int) - 1) y)).toNat < g.height := by omega
  have hlt := g.index_lt hv' _ _ hc hr
  unfold edgeRead
  rw [h]
  simp only [TwoD.at, hc, hr, and_self, if_true]
  rw [List.getElem?_eq_getElem hlt]
  rfl

theorem TwoD.storage_read (g : TwoD) (hv : g.valid) (x y : Nat) (hx : x < g.width)
    (hy : y < g.height) : g.storage[y * g.width + x]? = some (edgeRead g x y) := by
  rw [← EdgeExtendedRaster.at_some g hv, EdgeExtendedRaster.at_eq g hv]
  obtain ⟨h1, h2, h3, h4, -⟩ := hv
  have e1 : (max 0 (min ((g.width : Int) - 1) x)).toNat = x := by omega
  have e2 : (max 0 (min ((g.height : Int) - 1) y)).toNat = y := by omega
  rw [e1, e2]
  simp only [TwoD.at, hx, hy, and_self, if_true]

theorem toInt32_toUInt32 (x : Int) (h0 : -2147483648 ≤ x) (h1 : x < 2147483648) :
    toInt32 (toUInt32 x) = x := by
  unfold toInt32 toUInt32
  omega

theorem unsafe_inter_predict_eq (size stride : Nat) (mv : MotionVector) (ref : TwoD)
    (sc sr : Int) (b : Contents) (hv : ref.valid) (hstride : stride = ref.width)
    (hs : 0 < size) (h1 : 2 ≤ sc) (h2 : sc + size + 3 ≤ ref.width) (h3 : 2 ≤ sr)
    (h4 : sr + size + 3 ≤ ref.height) :
    unsafe_inter_predict size stride mv ref sc sr b
      = some (fun c r => if c < size ∧ r < size then interCell mv (edgeRead ref) sc sr c r
          else b c r) := by
  subst hstride
  obtain ⟨a, rfl⟩ := Int.eq_ofNat_of_zero_le (by omega : 0 ≤ sc)
  obtain ⟨d, rfl⟩ := Int.eq_ofNat_of_zero_le (by omega : 0 ≤ sr)
  have hw := hv.2.1
  have hh := hv.2.2.2.1
  have hmx : toUInt8 (mv.x % 8) = (mv.x % 8).toNat := by unfold toUInt8; omega
  have hmy : toUInt8 (mv.y % 8) = (mv.y % 8).toNat := by unfold toUInt8; omega
  unfold unsafe_inter_predict
  rw [if_neg (by simp)]
  simp only [hmx, hmy]
  by_cases h : mv.x % 8 = 0 ∧ mv.y % 8 = 0
  · rw [if_pos (by omega)]
    have ea : (toUInt32 (a : Int)).toNat = a := by unfold toUInt32; omega
    have ed : (toUInt32 (d : Int)).toNat = d := by unfold toUInt32; omega
    simp only [ea, ed, TwoD.addr]
    rw [if_pos (by omega)]
    simp only [Option.bind_eq_bind, Option.some_bind]
    rw [unsafe_copy_rows_eq size ref.width ref (d * ref.width + a) b
      (fun c r => edgeRead ref ((a + c : Nat) : Int) ((d + r : Nat) : Int)) (by omega) hs]
    · congr 1
      funext c r
      by_cases hcr : c < size ∧ r < size
      · rw [if_pos hcr, if_pos hcr]
        simp only [interCell, if_pos h]
        rw [toInt32_toUInt32 _ (by omega) (by omega), toInt32_toUInt32 _ (by omega) (by omega)]
        push_cast
        rfl
      · rw [if_neg hcr, if_neg hcr]
    · intro r c hr hc
      have := ref.storage_read hv (a + c) (d + r) (by omega) (by omega)
      rw [← this]
      congr 1
      ring
  · rw [if_neg (by omega)]
    have ea : (toUInt32 ((a : Int) - 2)).toNat = a - 2 := by unfold toUInt32; omega
    have ed : (toUInt32 ((d : Int) - 2)).toNat = d - 2 := by unfold toUInt32; omega
    obtain ⟨hf, hhf, hsix⟩ := sixtap_filters_get (mv.x % 8).toNat (phase_lt _)
    obtain ⟨vf, hvf, vsix⟩ := sixtap_filters_get (mv.y % 8).toNat (phase_lt _)
    simp only [ea, ed, TwoD.addr, hhf, hvf]
    rw [if_pos (by omega)]
    simp only [Option.bind_eq_bind, Option.some_bind]
    rw [unsafe_horizontal_pass_eq size ref.width ref hf ((d - 2) * ref.width + (a - 2))
      (fun x i => edgeRead ref ((a - 2 + x : Nat) : Int) ((d - 2 + i : Nat) : Int))
      (filtered (mv.x % 8).toNat) (by omega) hs (by omega) ?_ hsix]
    · simp only [Option.some_bind]
      rw [unsafe_vertical_pass_eq size ref.width vf _ b (filtered (mv.y % 8).toNat) (by omega) hs
        (by omega) vsix]
      congr 1
      funext c r
      by_cases hcr : c < size ∧ r < size
      · rw [if_pos hcr, if_pos hcr]
        simp only [interCell, if_neg h]
        have key : ∀ t, t ≤ 5 →
            (if r * size + c + size * t < size * (size + 5) then
              filtered (mv.x % 8).toNat
                (edgeRead ref ((a - 2 + (r * size + c + size * t) % size : Nat) : Int)
                  ((d - 2 + (r * size + c + size * t) / size : Nat) : Int))
                (edgeRead ref ((a - 2 + ((r * size + c + size * t) % size + 1) : Nat) : Int)
                  ((d - 2 + (r * size + c + size * t) / size : Nat) : Int))
                (edgeRead ref ((a - 2 + ((r * size + c + size * t) % size + 2) : Nat) : Int)
                  ((d - 2 + (r * size + c + size * t) / size : Nat) : Int))
                (edgeRead ref ((a - 2 + ((r * size + c + size * t) % size + 3) : Nat) : Int)
                  ((d - 2 + (r * size + c + size * t) / size : Nat) : Int))
                (edgeRead ref ((a - 2 + ((r * size + c + size * t) % size + 4) : Nat) : Int)
                  ((d - 2 + (r * size + c + size * t) / size : Nat) : Int))
                (edgeRead ref ((a - 2 + ((r * size + c + size * t) % size + 5) : Nat) : Int)
                  ((d - 2 + (r * size + c + size * t) / size : Nat) : Int))
            else 0) = interRow mv (edgeRead ref) a d c (r + t) := by
          intro t ht
          have e : r * size + c + size * t = (r + t) * size + c := by ring
          obtain ⟨e1, e2⟩ := flat_index size (r + t) c hcr.1
          have lt : (r + t) * size + c < size * (size + 5) := by
            have : (r + t + 1) * size ≤ (size + 5) * size := Nat.mul_le_mul_right _ (by omega)
            have e3 : (r + t + 1) * size = (r + t) * size + size := by ring
            rw [Nat.mul_comm size]
            omega
          rw [e, if_pos lt, e1, e2]
          unfold interRow
          congr 1 <;> congr 1 <;> push_cast <;> omega
        have k0 := key 0 (by omega)
        have k1 := key 1 (by omega)
        simp only [Nat.mul_zero, Nat.add_zero, Nat.mul_one] at k0 k1
        rw [k0, k1, key 2 (by omega), key 3 (by omega), key 4 (by omega), key 5 (by omega)]
      · rw [if_neg hcr, if_neg hcr]
    · intro i x hi hx
      have := ref.storage_read hv (a - 2 + x) (d - 2 + i) (by omega) (by omega)
      rw [← this]
      congr 1
      ring

theorem toInt32_range (x : Int) : -2147483648 ≤ toInt32 x ∧ toInt32 x < 2147483648 := by
  unfold toInt32
  omega

theorem fast_path_bounds (size : Nat) (ref : TwoD) (sc sr : Int) (hs : size ≤ 16)
    (hsc : -2147483648 ≤ sc ∧ sc < 2147483648) (hsr : -2147483648 ≤ sr ∧ sr < 2147483648)
    (h : ¬ needs_edge_extension size ref sc sr) :
    2 ≤ sc ∧ sc + size + 3 ≤ ref.width ∧ 2 ≤ sr ∧ sr + size + 3 ≤ ref.height := by
  unfold needs_edge_extension toUInt32 at h
  omega

theorem safe_inter_predict_eq (size col row stride : Nat) (mv : MotionVector) (ref : TwoD)
    (b : Contents) (hS : size = 4 ∨ size = 8 ∨ size = 16) (hv : ref.valid)
    (hstride : ¬ needs_edge_extension size ref (source_column size col mv)
      (source_row size row mv) → stride = ref.width) :
    safe_inter_predict size col row stride mv ref b
      = some (fun c r => if c < size ∧ r < size then
          interCell mv (edgeRead ref) (source_column size col mv) (source_row size row mv) c r
          else b c r) := by
  unfold safe_inter_predict
  by_cases h : needs_edge_extension size ref (source_column size col mv) (source_row size row mv)
  · rw [if_pos h]
    exact inter_predict_eq size mv _ _ (EdgeExtendedRaster.at_some ref hv) _ _ b
  · rw [if_neg h]
    obtain ⟨h1, h2, h3, h4⟩ := fast_path_bounds size ref _ _ (by omega) (toInt32_range _)
      (toInt32_range _) h
    exact unsafe_inter_predict_eq size stride mv ref _ _ b hv (hstride h) (by omega) h1 h2 h3 h4

theorem clamp255_eq (x : Int) : clamp255 x = (max 0 (min 255 x)).toNat := by
  unfold clamp255
  split_ifs <;> omega

theorem filtered_eq_spec (p : Nat) (hp : p < 8) (s0 s1 s2 s3 s4 s5 : Nat) :
    filtered p s0 s1 s2 s3 s4 s5 = spec_filter p s0 s1 s2 s3 s4 s5 := by
  have e : ∀ x : Int, x >>> (7 : Nat) = x / 128 := fun x => by
    rw [Int.shiftRight_eq_div_pow]; rfl
  interval_cases p <;>
    simp only [filtered, sixtap_filters, sixtap, spec_filter, spec_taps, clamp255_eq, e] <;> rfl

theorem filtered_le (p : Nat) (hp : p < 8) (s0 s1 s2 s3 s4 s5 : Nat) :
    filtered p s0 s1 s2 s3 s4 s5 ≤ 255 := by
  obtain ⟨f, -, h⟩ := sixtap_filters_get p hp
  have h1 := h s0 s1 s2 s3 s4 s5
  have : ∀ v, sixtap f s0 s1 s2 s3 s4 s5 = some v → v ≤ 255 := by
    intro v hv
    unfold sixtap at hv
    simp only [Option.bind_eq_bind, Option.pure_def, Option.bind_eq_some] at hv
    obtain ⟨_, _, _, _, _, _, _, _, _, _, _, _, hv⟩ := hv
    simp only [Option.some.injEq] at hv
    rw [← hv]
    exact clamp255_le _
  exact this _ h1

theorem filtered_zero (s0 s1 s2 s3 s4 s5 : Nat) (h : s2 ≤ 255) :
    filtered 0 s0 s1 s2 s3 s4 s5 = s2 := by
  simp only [filtered, sixtap_filters, sixtap, clamp255]
  simp
  split_ifs <;> omega

theorem source_eq (size pos : Nat) (v : Int) (hv : -32768 ≤ v ∧ v < 32768)
    (hpos : pos * size < 1073741824) :
    toInt32 (toUInt32 ((pos : Int) * size + v / 8)) = spec_src size pos v := by
  have e : v >>> (3 : Nat) = v / 8 := by rw [Int.shiftRight_eq_div_pow]; rfl
  unfold spec_src
  rw [e]
  have h1 : ((pos * size : Nat) : Int) < 1073741824 := by exact_mod_cast hpos
  have h2 : (0 : Int) ≤ ((pos * size : Nat) : Int) := Int.ofNat_nonneg _
  push_cast at h1 h2
  generalize (pos : Int) * size = t at h1 h2 ⊢
  unfold toInt32 toUInt32
  omega

theorem spec_src_bounds (size pos : Nat) (v : Int) (hv : -32768 ≤ v ∧ v < 32768)
    (hpos : pos * size < 1073741824) :
    -4096 ≤ spec_src size pos v ∧ spec_src size pos v < 1073745920
      ∧ spec_src size pos v = ((pos * size : Nat) : Int) + v / 8 := by
  have e : v >>> (3 : Nat) = v / 8 := by rw [Int.shiftRight_eq_div_pow]; rfl
  unfold spec_src
  rw [e]
  have h1 : ((pos * size : Nat) : Int) < 1073741824 := by exact_mod_cast hpos
  have h2 : (0 : Int) ≤ ((pos * size : Nat) : Int) := Int.ofNat_nonneg _
  push_cast at h1 h2 ⊢
  generalize (pos : Int) * size = t at h1 h2 ⊢
  omega

theorem spec_read_some (ref : TwoD) (hv : ref.valid) (x y : Int) :
    spec_read ref x y = some (edgeRead ref x y) := by
  rw [← EdgeExtendedRaster.at_some ref hv, EdgeExtendedRaster.at_eq ref hv]
  rfl

theorem toUInt8_le (x : Int) : toUInt8 x ≤ 255 := by
  unfold toUInt8
  omega

theorem avg3_le (x y z : Nat) : avg3 x y z ≤ 255 := toUInt8_le _

theorem avg2_le (x y : Nat) : avg2 x y ≤ 255 := toUInt8_le _

theorem Block.left_eq (blk : Block) (k : Nat) (hk : k < 4) :
    blk.left (k : Int) = some (blk.predictors_.left_column k) := by
  have h : k = 0 ∨ k = 1 ∨ k = 2 ∨ k = 3 := by omega
  rcases h with rfl | rfl | rfl | rfl <;> simp [Block.left, Predictors.left, toInt8]

theorem Block.left_neg_one (blk : Block) : blk.left (-1) = some blk.predictors_.above_left := by
  simp [Block.left, Predictors.left, toInt8]

theorem Block.above_neg_one (blk : Block) :
    blk.above (-1) = some blk.predictors_.above_left := by
  simp [Block.above, Predictors.above, toInt8]

theorem Block.east_eq (blk : Block) (n : Nat) (hn : n ≤ 8) :
    blk.east (n : Int) = some (if n < 4 then blk.predictors_.left_column (3 - n)
      else if n = 4 then blk.predictors_.above_left else blk.predictors_.above_row (n - 5)) := by
  have h : n = 0 ∨ n = 1 ∨ n = 2 ∨ n = 3 ∨ n = 4 ∨ n = 5 ∨ n = 6 ∨ n = 7 ∨ n = 8 := by omega
  rcases h with rfl | rfl | rfl | rfl | rfl | rfl | rfl | rfl | rfl <;>
    simp [Block.east, Predictors.east, Predictors.left, Predictors.above, toInt8, toInt32]

theorem Block4.intra_predict_range (mode : bmode) (blk : Block) (hv : blk.predictors_.valid 4) :
    ∃ out, Block4.intra_predict mode blk = some out
      ∧ ∀ c r, c < 4 → r < 4 → out.contents_ c r ≤ 255 := by
  have a0 := blk.above_eq 0 (by omega)
  have a1 := blk.above_eq 1 (by omega)
  have a2 := blk.above_eq 2 (by omega)
  have a3 := blk.above_eq 3 (by omega)
  have a4 := blk.above_eq 4 (by omega)
  have a5 := blk.above_eq 5 (by omega)
  have a6 := blk.above_eq 6 (by omega)
  have a7 := blk.above_eq 7 (by omega)
  have l0 := blk.left_eq 0 (by omega)
  have l1 := blk.left_eq 1 (by omega)
  have l2 := blk.left_eq 2 (by omega)
  have l3 := blk.left_eq 3 (by omega)
  have e0 := blk.east_eq 0 (by omega)
  have e1 := blk.east_eq 1 (by omega)
  have e2 := blk.east_eq 2 (by omega)
  have e3 := blk.east_eq 3 (by omega)
  have e4 := blk.east_eq 4 (by omega)
  have e5 := blk.east_eq 5 (by omega)
  have e6 := blk.east_eq 6 (by omega)
  have e7 := blk.east_eq 7 (by omega)
  have e8 := blk.east_eq 8 (by omega)
  have ln := blk.left_neg_one
  have an := blk.above_neg_one
  simp only [Nat.cast_ofNat, Nat.cast_zero, Nat.cast_one] at a0 a1 a2 a3 a4 a5 a6 a7
  simp only [Nat.cast_ofNat, Nat.cast_zero, Nat.cast_one] at l0 l1 l2 l3
  simp only [Nat.cast_ofNat, Nat.cast_zero, Nat.cast_one] at e0 e1 e2 e3 e4 e5 e6 e7 e8
  have hl3 := hv.2.1 3 (by omega)
  have cases4 : ∀ c, c < 4 → c = 0 ∨ c = 1 ∨ c = 2 ∨ c = 3 := fun c h => by omega
  cases mode
  · refine ⟨_, rfl, fun c r hc hr => ?_⟩
    simp only [Block.dc_predict_simple, Contents.fill, hc, hr, and_self, if_true]
    exact toUInt8_le _
  · refine ⟨_, rfl, fun c r hc hr => ?_⟩
    simp only [Block.true_motion_predict, Contents.forall_ij, hc, hr, and_self, if_true]
    exact clamp255_le _
  all_goals
    refine ⟨_, by
      simp only [Block4.intra_predict, Block4.vertical_smoothed_predict,
        Block4.horizontal_smoothed_predict, Block4.left_down_predict,
        Block4.right_down_predict, Block4.vertical_right_predict,
        Block4.vertical_left_predict, Block4.horizontal_down_predict,
        Block4.horizontal_up_predict, avg3M, avg2M, a0, a1, a2, a3, a4, a5, a6, a7,
        l0, l1, l2, l3, e0, e1, e2, e3, e4, e5, e6, e7, e8, ln, an, Option.bind_eq_bind,
        Option.some_bind, Option.pure_def]
      rfl, fun c r hc hr => ?_⟩
    rcases cases4 c hc with rfl | rfl | rfl | rfl <;>
      rcases cases4 r hr with rfl | rfl | rfl | rfl <;>
      simp [Contents.set, Contents.row_fill, Contents.column_fill, avg3_le, avg2_le, hl3]

theorem edgeRead_le (ref : TwoD) (hv : ref.valid) (h8 : ref.is8bit) (x y : Int) :
    edgeRead ref x y ≤ 255 := by
  have h := EdgeExtendedRaster.at_some ref hv x y
  rw [EdgeExtendedRaster.at_eq ref hv] at h
  unfold TwoD.at at h
  split_ifs at h
  exact h8 _ (List.getElem?_mem h)

theorem interCell_le (mv : MotionVector) (ref : TwoD) (hv : ref.valid) (h8 : ref.is8bit)
    (sc sr : Int) (c r : Nat) : interCell mv (edgeRead ref) sc sr c r ≤ 255 := by
  unfold interCell
  split_ifs
  · exact edgeRead_le ref hv h8 _ _
  · exact filtered_le _ (phase_lt _) _ _ _ _ _ _

theorem safe_inter_predict_range (size col row stride : Nat) (mv : MotionVector) (ref : TwoD)
    (b : Contents) (hS : size = 4 ∨ size = 8 ∨ size = 16) (hv : ref.valid) (h8 : ref.is8bit)
    (out : Contents) (h : safe_inter_predict size col row stride mv ref b = some out)
    (c r : Nat) (hc : c < size) (hr : r < size) : out c r ≤ 255 := by
  have key : out = fun c r => if c < size ∧ r < size then
      interCell mv (edgeRead ref) (source_column size col mv) (source_row size row mv) c r
      else b c r := by
    by_cases hst : stride = ref.width
    · rw [safe_inter_predict_eq size col row stride mv ref b hS hv (fun _ => hst)] at h
      exact (Option.some.inj h).symm
    · unfold safe_inter_predict at h
      by_cases hg : needs_edge_extension size ref (source_column size col mv)
          (source_row size row mv)
      · rw [if_pos hg, inter_predict_eq size mv _ _ (EdgeExtendedRaster.at_some ref hv)] at h
        exact (Option.some.inj h).symm
      · rw [if_neg hg] at h
        unfold unsafe_inter_predict at h
        rw [if_pos hst] at h
        exact absurd h (by simp)
  rw [key]
  simp only [hc, hr, and_self, if_true]
  exact interCell_le mv ref hv h8 _ _ _ _

theorem Block.intra_predict_mb_range (size : Nat) (blk : Block)
    (hv : blk.predictors_.valid size) (c r : Nat) (hc : c < size) (hr : r < size) :
    (blk.dc_predict size).contents_ c r ≤ 255
      ∧ (blk.vertical_predict size).contents_ c r ≤ 255
      ∧ (blk.horizontal_predict size).contents_ c r ≤ 255
      ∧ (blk.true_motion_predict size).contents_ c r ≤ 255 := by
  refine ⟨?_, ?_, ?_, ?_⟩
  · unfold Block.dc_predict
    split_ifs
    · simp only [Block.dc_predict_simple, Contents.fill, hc, hr, and_self, if_true]
      exact toUInt8_le _
    · simp only [Contents.fill, hc, hr, and_self, if_true]
      exact toUInt8_le _
    · simp only [Contents.fill, hc, hr, and_self, if_true]
      exact toUInt8_le _
    · simp only [Contents.fill, hc, hr, and_self, if_true]
      omega
  · simp only [Block.vertical_predict, forLoop_column_fill, hc, hr, and_self, if_true]
    exact hv.1 c hc
  · simp only [Block.horizontal_predict, forLoop_row_fill, hc, hr, and_self, if_true]
    exact hv.2.1 r hr
  · simp only [Block.true_motion_predict, Contents.forall_ij, hc, hr, and_self, if_true]
    exact clamp255_le _

theorem dc_value_bounds (a b : Nat → Nat) (k : Nat) (hk : k = 2 ∨ k = 3 ∨ k = 4)
    (ha : ∀ i, i < 2 ^ k → a i ≤ 255) (hb : ∀ i, i < 2 ^ k → b i ≤ 255) :
    (0 ≤ (sum (2 ^ k) a + sum (2 ^ k) b + 2 ^ log2size (2 ^ k)) / 2 ^ (log2size (2 ^ k) + 1)
      ∧ (sum (2 ^ k) a + sum (2 ^ k) b + 2 ^ log2size (2 ^ k)) / 2 ^ (log2size (2 ^ k) + 1)
          ≤ 255)
    ∧ (0 ≤ (sum (2 ^ k) a + 2 ^ (log2size (2 ^ k) - 1)) / 2 ^ log2size (2 ^ k)
      ∧ (sum (2 ^ k) a + 2 ^ (log2size (2 ^ k) - 1)) / 2 ^ log2size (2 ^ k) ≤ 255) := by
  have h1 := sum_le _ a ha
  have h2 := sum_le _ b hb
  rw [sum_eq _ a (by rcases hk with rfl | rfl | rfl <;> norm_num) ha,
    sum_eq _ b (by rcases hk with rfl | rfl | rfl <;> norm_num) hb]
  generalize (∑ i ∈ range (2 ^ k), a i) = sa at h1 ⊢
  generalize (∑ i ∈ range (2 ^ k), b i) = sb at h2 ⊢
  rcases hk with rfl | rfl | rfl <;>
    simp only [log2size] <;>
    norm_num at h1 h2 ⊢ <;> omega

/-! ## Inter prediction: the claims -/

/-- Validity of the example inputs. -/
theorem exampleReference_valid : exampleReference.valid :=
  ⟨by decide, by decide, by decide, by decide, by simp [exampleReference]⟩

/-- C1, as amended: for a block size in `{4, 8, 16}`, a reference whose width is the stride
of the destination grid whenever the guard selects the fast path, and a motion vector with
`(mv.x & 7, mv.y & 7) != (0, 0)`,
`safe_inter_predict` returns a block whose cell `(c, r)` is
`F_my(I[r][c], ..., I[r+5][c])`, where `I[i][c] = F_mx(R(x0+c-2, y0+i-2), ...,
R(x0+c+3, y0+i-2))`, `x0 = col*S + (mv.x >> 3)`, `y0 = row*S + (mv.y >> 3)`, `R` is the
reference read with clamped column and row, and `F_p` is the filter of the spec for phase
`p`: the horizontal pass comes first and is clamped before the vertical pass. -/
theorem safe_inter_predict_filtered (size col row stride : Nat) (mv : MotionVector) (ref : TwoD)
    (b : Contents) (hS : size = 4 ∨ size = 8 ∨ size = 16) (hv : ref.valid) (hmv : mv.valid)
    (hcol : col * size < 1073741824) (hrow : row * size < 1073741824)
    (hstride : ¬ needs_edge_extension size ref (source_column size col mv)
      (source_row size row mv) → stride = ref.width)
    (hph : ¬ (mv.x % 8 = 0 ∧ mv.y % 8 = 0)) :
    ∃ (out : Contents) (R : Int → Int → Nat) (I : Nat → Nat → Nat),
      safe_inter_predict size col row stride mv ref b = some out
      ∧ (∀ x y, spec_read ref x y = some (R x y))
      ∧ (∀ i c : Nat, I i c = spec_filter (mv.x % 8).toNat
          (R (spec_src size col mv.x + c - 2) (spec_src size row mv.y + i - 2))
          (R (spec_src size col mv.x + c - 1) (spec_src size row mv.y + i - 2))
          (R (spec_src size col mv.x + c) (spec_src size row mv.y + i - 2))
          (R (spec_src size col mv.x + c + 1) (spec_src size row mv.y + i - 2))
          (R (spec_src size col mv.x + c + 2) (spec_src size row mv.y + i - 2))
          (R (spec_src size col mv.x + c + 3) (spec_src size row mv.y + i - 2)))
      ∧ (∀ c r, c < size → r < size → out c r = spec_filter (mv.y % 8).toNat
          (I r c) (I (r + 1) c) (I (r + 2) c) (I (r + 3) c) (I (r + 4) c) (I (r + 5) c)) := by
  have ex := source_eq size col mv.x ⟨hmv.1, hmv.2.1⟩ hcol
  have ey := source_eq size row mv.y ⟨hmv.2.2.1, hmv.2.2.2⟩ hrow
  refine ⟨_, edgeRead ref,
    fun i c => interRow mv (edgeRead ref) (source_column size col mv) (source_row size row mv) c i,
    safe_inter_predict_eq size col row stride mv ref b hS hv hstride,
    spec_read_some ref hv, ?_, ?_⟩
  · intro i c
    simp only [interRow, source_column, source_row, ex, ey,
      filtered_eq_spec _ (phase_lt _)]
  · intro c r hc hr
    simp only [hc, hr, and_self, if_true, interCell, if_neg hph, filtered_eq_spec _ (phase_lt _)]

/-- Witness of C1: the 4x4 block at `(1, 1)` of a 12x12 grid, motion vector `(3, 5)`. -/
theorem safe_inter_predict_filtered_witness :
    exampleReference.valid ∧ exampleVector.valid
      ∧ (safe_inter_predict 4 1 1 12 exampleVector exampleReference (fun _ _ => 0)).isSome
          = true := by
  have hv : exampleReference.valid := exampleReference_valid
  have hmv : exampleVector.valid := by decide
  obtain ⟨out, R, I, h, -⟩ := safe_inter_predict_filtered 4 1 1 12 exampleVector
    exampleReference (fun _ _ => 0) (Or.inl rfl) hv hmv (by decide) (by decide) (fun _ => rfl)
    (by decide)
  exact ⟨hv, hmv, by rw [h]; rfl⟩

/-- Counterexample to C1 as stated: a 12x12 reference and a destination grid of stride 16.
The block at `(1, 1)` with motion vector `(3, 5)` takes the fast path, whose assertion
`contents_.stride() == reference.width()` fails, so no block is produced. -/
theorem safe_inter_predict_filtered_counterexample :
    exampleReference.valid ∧ exampleVector.valid
      ∧ ¬ (exampleVector.x % 8 = 0 ∧ exampleVector.y % 8 = 0)
      ∧ safe_inter_predict 4 1 1 16 exampleVector exampleReference (fun _ _ => 0) = none := by
  refine ⟨exampleReference_valid, by decide, by decide, ?_⟩
  have hg : ¬ needs_edge_extension 4 exampleReference (source_column 4 1 exampleVector)
      (source_row 4 1 exampleVector) := by decide
  unfold safe_inter_predict
  rw [if_neg hg]
  unfold unsafe_inter_predict
  rw [if_pos (by decide)]

/-- C2: for a reference whose width is the stride of the destination grid, whenever the guard
of `safe_inter_predict` selects the fast path, `unsafe_inter_predict` on the raw reference
writes the very block that `inter_predict` writes on the edge-extended reference; hence
`safe_inter_predict` always produces the block obtained by filtering the clamp-to-edge
extension of the reference. -/
theorem fast_path_eq_edge_extended (size col row stride : Nat) (mv : MotionVector) (ref : TwoD)
    (b : Contents) (hS : size = 4 ∨ size = 8 ∨ size = 16) (hv : ref.valid)
    (hstride : ref.width = stride) :
    (¬ needs_edge_extension size ref (source_column size col mv) (source_row size row mv) →
      ∃ out, unsafe_inter_predict size stride mv ref (source_column size col mv)
            (source_row size row mv) b = some out
        ∧ inter_predict size mv (EdgeExtendedRaster.at ref) (source_column size col mv)
            (source_row size row mv) b = some out)
    ∧ ∃ out, safe_inter_predict size col row stride mv ref b = some out
        ∧ inter_predict size mv (EdgeExtendedRaster.at ref) (source_column size col mv)
            (source_row size row mv) b = some out := by
  constructor
  · intro h
    obtain ⟨h1, h2, h3, h4⟩ := fast_path_bounds size ref _ _ (by omega) (toInt32_range _)
      (toInt32_range _) h
    exact ⟨_, unsafe_inter_predict_eq size stride mv ref _ _ b hv hstride.symm (by omega)
      h1 h2 h3 h4, inter_predict_eq size mv _ _ (EdgeExtendedRaster.at_some ref hv) _ _ b⟩
  · exact ⟨_, safe_inter_predict_eq size col row stride mv ref b hS hv (fun _ => hstride.symm),
      inter_predict_eq size mv _ _ (EdgeExtendedRaster.at_some ref hv) _ _ b⟩

/-- Witness of C2: the 4x4 block at `(1, 1)` of a 12x12 grid takes the fast path. -/
theorem fast_path_eq_edge_extended_witness :
    exampleReference.valid
      ∧ ¬ needs_edge_extension 4 exampleReference (source_column 4 1 exampleVector)
          (source_row 4 1 exampleVector)
      ∧ (unsafe_inter_predict 4 12 exampleVector exampleReference
          (source_column 4 1 exampleVector) (source_row 4 1 exampleVector) (fun _ _ => 0)).isSome
          = true := by
  have hg : ¬ needs_edge_extension 4 exampleReference (source_column 4 1 exampleVector)
      (source_row 4 1 exampleVector) := by decide
  obtain ⟨out, h, -⟩ := (fast_path_eq_edge_extended 4 1 1 12 exampleVector exampleReference
    (fun _ _ => 0) (Or.inl rfl) exampleReference_valid rfl).1 hg
  exact ⟨exampleReference_valid, hg, by rw [h]; rfl⟩

/-- C3: whole-pel copy. For a reference of the size of the current plane and a motion vector
with both phases zero, `safe_inter_predict` returns a block whose cell `(c, r)` is the
reference sample at column `clamp(col*S + (mv.x >> 3) + c, 0, W-1)` and row
`clamp(row*S + (mv.y >> 3) + r, 0, H-1)`, which is what `spec_read` reads. With `mv = (0, 0)` and the block inside the frame
this is the co-located rectangle, with `mv = (8, 0)` the rectangle one column to the right. -/
theorem safe_inter_predict_whole_pel (size col row stride : Nat) (mv : MotionVector)
    (ref : TwoD) (b : Contents) (hS : size = 4 ∨ size = 8 ∨ size = 16) (hv : ref.valid)
    (hmv : mv.valid) (hcol : col * size < 1073741824) (hrow : row * size < 1073741824)
    (hstride : stride = ref.width) (hx : mv.x % 8 = 0) (hy : mv.y % 8 = 0) :
    ∃ out : Contents, safe_inter_predict size col row stride mv ref b = some out
      ∧ (∀ c r : Nat, c < size → r < size →
          spec_read ref (spec_src size col mv.x + c) (spec_src size row mv.y + r)
            = some (out c r))
      ∧ (mv.x = 0 → mv.y = 0 → col * size + size ≤ ref.width → row * size + size ≤ ref.height →
          ∀ c r : Nat, c < size → r < size →
            ref.at (col * size + c) (row * size + r) = some (out c r))
      ∧ (mv.x = 8 → mv.y = 0 → col * size + 1 + size ≤ ref.width →
          row * size + size ≤ ref.height →
          ∀ c r : Nat, c < size → r < size →
            ref.at (col * size + 1 + c) (row * size + r) = some (out c r)) := by
  have ex := source_eq size col mv.x ⟨hmv.1, hmv.2.1⟩ hcol
  have ey := source_eq size row mv.y ⟨hmv.2.2.1, hmv.2.2.2⟩ hrow
  obtain ⟨bx1, bx2, bx3⟩ := spec_src_bounds size col mv.x ⟨hmv.1, hmv.2.1⟩ hcol
  obtain ⟨by1, by2, by3⟩ := spec_src_bounds size row mv.y ⟨hmv.2.2.1, hmv.2.2.2⟩ hrow
  have main : ∀ c r : Nat, c < size → r < size →
      spec_read ref (spec_src size col mv.x + c) (spec_src size row mv.y + r)
        = some (if c < size ∧ r < size then
            interCell mv (edgeRead ref) (source_column size col mv) (source_row size row mv) c r
          else b c r) := by
    intro c r hc hr
    simp only [hc, hr, and_self, if_true, interCell, if_pos (And.intro hx hy), source_column,
      source_row, ex, ey]
    rw [toInt32_toUInt32 _ (by omega) (by omega), toInt32_toUInt32 _ (by omega) (by omega)]
    exact spec_read_some ref hv _ _
  refine ⟨_, safe_inter_predict_eq size col row stride mv ref b hS hv (fun _ => hstride),
    main, ?_, ?_⟩
  · intro h0 h0' hw hh c r hc hr
    rw [← main c r hc hr, bx3, by3, h0, h0']
    unfold spec_read
    congr 1 <;> omega
  · intro h0 h0' hw hh c r hc hr
    rw [← main c r hc hr, bx3, by3, h0, h0']
    unfold spec_read
    congr 1 <;> omega

/-- Witness of C3: the 4x4 block at `(1, 1)` of a 12x12 grid, motion vector `(8, 0)`; its
top-left cell is the reference sample at column 5, row 4. -/
theorem safe_inter_predict_whole_pel_witness :
    exampleReference.valid
      ∧ (safe_inter_predict 4 1 1 12 ⟨8, 0⟩ exampleReference (fun _ _ => 0)).map
          (fun out => out 0 0) = exampleReference.at 5 4 := by
  obtain ⟨out, h, -, -, h8⟩ := safe_inter_predict_whole_pel 4 1 1 12 ⟨8, 0⟩ exampleReference
    (fun _ _ => 0) (Or.inl rfl) exampleReference_valid (by decide)
    (by decide) (by decide) rfl (by decide) (by decide)
  refine ⟨exampleReference_valid, ?_⟩
  rw [h]
  exact (h8 rfl rfl (by decide) (by decide) 0 0 (by decide) (by decide)).symm

/-- C4, as amended: for a reference whose width is the stride of the destination grid
whenever the guard selects the fast path, and a motion vector with `mv.y & 7 = 0` and
`mv.x & 7 != 0`, the block of `safe_inter_predict` is
the horizontal pass alone, cell `(c, r) = F_mx(R(x0+c-2, y0+r), ..., R(x0+c+3, y0+r))`,
the phase-0 filter being the identity on 8-bit samples; for `mx = 4` the first column of
row `r` is `clamp255((3a - 16b + 77c + 77d - 16e + 3f + 64) >> 7)` over the six clamped
reads at columns `x0-2 .. x0+3`. -/
theorem safe_inter_predict_horizontal_only (size col row stride : Nat) (mv : MotionVector)
    (ref : TwoD) (b : Contents) (hS : size = 4 ∨ size = 8 ∨ size = 16) (hv : ref.valid)
    (hmv : mv.valid) (hcol : col * size < 1073741824) (hrow : row * size < 1073741824)
    (hstride : ¬ needs_edge_extension size ref (source_column size col mv)
      (source_row size row mv) → stride = ref.width)
    (hx : mv.x % 8 ≠ 0) (hy : mv.y % 8 = 0) :
    ∃ (out : Contents) (R : Int → Int → Nat),
      safe_inter_predict size col row stride mv ref b = some out
      ∧ (∀ x y, spec_read ref x y = some (R x y))
      ∧ (∀ c r : Nat, c < size → r < size → out c r = spec_filter (mv.x % 8).toNat
          (R (spec_src size col mv.x + c - 2) (spec_src size row mv.y + r))
          (R (spec_src size col mv.x + c - 1) (spec_src size row mv.y + r))
          (R (spec_src size col mv.x + c) (spec_src size row mv.y + r))
          (R (spec_src size col mv.x + c + 1) (spec_src size row mv.y + r))
          (R (spec_src size col mv.x + c + 2) (spec_src size row mv.y + r))
          (R (spec_src size col mv.x + c + 3) (spec_src size row mv.y + r)))
      ∧ (∀ s0 s1 s2 s3 s4 s5 : Nat, s2 ≤ 255 → spec_filter 0 s0 s1 s2 s3 s4 s5 = s2)
      ∧ (mv.x % 8 = 4 → ∀ r : Nat, r < size → ((out 0 r : Nat) : Int) = max 0 (min 255
          ((3 * (R (spec_src size col mv.x - 2) (spec_src size row mv.y + r) : Int)
            - 16 * (R (spec_src size col mv.x - 1) (spec_src size row mv.y + r) : Int)
            + 77 * (R (spec_src size col mv.x) (spec_src size row mv.y + r) : Int)
            + 77 * (R (spec_src size col mv.x + 1) (spec_src size row mv.y + r) : Int)
            - 16 * (R (spec_src size col mv.x + 2) (spec_src size row mv.y + r) : Int)
            + 3 * (R (spec_src size col mv.x + 3) (spec_src size row mv.y + r) : Int)
            + 64) >>> (7 : Nat)))) := by
  have ex := source_eq size col mv.x ⟨hmv.1, hmv.2.1⟩ hcol
  have ey := source_eq size row mv.y ⟨hmv.2.2.1, hmv.2.2.2⟩ hrow
  have hph : ¬ (mv.x % 8 = 0 ∧ mv.y % 8 = 0) := fun h => hx h.1
  have hy0 : (mv.y % 8).toNat = 0 := by omega
  have main : ∀ c r : Nat, c < size → r < size →
      (if c < size ∧ r < size then
          interCell mv (edgeRead ref) (source_column size col mv) (source_row size row mv) c r
        else b c r) = spec_filter (mv.x % 8).toNat
          (edgeRead ref (spec_src size col mv.x + c - 2) (spec_src size row mv.y + r))
          (edgeRead ref (spec_src size col mv.x + c - 1) (spec_src size row mv.y + r))
          (edgeRead ref (spec_src size col mv.x + c) (spec_src size row mv.y + r))
          (edgeRead ref (spec_src size col mv.x + c + 1) (spec_src size row mv.y + r))
          (edgeRead ref (spec_src size col mv.x + c + 2) (spec_src size row mv.y + r))
          (edgeRead ref (spec_src size col mv.x + c + 3) (spec_src size row mv.y + r)) := by
    intro c r hc hr
    simp only [hc, hr, and_self, if_true, interCell, if_neg hph, hy0]
    rw [filtered_zero _ _ _ _ _ _ (by
      unfold interRow
      exact filtered_le _ (phase_lt _) _ _ _ _ _ _)]
    simp only [interRow, source_column, source_row, ex, ey, filtered_eq_spec _ (phase_lt _)]
    have e : spec_src size row mv.y + ((r + 2 : Nat) : Int) - 2
        = spec_src size row mv.y + r := by
      push_cast
      ring
    rw [e]
  have ident : ∀ s0 s1 s2 s3 s4 s5 : Nat, s2 ≤ 255 → spec_filter 0 s0 s1 s2 s3 s4 s5 = s2 := by
    intro s0 s1 s2 s3 s4 s5 h
    rw [← filtered_eq_spec 0 (by omega)]
    exact filtered_zero _ _ _ _ _ _ h
  refine ⟨_, edgeRead ref, safe_inter_predict_eq size col row stride mv ref b hS hv hstride,
    spec_read_some ref hv, main, ident, ?_⟩
  intro h4 r hr
  have h4' : (mv.x % 8).toNat = 4 := by omega
  have hc : 0 < size := by omega
  rw [main 0 r hc hr, h4']
  simp only [spec_filter, spec_taps, Nat.cast_zero, add_zero]
  rw [Int.toNat_of_nonneg (by omega)]
  congr 3
  ring

/-- Witness of C4: the 4x4 block at `(1, 1)` of a 12x12 grid, motion vector `(4, 0)`. -/
theorem safe_inter_predict_horizontal_only_witness :
    exampleReference.valid ∧ exampleVectorH.valid
      ∧ (safe_inter_predict 4 1 1 12 exampleVectorH exampleReference (fun _ _ => 0)).isSome
          = true := by
  have hmv : exampleVectorH.valid := by decide
  obtain ⟨out, R, h, -⟩ := safe_inter_predict_horizontal_only 4 1 1 12 exampleVectorH
    exampleReference (fun _ _ => 0) (Or.inl rfl) exampleReference_valid hmv (by decide)
    (by decide) (fun _ => rfl) (by decide) (by decide)
  exact ⟨exampleReference_valid, hmv, by rw [h]; rfl⟩

/-- Counterexample to C4 as stated: a 24x24 reference and a destination grid of stride 32.
The 8x8 block at `(1, 1)` with motion vector `(4, 0)` takes the fast path, whose assertion
`contents_.stride() == reference.width()` fails, so no block is produced. -/
theorem safe_inter_predict_horizontal_only_counterexample :
    exampleReference24.valid ∧ exampleVectorH.valid
      ∧ (exampleVectorH.x % 8 ≠ 0 ∧ exampleVectorH.y % 8 = 0)
      ∧ safe_inter_predict 8 1 1 32 exampleVectorH exampleReference24 (fun _ _ => 0) = none := by
  refine ⟨⟨by decide, by decide, by decide, by decide, by simp [exampleReference24]⟩,
    by decide, by decide, ?_⟩
  have hg : ¬ needs_edge_extension 8 exampleReference24 (source_column 8 1 exampleVectorH)
      (source_row 8 1 exampleVectorH) := by decide
  unfold safe_inter_predict
  rw [if_neg hg]
  unfold unsafe_inter_predict
  rw [if_pos (by decide)]

/-! ## Intra prediction: the claims -/

set_option maxHeartbeats 4000000 in
/-- C5: every output sample is in `[0, 255]`, and the integer computed for a cell lies in
`[0, 255]` before it is stored, so that the stored sample is that integer. The DC, V, H and
TM modes of 8x8 and 16x16 blocks, the ten modes of 4x4 blocks and `safe_inter_predict` return
blocks with samples at most 255; `avg3` and `avg2` equal their unreduced expressions, the DC
averages lie in `[0, 255]`, and `clamp255` is at most 255. Through `intra_predict`: a DC cell
is the rounded average over the sums as natural numbers, a V or H cell is the neighbour
sample, a TM cell is `max 0 (min 255 (left + above - above_left))`, and a cell of the eight
other 4x4 modes is `avg3` or `avg2` of samples that `above` or `left` return, equal to the
average over the integers, or such a sample. Through `safe_inter_predict` with the stride of
the reference: a whole-pel cell is a sample of the reference and any other cell is
`max 0 (min 255 ((s0 t0 + ... + s5 t5 + 64) / 128))` over six intermediate samples and the
taps of the vertical phase, as `sixtap` returns for every row of the table. -/
theorem output_samples_in_range :
    (∀ (mode : mbmode) (blk : Block), mode ≠ mbmode.B_PRED → blk.predictors_.valid 8 →
      ∃ out, Block8.intra_predict mode blk = some out
        ∧ ∀ c r, c < 8 → r < 8 → out.contents_ c r ≤ 255)
    ∧ (∀ (mode : mbmode) (blk : Block), mode ≠ mbmode.B_PRED → blk.predictors_.valid 16 →
      ∃ out, Block16.intra_predict mode blk = some out
        ∧ ∀ c r, c < 16 → r < 16 → out.contents_ c r ≤ 255)
    ∧ (∀ (mode : bmode) (blk : Block), blk.predictors_.valid 4 →
      ∃ out, Block4.intra_predict mode blk = some out
        ∧ ∀ c r, c < 4 → r < 4 → out.contents_ c r ≤ 255)
    ∧ (∀ (size col row stride : Nat) (mv : MotionVector) (ref : TwoD) (b : Contents),
      (size = 4 ∨ size = 8 ∨ size = 16) → ref.valid → ref.is8bit →
        (∀ out, safe_inter_predict size col row stride mv ref b = some out →
          ∀ c r, c < size → r < size → out c r ≤ 255)
        ∧ (stride = ref.width →
          ∃ out, safe_inter_predict size col row stride mv ref b = some out))
    ∧ (∀ x y z : Nat, x ≤ 255 → y ≤ 255 → z ≤ 255 →
        0 ≤ ((x : Int) + 2 * y + z + 2) / 4 ∧ ((x : Int) + 2 * y + z + 2) / 4 ≤ 255
          ∧ ((avg3 x y z : Nat) : Int) = ((x : Int) + 2 * y + z + 2) / 4)
    ∧ (∀ x y : Nat, x ≤ 255 → y ≤ 255 →
        0 ≤ ((x : Int) + y + 1) / 2 ∧ ((x : Int) + y + 1) / 2 ≤ 255
          ∧ ((avg2 x y : Nat) : Int) = ((x : Int) + y + 1) / 2)
    ∧ (∀ (k : Nat) (a l : Nat → Nat), (k = 2 ∨ k = 3 ∨ k = 4) →
        (∀ i, i < 2 ^ k → a i ≤ 255) → (∀ i, i < 2 ^ k → l i ≤ 255) →
        (0 ≤ (sum (2 ^ k) a + sum (2 ^ k) l + 2 ^ log2size (2 ^ k))
              / 2 ^ (log2size (2 ^ k) + 1)
          ∧ (sum (2 ^ k) a + sum (2 ^ k) l + 2 ^ log2size (2 ^ k))
              / 2 ^ (log2size (2 ^ k) + 1) ≤ 255)
        ∧ (0 ≤ (sum (2 ^ k) a + 2 ^ (log2size (2 ^ k) - 1)) / 2 ^ log2size (2 ^ k)
          ∧ (sum (2 ^ k) a + 2 ^ (log2size (2 ^ k) - 1)) / 2 ^ log2size (2 ^ k) ≤ 255))
    ∧ (∀ v : Int, clamp255 v ≤ 255)
    ∧ (∀ (mode : mbmode) (blk : Block), mode ≠ mbmode.B_PRED → blk.predictors_.valid 8 →
      ∃ out, Block8.intra_predict mode blk = some out
        ∧ ∀ c r, c < 8 → r < 8 →
          (mode = mbmode.DC_PRED →
            out.contents_ c r
              = (if blk.context_.above.isSome ∧ blk.context_.left.isSome then
                  ((∑ i ∈ range 8, blk.predictors_.above_row i)
                    + (∑ i ∈ range 8, blk.predictors_.left_column i) + 8) / 16
                else if blk.context_.above.isSome then
                  ((∑ i ∈ range 8, blk.predictors_.above_row i) + 4) / 8
                else if blk.context_.left.isSome then
                  ((∑ i ∈ range 8, blk.predictors_.left_column i) + 4) / 8
                else 128)
            ∧ out.contents_ c r ≤ 255)
          ∧ (mode = mbmode.V_PRED → out.contents_ c r = blk.predictors_.above_row c)
          ∧ (mode = mbmode.H_PRED → out.contents_ c r = blk.predictors_.left_column r)
          ∧ (mode = mbmode.TM_PRED →
            (out.contents_ c r : Int)
              = max 0 (min 255 ((blk.predictors_.left_column r : Int)
                  + blk.predictors_.above_row c - blk.predictors_.above_left))))
    ∧ (∀ (mode : mbmode) (blk : Block), mode ≠ mbmode.B_PRED → blk.predictors_.valid 16 →
      ∃ out, Block16.intra_predict mode blk = some out
        ∧ ∀ c r, c < 16 → r < 16 →
          (mode = mbmode.DC_PRED →
            out.contents_ c r
              = (if blk.context_.above.isSome ∧ blk.context_.left.isSome then
                  ((∑ i ∈ range 16, blk.predictors_.above_row i)
                    + (∑ i ∈ range 16, blk.predictors_.left_column i) + 16) / 32
                else if blk.context_.above.isSome then
                  ((∑ i ∈ range 16, blk.predictors_.above_row i) + 8) / 16
                else if blk.context_.left.isSome then
                  ((∑ i ∈ range 16, blk.predictors_.left_column i) + 8) / 16
                else 128)
            ∧ out.contents_ c r ≤ 255)
          ∧ (mode = mbmode.V_PRED → out.contents_ c r = blk.predictors_.above_row c)
          ∧ (mode = mbmode.H_PRED → out.contents_ c r = blk.predictors_.left_column r)
          ∧ (mode = mbmode.TM_PRED →
            (out.contents_ c r : Int)
              = max 0 (min 255 ((blk.predictors_.left_column r : Int)
                  + blk.predictors_.above_row c - blk.predictors_.above_left))))
    ∧ (∀ blk : Block, blk.predictors_.valid 4 →
      ∃ out, Block4.intra_predict bmode.B_DC_PRED blk = some out
        ∧ ∀ c r, c < 4 → r < 4 →
          out.contents_ c r
            = ((∑ i ∈ range 4, blk.predictors_.above_row i)
                + (∑ i ∈ range 4, blk.predictors_.left_column i) + 4) / 8
          ∧ out.contents_ c r ≤ 255)
    ∧ (∀ blk : Block,
      ∃ out, Block4.intra_predict bmode.B_TM_PRED blk = some out
        ∧ ∀ c r, c < 4 → r < 4 →
          (out.contents_ c r : Int)
            = max 0 (min 255 ((blk.predictors_.left_column r : Int)
                + blk.predictors_.above_row c - blk.predictors_.above_left)))
    ∧ (∀ (mode : bmode) (blk : Block), blk.predictors_.valid 4 →
      mode ≠ bmode.B_DC_PRED → mode ≠ bmode.B_TM_PRED →
      ∃ out, Block4.intra_predict mode blk = some out
        ∧ ∀ c r, c < 4 → r < 4 → ∃ x y z : Nat,
          (x ≤ 255 ∧ ∃ i : Int, blk.above i = some x ∨ blk.left i = some x)
          ∧ (y ≤ 255 ∧ ∃ i : Int, blk.above i = some y ∨ blk.left i = some y)
          ∧ (z ≤ 255 ∧ ∃ i : Int, blk.above i = some z ∨ blk.left i = some z)
          ∧ ((out.contents_ c r = avg3 x y z
              ∧ (out.contents_ c r : Int) = ((x : Int) + 2 * y + z + 2) / 4)
            ∨ (out.contents_ c r = avg2 x y
              ∧ (out.contents_ c r : Int) = ((x : Int) + y + 1) / 2)
            ∨ out.contents_ c r = x))
    ∧ (∀ (size col row : Nat) (mv : MotionVector) (ref : TwoD) (b : Contents),
      (size = 4 ∨ size = 8 ∨ size = 16) → ref.valid →
      ∃ out, safe_inter_predict size col row ref.width mv ref b = some out
        ∧ ∀ c r, c < size → r < size →
          out c r = interCell mv (edgeRead ref) (source_column size col mv)
              (source_row size row mv) c r
          ∧ (mv.x % 8 = 0 ∧ mv.y % 8 = 0 →
            out c r = edgeRead ref
              (toInt32 (toUInt32 (source_column size col mv + c)))
              (toInt32 (toUInt32 (source_row size row mv + r))))
          ∧ (¬ (mv.x % 8 = 0 ∧ mv.y % 8 = 0) →
            ∃ (t0 t1 t2 t3 t4 t5 : Int) (s : Nat → Nat),
              sixtap_filters[(mv.y % 8).toNat]? = some [t0, t1, t2, t3, t4, t5]
              ∧ (∀ i, s i = interRow mv (edgeRead ref) (source_column size col mv)
                    (source_row size row mv) c (r + i))
              ∧ (out c r : Int)
                  = max 0 (min 255 (((s 0 : Int) * t0 + s 1 * t1 + s 2 * t2 + s 3 * t3
                      + s 4 * t4 + s 5 * t5 + 64) / 128))))
    ∧ (∀ (p : Nat) (s0 s1 s2 s3 s4 s5 : Nat), p < 8 →
      ∃ t0 t1 t2 t3 t4 t5 : Int, sixtap_filters[p]? = some [t0, t1, t2, t3, t4, t5]
        ∧ sixtap [t0, t1, t2, t3, t4, t5] s0 s1 s2 s3 s4 s5
            = some (filtered p s0 s1 s2 s3 s4 s5)
        ∧ (filtered p s0 s1 s2 s3 s4 s5 : Int)
            = max 0 (min 255 (((s0 : Int) * t0 + s1 * t1 + s2 * t2 + s3 * t3 + s4 * t4
                + s5 * t5 + 64) / 128))) := by
  have hDC : ∀ (k : Nat) (_ : k = 2 ∨ k = 3 ∨ k = 4) (blk : Block)
      (_ : blk.predictors_.valid (2 ^ k)) (c r : Nat) (_ : c < 2 ^ k) (_ : r < 2 ^ k),
      (blk.dc_predict (2 ^ k)).contents_ c r
          = (if blk.context_.above.isSome ∧ blk.context_.left.isSome then
              ((∑ i ∈ range (2 ^ k), blk.predictors_.above_row i)
                + (∑ i ∈ range (2 ^ k), blk.predictors_.left_column i) + 2 ^ k) / 2 ^ (k + 1)
            else if blk.context_.above.isSome then
              ((∑ i ∈ range (2 ^ k), blk.predictors_.above_row i) + 2 ^ (k - 1)) / 2 ^ k
            else if blk.context_.left.isSome then
              ((∑ i ∈ range (2 ^ k), blk.predictors_.left_column i) + 2 ^ (k - 1)) / 2 ^ k
            else 128)
      ∧ (blk.dc_predict_simple (2 ^ k)).contents_ c r
          = ((∑ i ∈ range (2 ^ k), blk.predictors_.above_row i)
              + (∑ i ∈ range (2 ^ k), blk.predictors_.left_column i) + 2 ^ k) / 2 ^ (k + 1)
      ∧ ((∑ i ∈ range (2 ^ k), blk.predictors_.above_row i)
              + (∑ i ∈ range (2 ^ k), blk.predictors_.left_column i) + 2 ^ k) / 2 ^ (k + 1) ≤ 255
      ∧ ((∑ i ∈ range (2 ^ k), blk.predictors_.above_row i) + 2 ^ (k - 1)) / 2 ^ k ≤ 255
      ∧ ((∑ i ∈ range (2 ^ k), blk.predictors_.left_column i) + 2 ^ (k - 1)) / 2 ^ k ≤ 255 := by
    intro k hk blk hv c r hc hr
    obtain ⟨ha, hl, -⟩ := hv
    have hb := dc_value_both _ _ k hk ha hl
    have h1 := dc_value_one _ k hk ha
    have h2 := dc_value_one _ k hk hl
    simp only [Nat.shiftLeft_eq, Nat.shiftRight_eq_div_pow, Nat.one_mul] at hb h1 h2
    have simple : (blk.dc_predict_simple (2 ^ k)).contents_ c r
          = ((∑ i ∈ range (2 ^ k), blk.predictors_.above_row i)
              + (∑ i ∈ range (2 ^ k), blk.predictors_.left_column i) + 2 ^ k) / 2 ^ (k + 1) := by
      simp only [Block.dc_predict_simple, Contents.fill, hc, hr, and_self, if_true]
      exact hb
    refine ⟨?_, simple, ?_, ?_, ?_⟩
    · unfold Block.dc_predict
      by_cases c1 : blk.context_.above.isSome = true ∧ blk.context_.left.isSome = true
      · rw [if_pos c1, if_pos c1]
        exact simple
      · rw [if_neg c1, if_neg c1]
        simp only [Contents.fill, hc, hr, and_self, if_true]
        by_cases c2 : blk.context_.above.isSome = true
        · rw [if_pos c2, if_pos c2]
          exact h1
        · rw [if_neg c2, if_neg c2]
          by_cases c3 : blk.context_.left.isSome = true
          · rw [if_pos c3, if_pos c3]
            exact h2
          · rw [if_neg c3, if_neg c3]
    · rw [← hb]; exact toUInt8_le _
    · rw [← h1]; exact toUInt8_le _
    · rw [← h2]; exact toUInt8_le _
  have hEdge : ∀ (size : Nat) (blk : Block) (c r : Nat) (_ : c < size) (_ : r < size),
      (blk.vertical_predict size).contents_ c r = blk.predictors_.above_row c
      ∧ (blk.horizontal_predict size).contents_ c r = blk.predictors_.left_column r
      ∧ ((blk.true_motion_predict size).contents_ c r : Int)
          = max 0 (min 255 ((blk.predictors_.left_column r : Int) + blk.predictors_.above_row c
              - blk.predictors_.above_left)) := by
    intro size blk c r hc hr
    refine ⟨?_, ?_, ?_⟩
    · simp only [Block.vertical_predict, forLoop_column_fill, hc, hr, and_self, if_true]
    · simp only [Block.horizontal_predict, forLoop_row_fill, hc, hr, and_self, if_true]
    · simp only [Block.true_motion_predict, Contents.forall_ij, hc, hr, and_self, if_true]
      exact clamp255_eq_max_min _
  have hSix : ∀ (p : Nat) (_ : p < 8) (s0 s1 s2 s3 s4 s5 : Nat),
      ∃ t0 t1 t2 t3 t4 t5 : Int, sixtap_filters[p]? = some [t0, t1, t2, t3, t4, t5]
        ∧ sixtap [t0, t1, t2, t3, t4, t5] s0 s1 s2 s3 s4 s5 = some (filtered p s0 s1 s2 s3 s4 s5)
        ∧ (filtered p s0 s1 s2 s3 s4 s5 : Int)
            = max 0 (min 255 (((s0 : Int) * t0 + s1 * t1 + s2 * t2 + s3 * t3 + s4 * t4 + s5 * t5
                + 64) / 128)) := by
    intro p hp s0 s1 s2 s3 s4 s5
    have key : ∀ (v : Nat) (x : Int), v = clamp255 x → (v : Int) = max 0 (min 255 x) :=
      fun v x h => h ▸ clamp255_eq_max_min x
    interval_cases p <;>
      exact ⟨_, _, _, _, _, _, rfl, rfl, key _ _ rfl⟩
  have hDir : ∀ (mode : bmode) (blk : Block) (_ : blk.predictors_.valid 4)
      (_ : mode ≠ bmode.B_DC_PRED) (_ : mode ≠ bmode.B_TM_PRED),
      ∃ out, Block4.intra_predict mode blk = some out
        ∧ ∀ c r, c < 4 → r < 4 → ∃ x y z : Nat,
            (x ≤ 255 ∧ ∃ i : Int, blk.above i = some x ∨ blk.left i = some x)
            ∧ (y ≤ 255 ∧ ∃ i : Int, blk.above i = some y ∨ blk.left i = some y)
            ∧ (z ≤ 255 ∧ ∃ i : Int, blk.above i = some z ∨ blk.left i = some z)
            ∧ ((out.contents_ c r = avg3 x y z
                ∧ (out.contents_ c r : Int) = ((x : Int) + 2 * y + z + 2) / 4)
              ∨ (out.contents_ c r = avg2 x y
                ∧ (out.contents_ c r : Int) = ((x : Int) + y + 1) / 2)
              ∨ out.contents_ c r = x) := by
    intro mode blk hv hm hm2
    have a0 := blk.above_eq 0 (by omega)
    have a1 := blk.above_eq 1 (by omega)
    have a2 := blk.above_eq 2 (by omega)
    have a3 := blk.above_eq 3 (by omega)
    have a4 := blk.above_eq 4 (by omega)
    have a5 := blk.above_eq 5 (by omega)
    have a6 := blk.above_eq 6 (by omega)
    have a7 := blk.above_eq 7 (by omega)
    have l0 := blk.left_eq 0 (by omega)
    have l1 := blk.left_eq 1 (by omega)
    have l2 := blk.left_eq 2 (by omega)
    have l3 := blk.left_eq 3 (by omega)
    have e0 := blk.east_eq 0 (by omega)
    have e1 := blk.east_eq 1 (by omega)
    have e2 := blk.east_eq 2 (by omega)
    have e3 := blk.east_eq 3 (by omega)
    have e4 := blk.east_eq 4 (by omega)
    have e5 := blk.east_eq 5 (by omega)
    have e6 := blk.east_eq 6 (by omega)
    have e7 := blk.east_eq 7 (by omega)
    have e8 := blk.east_eq 8 (by omega)
    have ln := blk.left_neg_one
    have an := blk.above_neg_one
    norm_num at a0 a1 a2 a3 a4 a5 a6 a7
    norm_num at l0 l1 l2 l3
    norm_num at e0 e1 e2 e3 e4 e5 e6 e7 e8
    obtain ⟨hva, hvl, hvp, hvr, hvx⟩ := hv
    have hAR : ∀ k, k < 4 →
        blk.predictors_.above_right_bottom_row_predictor.above_right k ≤ 255 := by
      intro k hk
      unfold AboveRightBottomRowPredictor.above_right
      split_ifs
      · exact hvr k hk
      · exact hvx
    obtain ⟨NB, hNB⟩ : ∃ NB : Nat → Prop, ∀ x, NB x ↔
        (x ≤ 255 ∧ ∃ i : Int, blk.above i = some x ∨ blk.left i = some x) :=
      ⟨_, fun _ => Iff.rfl⟩
    obtain ⟨G, hG⟩ : ∃ G : Nat → Prop, ∀ v, G v ↔ ∃ x y z : Nat, NB x ∧ NB y ∧ NB z
        ∧ ((v = avg3 x y z ∧ (v : Int) = ((x : Int) + 2 * y + z + 2) / 4)
          ∨ (v = avg2 x y ∧ (v : Int) = ((x : Int) + y + 1) / 2)
          ∨ v = x) := ⟨_, fun _ => Iff.rfl⟩
    have g3 : ∀ x y z, NB x → NB y → NB z → G (avg3 x y z) := by
      intro x y z hx hy hz
      refine (hG _).2 ⟨x, y, z, hx, hy, hz, Or.inl ⟨rfl, ?_⟩⟩
      have h1 := ((hNB x).1 hx).1
      have h2 := ((hNB y).1 hy).1
      have h3 := ((hNB z).1 hz).1
      unfold avg3 toUInt8
      omega
    have g2 : ∀ x y, NB x → NB y → G (avg2 x y) := by
      intro x y hx hy
      refine (hG _).2 ⟨x, y, y, hx, hy, hy, Or.inr (Or.inl ⟨rfl, ?_⟩)⟩
      have h1 := ((hNB x).1 hx).1
      have h2 := ((hNB y).1 hy).1
      unfold avg2 toUInt8
      omega
    have g1 : ∀ x, NB x → G x := fun x hx => (hG _).2 ⟨x, x, x, hx, hx, hx, Or.inr (Or.inr rfl)⟩
    have nA0 : NB (blk.predictors_.above_row 0) := (hNB _).2 ⟨hva 0 (by omega), 0, Or.inl a0⟩
    have nA1 : NB (blk.predictors_.above_row 1) := (hNB _).2 ⟨hva 1 (by omega), 1, Or.inl a1⟩
    have nA2 : NB (blk.predictors_.above_row 2) := (hNB _).2 ⟨hva 2 (by omega), 2, Or.inl a2⟩
    have nA3 : NB (blk.predictors_.above_row 3) := (hNB _).2 ⟨hva 3 (by omega), 3, Or.inl a3⟩
    have nA4 : NB (blk.predictors_.above_right_bottom_row_predictor.above_right 0) :=
      (hNB _).2 ⟨hAR 0 (by omega), 4, Or.inl a4⟩
    have nA5 : NB (blk.predictors_.above_right_bottom_row_predictor.above_right 1) :=
      (hNB _).2 ⟨hAR 1 (by omega), 5, Or.inl a5⟩
    have nA6 : NB (blk.predictors_.above_right_bottom_row_predictor.above_right 2) :=
      (hNB _).2 ⟨hAR 2 (by omega), 6, Or.inl a6⟩
    have nA7 : NB (blk.predictors_.above_right_bottom_row_predictor.above_right 3) :=
      (hNB _).2 ⟨hAR 3 (by omega), 7, Or.inl a7⟩
    have nL0 : NB (blk.predictors_.left_column 0) := (hNB _).2 ⟨hvl 0 (by omega), 0, Or.inr l0⟩
    have nL1 : NB (blk.predictors_.left_column 1) := (hNB _).2 ⟨hvl 1 (by omega), 1, Or.inr l1⟩
    have nL2 : NB (blk.predictors_.left_column 2) := (hNB _).2 ⟨hvl 2 (by omega), 2, Or.inr l2⟩
    have nL3 : NB (blk.predictors_.left_column 3) := (hNB _).2 ⟨hvl 3 (by omega), 3, Or.inr l3⟩
    have nP : NB blk.predictors_.above_left := (hNB _).2 ⟨hvp, -1, Or.inl an⟩
    have cases4 : ∀ c, c < 4 → c = 0 ∨ c = 1 ∨ c = 2 ∨ c = 3 := fun c h => by omega
    have fin : ∀ out : Block, (∀ c r, c < 4 → r < 4 → G (out.contents_ c r)) →
        ∀ c r, c < 4 → r < 4 → ∃ x y z : Nat,
            (x ≤ 255 ∧ ∃ i : Int, blk.above i = some x ∨ blk.left i = some x)
            ∧ (y ≤ 255 ∧ ∃ i : Int, blk.above i = some y ∨ blk.left i = some y)
            ∧ (z ≤ 255 ∧ ∃ i : Int, blk.above i = some z ∨ blk.left i = some z)
            ∧ ((out.contents_ c r = avg3 x y z
                ∧ (out.contents_ c r : Int) = ((x : Int) + 2 * y + z + 2) / 4)
              ∨ (out.contents_ c r = avg2 x y
                ∧ (out.contents_ c r : Int) = ((x : Int) + y + 1) / 2)
              ∨ out.contents_ c r = x) := by
      intro out h c r hc hr
      obtain ⟨x, y, z, hx, hy, hz, hd⟩ := (hG _).1 (h c r hc hr)
      exact ⟨x, y, z, (hNB x).1 hx, (hNB y).1 hy, (hNB z).1 hz, hd⟩
    cases mode
    · exact absurd rfl hm
    · exact absurd rfl hm2
    all_goals
      refine ⟨_, by
        simp only [Block4.intra_predict, Block4.vertical_smoothed_predict,
          Block4.horizontal_smoothed_predict, Block4.left_down_predict,
          Block4.right_down_predict, Block4.vertical_right_predict,
          Block4.vertical_left_predict, Block4.horizontal_down_predict,
          Block4.horizontal_up_predict, avg3M, avg2M, a0, a1, a2, a3, a4, a5, a6, a7,
          l0, l1, l2, l3, e0, e1, e2, e3, e4, e5, e6, e7, e8, ln, an, Option.bind_eq_bind,
          Option.some_bind, Option.pure_def]
        rfl, fin _ (fun c r hc hr => ?_)⟩
      rcases cases4 c hc with rfl | rfl | rfl | rfl <;>
        rcases cases4 r hr with rfl | rfl | rfl | rfl <;>
        simp [Contents.set, Contents.row_fill, Contents.column_fill] <;>
        first
        | exact g3 _ _ _ (by assumption) (by assumption) (by assumption)
        | exact g2 _ _ (by assumption) (by assumption)
        | exact g1 _ (by assumption)
  refine ⟨?_, ?_, Block4.intra_predict_range, ?_, ?_, ?_, ?_, clamp255_le, ?_, ?_, ?_, ?_,
    ?_, ?_, ?_⟩
  · intro mode blk hm hv
    cases mode
    · exact ⟨_, rfl, fun c r hc hr => (blk.intra_predict_mb_range 8 hv c r hc hr).1⟩
    · exact ⟨_, rfl, fun c r hc hr => (blk.intra_predict_mb_range 8 hv c r hc hr).2.1⟩
    · exact ⟨_, rfl, fun c r hc hr => (blk.intra_predict_mb_range 8 hv c r hc hr).2.2.1⟩
    · exact ⟨_, rfl, fun c r hc hr => (blk.intra_predict_mb_range 8 hv c r hc hr).2.2.2⟩
    · exact absurd rfl hm
  · intro mode blk hm hv
    cases mode
    · exact ⟨_, rfl, fun c r hc hr => (blk.intra_predict_mb_range 16 hv c r hc hr).1⟩
    · exact ⟨_, rfl, fun c r hc hr => (blk.intra_predict_mb_range 16 hv c r hc hr).2.1⟩
    · exact ⟨_, rfl, fun c r hc hr => (blk.intra_predict_mb_range 16 hv c r hc hr).2.2.1⟩
    · exact ⟨_, rfl, fun c r hc hr => (blk.intra_predict_mb_range 16 hv c r hc hr).2.2.2⟩
    · exact absurd rfl hm
  · intro size col row stride mv ref b hS hv h8
    exact ⟨fun out h c r hc hr =>
        safe_inter_predict_range size col row stride mv ref b hS hv h8 out h c r hc hr,
      fun hst => ⟨_, safe_inter_predict_eq size col row stride mv ref b hS hv (fun _ => hst)⟩⟩
  · intro x y z hx hy hz
    refine ⟨by omega, by omega, ?_⟩
    unfold avg3 toUInt8
    omega
  · intro x y hx hy
    refine ⟨by omega, by omega, ?_⟩
    unfold avg2 toUInt8
    omega
  · intro k a l hk ha hl
    exact dc_value_bounds a l k hk ha hl
  · intro mode blk hm hv
    have hdc := fun c r (hc : c < 8) (hr : r < 8) =>
      hDC 3 (by omega) blk hv c r hc hr
    simp only [Nat.reducePow, Nat.reduceAdd, Nat.reduceSub] at hdc
    cases mode
    · refine ⟨_, rfl, fun c r hc hr => ⟨fun _ => ⟨(hdc c r hc hr).1, ?_⟩,
        fun h => (by cases h), fun h => (by cases h), fun h => (by cases h)⟩⟩
      exact (blk.intra_predict_mb_range 8 hv c r hc hr).1
    · exact ⟨_, rfl, fun c r hc hr => ⟨fun h => (by cases h),
        fun _ => (hEdge 8 blk c r hc hr).1, fun h => (by cases h),
        fun h => (by cases h)⟩⟩
    · exact ⟨_, rfl, fun c r hc hr => ⟨fun h => (by cases h), fun h => (by cases h),
        fun _ => (hEdge 8 blk c r hc hr).2.1, fun h => (by cases h)⟩⟩
    · exact ⟨_, rfl, fun c r hc hr => ⟨fun h => (by cases h), fun h => (by cases h),
        fun h => (by cases h), fun _ => (hEdge 8 blk c r hc hr).2.2⟩⟩
    · exact absurd rfl hm
  · intro mode blk hm hv
    have hdc := fun c r (hc : c < 16) (hr : r < 16) =>
      hDC 4 (by omega) blk hv c r hc hr
    simp only [Nat.reducePow, Nat.reduceAdd, Nat.reduceSub] at hdc
    cases mode
    · refine ⟨_, rfl, fun c r hc hr => ⟨fun _ => ⟨(hdc c r hc hr).1, ?_⟩,
        fun h => (by cases h), fun h => (by cases h), fun h => (by cases h)⟩⟩
      exact (blk.intra_predict_mb_range 16 hv c r hc hr).1
    · exact ⟨_, rfl, fun c r hc hr => ⟨fun h => (by cases h),
        fun _ => (hEdge 16 blk c r hc hr).1, fun h => (by cases h),
        fun h => (by cases h)⟩⟩
    · exact ⟨_, rfl, fun c r hc hr => ⟨fun h => (by cases h), fun h => (by cases h),
        fun _ => (hEdge 16 blk c r hc hr).2.1, fun h => (by cases h)⟩⟩
    · exact ⟨_, rfl, fun c r hc hr => ⟨fun h => (by cases h), fun h => (by cases h),
        fun h => (by cases h), fun _ => (hEdge 16 blk c r hc hr).2.2⟩⟩
    · exact absurd rfl hm
  · intro blk hv
    have hdc := fun c r (hc : c < 4) (hr : r < 4) =>
      hDC 2 (by omega) blk hv c r hc hr
    simp only [Nat.reducePow, Nat.reduceAdd, Nat.reduceSub] at hdc
    exact ⟨_, rfl, fun c r hc hr => ⟨(hdc c r hc hr).2.1,
      (hdc c r hc hr).2.1 ▸ (hdc c r hc hr).2.2.1⟩⟩
  · intro blk
    exact ⟨_, rfl, fun c r hc hr => (hEdge 4 blk c r hc hr).2.2⟩
  · intro mode blk hv hm hm2
    exact hDir mode blk hv hm hm2
  · intro size col row mv ref b hS hv
    refine ⟨_, safe_inter_predict_eq size col row ref.width mv ref b hS hv (fun _ => rfl), ?_⟩
    intro c r hc hr
    simp only [hc, hr, and_self, if_true]
    refine ⟨trivial, ?_, ?_⟩
    · intro h
      unfold interCell
      rw [if_pos h]
    · intro h
      obtain ⟨t0, t1, t2, t3, t4, t5, hf, -, hval⟩ := hSix (mv.y % 8).toNat
        (phase_lt _)
        (interRow mv (edgeRead ref) (source_column size col mv) (source_row size row mv) c r)
        (interRow mv (edgeRead ref) (source_column size col mv) (source_row size row mv) c
          (r + 1))
        (interRow mv (edgeRead ref) (source_column size col mv) (source_row size row mv) c
          (r + 2))
        (interRow mv (edgeRead ref) (source_column size col mv) (source_row size row mv) c
          (r + 3))
        (interRow mv (edgeRead ref) (source_column size col mv) (source_row size row mv) c
          (r + 4))
        (interRow mv (edgeRead ref) (source_column size col mv) (source_row size row mv) c
          (r + 5))
      refine ⟨t0, t1, t2, t3, t4, t5, fun i => interRow mv (edgeRead ref)
        (source_column size col mv) (source_row size row mv) c (r + i), hf, fun _ => rfl, ?_⟩
      unfold interCell
      rw [if_neg h]
      exact hval
  · intro p s0 s1 s2 s3 s4 s5 hp
    exact hSix p hp s0 s1 s2 s3 s4 s5

/-- Witness of C5: the DC prediction of a 16x16 block with both neighbours filled with 128. -/
theorem output_samples_in_range_witness :
    (Block.new 16 exampleContext (fun _ _ => 0)).predictors_.valid 16
      ∧ (Block16.intra_predict mbmode.DC_PRED (Block.new 16 exampleContext (fun _ _ => 0))).isSome
          = true := by
  have hv : (Block.new 16 exampleContext (fun _ _ => 0)).predictors_.valid 16 :=
    Predictors.new_valid 16 exampleContext (by decide) (by decide)
  obtain ⟨out, h, -⟩ := output_samples_in_range.2.1 mbmode.DC_PRED
    (Block.new 16 exampleContext (fun _ _ => 0)) (by decide) hv
  exact ⟨hv, by rw [h]; rfl⟩

/-- C6: `dc_predict` on a block of size `S = 2 ^ log2S`, `log2S ∈ {2, 3, 4}`, fills every
cell with one value: the rounded average of the above row and the left column when both
neighbours are present, of the above row when only the above neighbour is present, of the
left column when only the left neighbour is present, and 128 when neither is. For a 16x16
block with both sums equal to 2048 every cell is 128. -/
theorem dc_predict_fills (log2S : Nat) (hk : log2S = 2 ∨ log2S = 3 ∨ log2S = 4) (blk : Block)
    (hv : blk.predictors_.valid (2 ^ log2S)) :
    (∀ c r, c < 2 ^ log2S → r < 2 ^ log2S →
      (blk.dc_predict (2 ^ log2S)).contents_ c r =
        if blk.context_.above.isSome ∧ blk.context_.left.isSome then
          ((∑ i ∈ range (2 ^ log2S), blk.predictors_.above_row i)
            + (∑ i ∈ range (2 ^ log2S), blk.predictors_.left_column i)
            + 1 <<< log2S) >>> (log2S + 1)
        else if blk.context_.above.isSome then
          ((∑ i ∈ range (2 ^ log2S), blk.predictors_.above_row i) + 1 <<< (log2S - 1)) >>> log2S
        else if blk.context_.left.isSome then
          ((∑ i ∈ range (2 ^ log2S), blk.predictors_.left_column i) + 1 <<< (log2S - 1))
            >>> log2S
        else 128)
    ∧ (log2S = 4 → blk.context_.above.isSome → blk.context_.left.isSome →
        (∑ i ∈ range 16, blk.predictors_.above_row i) = 2048 →
        (∑ i ∈ range 16, blk.predictors_.left_column i) = 2048 →
        ∀ c r, c < 16 → r < 16 → (blk.dc_predict 16).contents_ c r = 128) := by
  obtain ⟨ha, hl, -⟩ := hv
  have main : ∀ c r, c < 2 ^ log2S → r < 2 ^ log2S →
      (blk.dc_predict (2 ^ log2S)).contents_ c r =
        if blk.context_.above.isSome ∧ blk.context_.left.isSome then
          ((∑ i ∈ range (2 ^ log2S), blk.predictors_.above_row i)
            + (∑ i ∈ range (2 ^ log2S), blk.predictors_.left_column i)
            + 1 <<< log2S) >>> (log2S + 1)
        else if blk.context_.above.isSome then
          ((∑ i ∈ range (2 ^ log2S), blk.predictors_.above_row i) + 1 <<< (log2S - 1)) >>> log2S
        else if blk.context_.left.isSome then
          ((∑ i ∈ range (2 ^ log2S), blk.predictors_.left_column i) + 1 <<< (log2S - 1))
            >>> log2S
        else 128 := by
    intro c r hc hr
    unfold Block.dc_predict
    by_cases h1 : blk.context_.above.isSome = true ∧ blk.context_.left.isSome = true
    · rw [if_pos h1, if_pos h1]
      simp only [Block.dc_predict_simple, Contents.fill, hc, hr, and_self, if_true]
      exact dc_value_both _ _ log2S hk ha hl
    · rw [if_neg h1, if_neg h1]
      simp only [Contents.fill, hc, hr, and_self, if_true]
      by_cases h2 : blk.context_.above.isSome = true
      · rw [if_pos h2, if_pos h2]
        exact dc_value_one _ log2S hk ha
      · rw [if_neg h2, if_neg h2]
        by_cases h3 : blk.context_.left.isSome = true
        · rw [if_pos h3, if_pos h3]
          exact dc_value_one _ log2S hk hl
        · rw [if_neg h3, if_neg h3]
  refine ⟨main, ?_⟩
  intro h4 h1 h2 hsa hsl c r hc hr
  subst h4
  have := main c r hc hr
  simp only [Nat.reducePow] at this
  rw [this, if_pos ⟨h1, h2⟩, hsa, hsl]
  rfl

/-- Witness of C6: a 16x16 block whose above row and left column are filled with 128. -/
theorem dc_predict_fills_witness :
    (Block.new 16 exampleContext (fun _ _ => 0)).predictors_.valid (2 ^ 4)
      ∧ ((Block.new 16 exampleContext (fun _ _ => 0)).dc_predict 16).contents_ 3 5 = 128 := by
  have hv : (Block.new 16 exampleContext (fun _ _ => 0)).predictors_.valid (2 ^ 4) :=
    Predictors.new_valid 16 exampleContext (by decide) (by decide)
  exact ⟨hv, (dc_predict_fills 4 (Or.inr (Or.inr rfl))
    (Block.new 16 exampleContext (fun _ _ => 0)) hv).2 rfl rfl rfl
      (by simp [Block.new, Predictors.new, exampleContext])
      (by simp [Block.new, Predictors.new, exampleContext]) 3 5 (by decide) (by decide)⟩

/-- C7: on a 4x4 block `intra_predict( B_DC_PRED )` fills every cell with
`(sum(above_row) + sum(left_column) + 4) >> 3` over the block's predictors, whichever
neighbours are present; an absent above neighbour contributes a row of 127s and an absent
left neighbour a column of 129s, so with both absent every cell is 128. -/
theorem b_dc_pred_fills (c : Context) (contents : Contents) (hc : c.valid 4) :
    ∃ blk, Block4.intra_predict bmode.B_DC_PRED (Block.new 4 c contents) = some blk
      ∧ (∀ x y, x < 4 → y < 4 → blk.contents_ x y =
          ((∑ i ∈ range 4, (Predictors.new 4 c).above_row i)
            + (∑ i ∈ range 4, (Predictors.new 4 c).left_column i) + 4) >>> 3)
      ∧ (c.above = none → ∀ i, (Predictors.new 4 c).above_row i = 127)
      ∧ (c.left = none → ∀ i, (Predictors.new 4 c).left_column i = 129)
      ∧ (c.above = none → c.left = none → ∀ x y, x < 4 → y < 4 → blk.contents_ x y = 128) := by
  have hv := Predictors.new_valid 4 c (by omega) hc
  have main : ∀ x y, x < 4 → y < 4 →
      ((Block.new 4 c contents).dc_predict_simple 4).contents_ x y =
          ((∑ i ∈ range 4, (Predictors.new 4 c).above_row i)
            + (∑ i ∈ range 4, (Predictors.new 4 c).left_column i) + 4) >>> 3 := by
    intro x y hx hy
    simp only [Block.dc_predict_simple, Block.new, Contents.fill, hx, hy, and_self, if_true]
    exact dc_value_both _ _ 2 (Or.inl rfl) hv.1 hv.2.1
  have ha : c.above = none → ∀ i, (Predictors.new 4 c).above_row i = 127 := by
    intro h i
    simp [Predictors.new, h, Predictors.row127]
  have hl : c.left = none → ∀ i, (Predictors.new 4 c).left_column i = 129 := by
    intro h i
    simp [Predictors.new, h, Predictors.col129]
  refine ⟨_, rfl, main, ha, hl, ?_⟩
  intro h1 h2 x y hx hy
  rw [main x y hx hy]
  simp [Finset.sum_range_succ, ha h1, hl h2]

/-- Witness of C7: the top-left 4x4 block of a frame is predicted as 128. -/
theorem b_dc_pred_fills_witness :
    exampleContextCorner.valid 4
      ∧ (Block4.intra_predict bmode.B_DC_PRED
          (Block.new 4 exampleContextCorner (fun _ _ => 0))).isSome = true := by
  have hc : exampleContextCorner.valid 4 := by decide
  obtain ⟨blk, h, -⟩ := b_dc_pred_fills exampleContextCorner (fun _ _ => 0) hc
  exact ⟨hc, by rw [h]; rfl⟩

/-- C8: after `true_motion_predict` cell `(c, r)` is `left_column[r] + above_row[c] -
above_left` saturated into `[0, 255]`; with `above_left = 100`, `above_row[2] = 130` and
`left_column[1] = 115`, cell `(2, 1)` is 145. -/
theorem true_motion_predict_cell (size : Nat) (blk : Block) :
    (∀ c r, c < size → r < size →
      (((blk.true_motion_predict size).contents_ c r : Nat) : Int) =
        max 0 (min 255 ((blk.predictors_.left_column r : Int) + blk.predictors_.above_row c
          - blk.predictors_.above_left)))
    ∧ (blk.predictors_.above_left = 100 → blk.predictors_.above_row 2 = 130 →
        blk.predictors_.left_column 1 = 115 →
        (blk.true_motion_predict 4).contents_ 2 1 = 145) := by
  constructor
  · intro c r hc hr
    simp only [Block.true_motion_predict, Contents.forall_ij, hc, hr, and_self, if_true]
    exact clamp255_eq_max_min _
  · intro h1 h2 h3
    simp [Block.true_motion_predict, Contents.forall_ij, h1, h2, h3, clamp255]

/-- C9: after `vertical_predict` cell `(c, r)` is `above_row[c]`, and after
`horizontal_predict` it is `left_column[r]`. The vertical prediction of a block does not
depend on its left neighbour, nor the horizontal prediction on its above neighbour; with the
above row 10, 20, 30, 40 and no left neighbour every row of a 4x4 block is 10, 20, 30, 40. -/
theorem directional_predict_cell (size : Nat) (blk : Block) :
    (∀ c r, c < size → r < size →
      (blk.vertical_predict size).contents_ c r = blk.predictors_.above_row c)
    ∧ (∀ c r, c < size → r < size →
      (blk.horizontal_predict size).contents_ c r = blk.predictors_.left_column r)
    ∧ (∀ (ctx : Context) (contents : Contents) (left : Option Contents) (c r : Nat),
        c < size → r < size →
        ((Block.new size { ctx with left := left } contents).vertical_predict size).contents_ c r
          = ((Block.new size ctx contents).vertical_predict size).contents_ c r)
    ∧ (∀ (ctx : Context) (contents : Contents) (above : Option Contents) (c r : Nat),
        c < size → r < size →
        ((Block.new size { ctx with above := above } contents).horizontal_predict size).contents_
            c r
          = ((Block.new size ctx contents).horizontal_predict size).contents_ c r)
    ∧ (∀ (ctx : Context) (contents above : Contents), ctx.left = none → ctx.above = some above →
        (∀ c, c < 4 → above c 3 = 10 * (c + 1)) →
        ∀ c r, c < 4 → r < 4 →
          ((Block.new 4 ctx contents).vertical_predict 4).contents_ c r = 10 * (c + 1)) := by
  have hv : ∀ (n : Nat) (blk : Block) c r, c < n → r < n →
      (blk.vertical_predict n).contents_ c r = blk.predictors_.above_row c := by
    intro n blk c r hc hr
    simp only [Block.vertical_predict, forLoop_column_fill, hc, hr, and_self, if_true]
  have hh : ∀ (blk : Block) c r, c < size → r < size →
      (blk.horizontal_predict size).contents_ c r = blk.predictors_.left_column r := by
    intro blk c r hc hr
    simp only [Block.horizontal_predict, forLoop_row_fill, hc, hr, and_self, if_true]
  refine ⟨hv size blk, hh blk, ?_, ?_, ?_⟩
  · intro ctx contents left c r hc hr
    rw [hv _ _ c r hc hr, hv _ _ c r hc hr]
    rfl
  · intro ctx contents above c r hc hr
    rw [hh _ c r hc hr, hh _ c r hc hr]
    rfl
  · intro ctx contents above _ ha hrow c r hc hr
    rw [hv _ _ c r hc hr]
    simp only [Block.new, Predictors.new, ha]
    exact hrow c hc

/-- C10: `intra_predict( B_LD_PRED )` on a 4x4 block returns the block of
`left_down_predict`: with `a k` the value of `above( k )` for `k` in
`0 .. 7`, every cell `(c, r)` with `c + r ≤ 5` is `avg3( a (c+r), a (c+r+1), a (c+r+2) )`,
the cell `(3, 3)` is `avg3( a 6, a 7, a 7 )`, and `avg3( x, y, z ) = (x + 2y + z + 2) >> 2`;
with `above( 0 .. 7 ) = 10, 20, ..., 80` cell `(0, 0)` is 20 and cell `(3, 3)` is 78. -/
theorem left_down_predict_cells (blk : Block) :
    ∃ (out : Block) (a : Nat → Nat), Block4.intra_predict bmode.B_LD_PRED blk = some out
      ∧ Block4.left_down_predict blk = some out
      ∧ (∀ k : Nat, k < 8 → blk.above (k : Int) = some (a k))
      ∧ (∀ c r : Nat, c < 4 → r < 4 → c + r ≤ 5 →
          out.contents_ c r = avg3 (a (c + r)) (a (c + r + 1)) (a (c + r + 2)))
      ∧ out.contents_ 3 3 = avg3 (a 6) (a 7) (a 7)
      ∧ (∀ x y z, x ≤ 255 → y ≤ 255 → z ≤ 255 → avg3 x y z = (x + 2 * y + z + 2) >>> 2)
      ∧ ((∀ k : Nat, k < 8 → a k = 10 * (k + 1)) →
          out.contents_ 0 0 = 20 ∧ out.contents_ 3 3 = 78) := by
  have h0 := blk.above_eq 0 (by omega)
  have h1 := blk.above_eq 1 (by omega)
  have h2 := blk.above_eq 2 (by omega)
  have h3 := blk.above_eq 3 (by omega)
  have h4 := blk.above_eq 4 (by omega)
  have h5 := blk.above_eq 5 (by omega)
  have h6 := blk.above_eq 6 (by omega)
  have h7 := blk.above_eq 7 (by omega)
  simp only [Nat.cast_ofNat, Nat.cast_zero, Nat.cast_one] at h0 h1 h2 h3 h4 h5 h6 h7
  refine ⟨_, fun k => if k < 4 then blk.predictors_.above_row k
      else blk.predictors_.above_right_bottom_row_predictor.above_right (k - 4),
    by
      simp [Block4.intra_predict, Block4.left_down_predict, avg3M, h0, h1, h2, h3, h4, h5, h6,
        h7]
      rfl,
    by simp [Block4.left_down_predict, avg3M, h0, h1, h2, h3, h4, h5, h6, h7],
    fun k hk => blk.above_eq k hk, ?_, ?_, fun x y z hx hy hz => avg3_eq x y z hx hy hz, ?_⟩
  · intro c r hc hr _
    have hc4 : c = 0 ∨ c = 1 ∨ c = 2 ∨ c = 3 := by omega
    have hr4 : r = 0 ∨ r = 1 ∨ r = 2 ∨ r = 3 := by omega
    rcases hc4 with rfl | rfl | rfl | rfl <;> rcases hr4 with rfl | rfl | rfl | rfl <;>
      first
      | (exfalso; omega)
      | simp [Contents.set]
  · simp [Contents.set]
  · intro h
    have e0 := h 0 (by omega)
    have e1 := h 1 (by omega)
    have e2 := h 2 (by omega)
    have e6 := h 6 (by omega)
    have e7 := h 7 (by omega)
    norm_num at e0 e1 e2 e6 e7
    simp [Contents.set, e0, e1, e2, e6, e7, avg3, toUInt8]

/-! ## Neighbour predictors: the claims -/

/-- Inside its index range `above` returns the corner, a sample of the row above or a
sample of the above-right region. -/
theorem Predictors.above_of_range (size : Nat) (hS : size ≤ 63) (p : Predictors) (c : Int)
    (h1 : -1 ≤ c) (h2 : c < 2 * size) :
    p.above size c = some (if c = -1 then p.above_left
      else if c < size then p.above_row c.toNat
      else p.above_right_bottom_row_predictor.above_right (c - size).toNat) := by
  have e8 : toInt8 ((size : Int) * 2) = 2 * size := by unfold toInt8; omega
  have e32 : toInt32 (size : Int) = size := by unfold toInt32; omega
  unfold Predictors.above
  rw [e8, e32, if_pos ⟨by omega, h2⟩]
  by_cases hc : c = -1
  · rw [if_pos hc, if_pos hc]
  · rw [if_neg hc, if_neg hc]
    by_cases hc2 : c < size
    · rw [if_pos ⟨by omega, hc2⟩, if_pos hc2]
    · rw [if_neg (fun h => hc2 h.2), if_neg hc2]
      have : toUInt32 (c - size) = c - size := by unfold toUInt32; omega
      rw [this]


/-- Inside its index range `left` returns the corner or a sample of the left column. -/
theorem Predictors.left_of_range (size : Nat) (hS : size ≤ 127) (p : Predictors) (r : Int)
    (h1 : -1 ≤ r) (h2 : r < size) :
    p.left size r = some (if r = -1 then p.above_left else p.left_column r.toNat) := by
  have e8 : toInt8 (size : Int) = size := by unfold toInt8; omega
  unfold Predictors.left
  rw [e8, if_pos ⟨by omega, h2⟩]
  by_cases hc : r = -1
  · rw [if_pos hc, if_pos hc]
  · rw [if_neg hc, if_neg hc]


/-- C11: `B_VE_PRED` returns a block whose column `c` holds
`avg3 (above (c - 1)) (above c) (above (c + 1))` in every row, where `above (-1)` is the
above-left corner and `above 4` the first above-right sample; `B_HE_PRED` returns a block
whose row `r` holds `avg3 (left (r - 1)) (left r) (left (r + 1))` for `r < 3` and whose last
row holds `avg3 (left 2) (left 3) (left 3)`. -/
theorem smoothed_predict_cells (blk : Block) :
    (∃ (out : Block) (a : Int → Nat),
      Block4.intra_predict bmode.B_VE_PRED blk = some out
      ∧ (∀ c : Int, -1 ≤ c → c ≤ 4 → blk.above c = some (a c))
      ∧ a (-1) = blk.predictors_.above_left
      ∧ a 4 = blk.predictors_.above_right_bottom_row_predictor.above_right 0
      ∧ (∀ c r : Nat, c < 4 → r < 4 →
          out.contents_ c r = avg3 (a ((c : Int) - 1)) (a c) (a ((c : Int) + 1))))
    ∧ (∃ (out : Block) (l : Int → Nat),
      Block4.intra_predict bmode.B_HE_PRED blk = some out
      ∧ (∀ r : Int, -1 ≤ r → r ≤ 3 → blk.left r = some (l r))
      ∧ l (-1) = blk.predictors_.above_left
      ∧ (∀ c r : Nat, c < 4 → r < 3 →
          out.contents_ c r = avg3 (l ((r : Int) - 1)) (l r) (l ((r : Int) + 1)))
      ∧ (∀ c : Nat, c < 4 → out.contents_ c 3 = avg3 (l 2) (l 3) (l 3))) := by
  have a0 := blk.above_eq 0 (by omega)
  have a1 := blk.above_eq 1 (by omega)
  have a2 := blk.above_eq 2 (by omega)
  have a3 := blk.above_eq 3 (by omega)
  have a4 := blk.above_eq 4 (by omega)
  have l0 := blk.left_eq 0 (by omega)
  have l1 := blk.left_eq 1 (by omega)
  have l2 := blk.left_eq 2 (by omega)
  have l3 := blk.left_eq 3 (by omega)
  have ln := blk.left_neg_one
  have an := blk.above_neg_one
  simp only [Nat.cast_ofNat, Nat.cast_zero, Nat.cast_one] at a0 a1 a2 a3 a4
  simp only [Nat.cast_ofNat, Nat.cast_zero, Nat.cast_one] at l0 l1 l2 l3
  norm_num at a0 a1 a2 a3 a4
  have cases4 : ∀ c, c < 4 → c = 0 ∨ c = 1 ∨ c = 2 ∨ c = 3 := fun c h => by omega
  constructor
  · refine ⟨_, fun c => if c = -1 then blk.predictors_.above_left
        else if c < 4 then blk.predictors_.above_row c.toNat
        else blk.predictors_.above_right_bottom_row_predictor.above_right (c - 4).toNat,
      by
        simp only [Block4.intra_predict, Block4.vertical_smoothed_predict, avg3M, a0, a1, a2,
          a3, a4, an, Option.bind_eq_bind, Option.some_bind, Option.pure_def]
        rfl, ?_, by simp, by simp, ?_⟩
    · intro c h1 h2
      have hc : c = -1 ∨ c = 0 ∨ c = 1 ∨ c = 2 ∨ c = 3 ∨ c = 4 := by omega
      rcases hc with rfl | rfl | rfl | rfl | rfl | rfl <;> simp [an, a0, a1, a2, a3, a4]
    · intro c r hc hr
      rcases cases4 c hc with rfl | rfl | rfl | rfl <;>
        rcases cases4 r hr with rfl | rfl | rfl | rfl <;>
        simp [Contents.column_fill]
  · refine ⟨_, fun r => if r = -1 then blk.predictors_.above_left
        else blk.predictors_.left_column r.toNat,
      by
        simp only [Block4.intra_predict, Block4.horizontal_smoothed_predict, avg3M, l0, l1, l2,
          l3, ln, Option.bind_eq_bind, Option.some_bind, Option.pure_def]
        rfl, ?_, by simp, ?_, ?_⟩
    · intro r h1 h2
      have hr : r = -1 ∨ r = 0 ∨ r = 1 ∨ r = 2 ∨ r = 3 := by omega
      rcases hr with rfl | rfl | rfl | rfl | rfl <;> simp [ln, l0, l1, l2, l3]
    · intro c r hc hr
      have hr3 : r = 0 ∨ r = 1 ∨ r = 2 := by omega
      rcases cases4 c hc with rfl | rfl | rfl | rfl <;>
        rcases hr3 with rfl | rfl | rfl <;>
        simp [Contents.row_fill]
    · intro c hc
      rcases cases4 c hc with rfl | rfl | rfl | rfl <;> simp [Contents.row_fill]

/-- C12: for every size and context the constructed `above_row` is row `size - 1` of the
above block when that neighbour is present and the constant 127 otherwise, and the
constructed `left_column` is column `size - 1` of the left block when that neighbour is
present and the constant 129 otherwise. -/
theorem Predictors.new_edges (size : Nat) (context : Context) :
    (∀ above, context.above = some above →
      ∀ c, (Predictors.new size context).above_row c = above c (size - 1))
    ∧ (context.above = none → ∀ c, (Predictors.new size context).above_row c = 127)
    ∧ (∀ left, context.left = some left →
      ∀ r, (Predictors.new size context).left_column r = left (size - 1) r)
    ∧ (context.left = none → ∀ r, (Predictors.new size context).left_column r = 129) := by
  refine ⟨?_, ?_, ?_, ?_⟩
  · intro above h c
    simp [Predictors.new, h]
  · intro h c
    simp [Predictors.new, h, Predictors.row127]
  · intro left h r
    simp [Predictors.new, h]
  · intro h r
    simp [Predictors.new, h, Predictors.col129]

/-- C13: the constructed `above_left` is the sample `(size - 1, size - 1)` of the above-left
block when that neighbour is present; when it is absent the corner is 129 if the above
neighbour is present and 127 if the above neighbour is absent. -/
theorem Predictors.new_above_left (size : Nat) (context : Context) :
    (∀ above_left, context.above_left = some above_left →
      (Predictors.new size context).above_left = above_left (size - 1) (size - 1))
    ∧ (context.above_left = none → context.above.isSome →
      (Predictors.new size context).above_left = 129)
    ∧ (context.above_left = none → context.above = none →
      (Predictors.new size context).above_left = 127) := by
  refine ⟨?_, ?_, ?_⟩
  · intro al h
    simp [Predictors.new, h]
  · intro h1 h2
    obtain ⟨a, ha⟩ := Option.isSome_iff_exists.1 h2
    simp [Predictors.new, h1, ha, Predictors.col129]
  · intro h1 h2
    simp [Predictors.new, h1, h2, Predictors.row127]

/-- C14, amended: when the above-left neighbour is absent, the constructed `above_left` is
127 when the above neighbour is absent too, and 129 when the above neighbour is present. -/
theorem Predictors.corner_default (size : Nat) (context : Context)
    (h : context.above_left = none) :
    (context.above = none → (Predictors.new size context).above_left = 127)
    ∧ (context.above.isSome → (Predictors.new size context).above_left = 129) := by
  refine ⟨?_, ?_⟩
  · intro h2
    simp [Predictors.new, h, h2, Predictors.row127]
  · intro h2
    obtain ⟨a, ha⟩ := Option.isSome_iff_exists.1 h2
    simp [Predictors.new, h, ha, Predictors.col129]

/-- C14, amended, at the block in the top-left corner of the frame. -/
theorem Predictors.corner_default_witness :
    exampleContextCorner.above_left = none
      ∧ (Predictors.new 4 exampleContextCorner).above_left = 127 :=
  ⟨rfl, (Predictors.corner_default 4 exampleContextCorner rfl).1 rfl⟩

/-- C14 as stated fails in both cases: with no above-left and no above neighbour the corner
is 127 and not 129, and with no above-left but an above neighbour it is 129 and not 127. -/
theorem Predictors.corner_default_counterexample :
    exampleContextCorner.above_left = none ∧ exampleContextCorner.above = none
      ∧ (Predictors.new 4 exampleContextCorner).above_left ≠ 129
      ∧ exampleContext.above_left = none ∧ exampleContext.above.isSome = true
      ∧ (Predictors.new 4 exampleContext).above_left ≠ 127 := by
  refine ⟨rfl, rfl, by decide, rfl, rfl, by decide⟩

/-- C15: on freshly constructed predictors of a size up to 63 (so that `int8_t( size * 2 )`
is `2 * size`; the block sizes are 4, 8 and 16) `above (-1)` is `above_left`, `above c` is
`above_row c` for `c < size`, and for `size ≤ c < 2 * size` it is the sample at column
`c - size` of row `size - 1` of the above-right block when that neighbour is present (with
`use_row` set), otherwise the bottom-right sample of the above block when that one is
present, otherwise 127 (with `use_row` clear in both cases). -/
theorem Predictors.above_projection (size : Nat) (hS : size ≤ 63)
    (context : Context) :
    (Predictors.new size context).above size (-1)
        = some (Predictors.new size context).above_left
    ∧ (∀ c : Nat, c < size →
        (Predictors.new size context).above size c
          = some ((Predictors.new size context).above_row c))
    ∧ (∀ c : Nat, size ≤ c → c < 2 * size →
        (∀ above_right, context.above_right = some above_right →
          (Predictors.new size context).above size c = some (above_right (c - size) (size - 1))
          ∧ (Predictors.new size context).above_right_bottom_row_predictor.use_row = true)
        ∧ (context.above_right = none → ∀ above, context.above = some above →
          (Predictors.new size context).above size c = some (above (size - 1) (size - 1))
          ∧ (Predictors.new size context).above_right_bottom_row_predictor.use_row = false)
        ∧ (context.above_right = none → context.above = none →
          (Predictors.new size context).above size c = some 127
          ∧ (Predictors.new size context).above_right_bottom_row_predictor.use_row = false)) := by
  have hS2 : size ≤ 63 := by omega
  refine ⟨?_, ?_, ?_⟩
  · rw [Predictors.above_of_range size hS2 _ (-1) (by omega) (by omega), if_pos rfl]
  · intro c hc
    rw [Predictors.above_of_range size hS2 _ c (by omega) (by omega), if_neg (by omega),
      if_pos (by omega)]
    simp
  · intro c hc1 hc2
    have key := Predictors.above_of_range size hS2 (Predictors.new size context) c (by omega)
      (by omega)
    rw [if_neg (by omega), if_neg (by omega)] at key
    have e : ((c : Int) - size).toNat = c - size := by omega
    rw [e] at key
    refine ⟨?_, ?_, ?_⟩
    · intro ar h
      rw [key]
      simp [Predictors.new, h, AboveRightBottomRowPredictor.above_right]
    · intro h a ha
      rw [key]
      simp [Predictors.new, h, ha, AboveRightBottomRowPredictor.above_right]
    · intro h ha
      rw [key]
      simp [Predictors.new, h, ha, AboveRightBottomRowPredictor.above_right, Predictors.row127]


/-- C15 at the 4x4 block with a left and an above neighbour only. -/
theorem Predictors.above_projection_witness :
    4 ≤ 63
      ∧ (Predictors.new 4 exampleContext).above 4 (-1)
        = some (Predictors.new 4 exampleContext).above_left :=
  ⟨by decide, (Predictors.above_projection 4 (by decide) exampleContext).1⟩

/-- C16: for a block size of 4, 8 or 16 and `n ≤ 2 * size`, `east n` is `left (3 - n)` when
`n ≤ 4` and `above (n - 5)` otherwise, the argument handed on is inside the range that the
callee asserts, so the call returns a sample; `left (-1)` is `above_left` and `left r` is
`left_column r`, hence `east 0 .. east 3` are `left_column 3 .. left_column 0`, `east 4` is
`above_left` and `east (5 + k)` is `above k`. -/
theorem Predictors.east_linearises (size : Nat) (hS : size = 4 ∨ size = 8 ∨ size = 16)
    (p : Predictors) (n : Nat) (hn : n ≤ 2 * size) :
    (n ≤ 4 → p.east size n = p.left size (3 - (n : Int))
      ∧ -1 ≤ 3 - (n : Int) ∧ 3 - (n : Int) < size
      ∧ (p.left size (3 - (n : Int))).isSome = true)
    ∧ (4 < n → p.east size n = p.above size ((n : Int) - 5)
      ∧ -1 ≤ (n : Int) - 5 ∧ (n : Int) - 5 < 2 * size
      ∧ (p.above size ((n : Int) - 5)).isSome = true)
    ∧ p.left size (-1) = some p.above_left
    ∧ (∀ r : Nat, r < size → p.left size r = some (p.left_column r))
    ∧ (n < 4 → p.east size n = some (p.left_column (3 - n)))
    ∧ (n = 4 → p.east size n = some p.above_left)
    ∧ (∀ k : Nat, n = 5 + k → p.east size n = p.above size k) := by
  have hS2 : size ≤ 63 := by omega
  have hS3 : size ≤ 127 := by omega
  have e8 : toInt8 ((size : Int) * 2) = 2 * size := by unfold toInt8; omega
  have east_le : n ≤ 4 → p.east size n = p.left size (3 - (n : Int)) := by
    intro h
    unfold Predictors.east
    rw [e8, if_pos ⟨by omega, by omega⟩, if_pos (by omega)]
    congr 1
    unfold toInt8; omega
  have east_gt : 4 < n → p.east size n = p.above size ((n : Int) - 5) := by
    intro h
    unfold Predictors.east
    rw [e8, if_pos ⟨by omega, by omega⟩, if_neg (by omega)]
    congr 1
    unfold toInt8; omega
  refine ⟨?_, ?_, ?_, ?_, ?_, ?_, ?_⟩
  · intro h
    refine ⟨east_le h, by omega, by omega, ?_⟩
    rw [Predictors.left_of_range size hS3 p _ (by omega) (by omega)]
    rfl
  · intro h
    refine ⟨east_gt h, by omega, by omega, ?_⟩
    rw [Predictors.above_of_range size hS2 p _ (by omega) (by omega)]
    rfl
  · rw [Predictors.left_of_range size hS3 p (-1) (by omega) (by omega), if_pos rfl]
  · intro r hr
    rw [Predictors.left_of_range size hS3 p r (by omega) (by omega), if_neg (by omega)]
    simp
  · intro h
    rw [east_le (by omega), Predictors.left_of_range size hS3 p _ (by omega) (by omega),
      if_neg (by omega)]
    congr 2
    omega
  · intro h
    subst h
    rw [east_le (by omega), Predictors.left_of_range size hS3 p _ (by omega) (by omega)]
    simp
  · intro k hk
    rw [east_gt (by omega)]
    congr 1
    omega

/-- C16 at the 4x4 block with a left and an above neighbour only, for `east 4`. -/
theorem Predictors.east_linearises_witness :
    (4 = 4 ∨ 4 = 8 ∨ 4 = 16) ∧ 4 ≤ 2 * 4
      ∧ (Predictors.new 4 exampleContext).east 4 4
        = some (Predictors.new 4 exampleContext).above_left :=
  ⟨Or.inl rfl, by decide,
    (Predictors.east_linearises 4 (Or.inl rfl) (Predictors.new 4 exampleContext) 4
      (by decide)).2.2.2.2.2.1 rfl⟩

/-! ## Macroblocks and the raster: the claims -/

/-- The grid of luma sub-blocks after the constructor of a macroblock: three blocks got the
above-right region of the block at `(3, 0)`, all others are as before. -/
theorem Macroblock.new_Y_subblocks (c : MacroblockContext) (raster : Raster) (x y : Nat) :
    (Macroblock.new c raster).2.Y_subblocks_ x y
      = if x = 4 * c.column % 4294967296 + 3
            ∧ (y = 4 * c.row % 4294967296 + 1 ∨ y = 4 * c.row % 4294967296 + 2
              ∨ y = 4 * c.row % 4294967296 + 3) then
          Block4.set_above_right_bottom_row_predictor (raster.Y_subblocks_ x y)
            (raster.Y_subblocks_ (4 * c.column % 4294967296 + 3)
              (4 * c.row % 4294967296)).predictors_.above_right_bottom_row_predictor
        else raster.Y_subblocks_ x y := by
  simp only [Macroblock.new, forLoop, Raster.set_Y_subblock, Nat.add_zero]
  generalize 4 * c.column % 4294967296 = x0
  generalize 4 * c.row % 4294967296 = y0
  by_cases hx : x = x0 + 3
  · subst hx
    by_cases h1 : y = y0 + 1
    · subst h1; simp
    · by_cases h2 : y = y0 + 2
      · subst h2; simp
      · by_cases h3 : y = y0 + 3
        · subst h3; simp
        · simp [h1, h2, h3]
  · simp [hx]


/-- The view `Y_sub` of a macroblock shows the grid of luma sub-blocks of the raster that the
constructor returns. -/
theorem Macroblock.new_Y_sub (c : MacroblockContext) (raster : Raster) (column row : Nat) :
    (Macroblock.new c raster).1.Y_sub column row
      = (Macroblock.new c raster).2.Y_subblocks_ (4 * c.column % 4294967296 + column)
          (4 * c.row % 4294967296 + row) := rfl


/-- C17: after the constructor of a macroblock at any position, for `r` in 1, 2, 3 the luma
sub-block `(3, r)` has the above-right region of sub-block `(3, 0)`: the same row view, the
same bottom-right sample and the same `use_row` flag; hence `above k` of `(3, r)` is
`above k` of `(3, 0)` for `k` in 4..7, and it is a sample. Sub-block `(3, 0)` is the block
that the raster held before. -/
theorem Macroblock.new_right_edge (c : MacroblockContext) (raster : Raster) (r : Nat)
    (hr : r = 1 ∨ r = 2 ∨ r = 3) :
    ((Macroblock.new c raster).1.Y_sub 3 r).predictors_.above_right_bottom_row_predictor
        = ((Macroblock.new c raster).1.Y_sub 3 0).predictors_.above_right_bottom_row_predictor
    ∧ ((Macroblock.new c raster).1.Y_sub 3 r).predictors_.above_right_bottom_row_predictor.above_right_bottom_row
        = ((Macroblock.new c raster).1.Y_sub 3 0).predictors_.above_right_bottom_row_predictor.above_right_bottom_row
    ∧ ((Macroblock.new c raster).1.Y_sub 3 r).predictors_.above_right_bottom_row_predictor.above_bottom_right_pixel
        = ((Macroblock.new c raster).1.Y_sub 3 0).predictors_.above_right_bottom_row_predictor.above_bottom_right_pixel
    ∧ ((Macroblock.new c raster).1.Y_sub 3 r).predictors_.above_right_bottom_row_predictor.use_row
        = ((Macroblock.new c raster).1.Y_sub 3 0).predictors_.above_right_bottom_row_predictor.use_row
    ∧ (∀ k : Int, 4 ≤ k → k ≤ 7 →
        ((Macroblock.new c raster).1.Y_sub 3 r).above k
          = ((Macroblock.new c raster).1.Y_sub 3 0).above k
        ∧ (((Macroblock.new c raster).1.Y_sub 3 0).above k).isSome = true)
    ∧ (Macroblock.new c raster).1.Y_sub 3 0
        = raster.Y_subblocks_ (4 * c.column % 4294967296 + 3) (4 * c.row % 4294967296) := by
  have e0 : (Macroblock.new c raster).1.Y_sub 3 0
      = raster.Y_subblocks_ (4 * c.column % 4294967296 + 3) (4 * c.row % 4294967296) := by
    rw [Macroblock.new_Y_sub, Macroblock.new_Y_subblocks, if_neg (by omega)]
    rfl
  have er : (Macroblock.new c raster).1.Y_sub 3 r
      = Block4.set_above_right_bottom_row_predictor
          (raster.Y_subblocks_ (4 * c.column % 4294967296 + 3) (4 * c.row % 4294967296 + r))
          (raster.Y_subblocks_ (4 * c.column % 4294967296 + 3)
            (4 * c.row % 4294967296)).predictors_.above_right_bottom_row_predictor := by
    rw [Macroblock.new_Y_sub, Macroblock.new_Y_subblocks, if_pos ⟨rfl, by omega⟩]
  have key : ((Macroblock.new c raster).1.Y_sub 3 r).predictors_.above_right_bottom_row_predictor
      = ((Macroblock.new c raster).1.Y_sub 3 0).predictors_.above_right_bottom_row_predictor := by
    rw [er, e0]
    rfl
  refine ⟨key, by rw [key], by rw [key], by rw [key], ?_, e0⟩
  intro k h1 h2
  have hk : ∀ blk : Block, blk.above k
      = some (blk.predictors_.above_right_bottom_row_predictor.above_right (k - 4).toNat) := by
    intro blk
    unfold Block.above
    rw [Predictors.above_of_range 4 (by omega) _ k (by omega) (by omega), if_neg (by omega),
      if_neg (by omega)]
    rfl
  rw [hk, hk, key]
  exact ⟨rfl, rfl⟩


/-- C17 at the macroblock `(0, 0)` of `exampleRaster`, sub-block `(3, 1)`, sample 5: the
sub-block had no above-right neighbour of its own, and reads the sample 1 + 3 of the
above-right neighbour of `(3, 0)`. -/
theorem Macroblock.new_right_edge_witness :
    (1 = 1 ∨ 1 = 2 ∨ 1 = 3) ∧ (4 : Int) ≤ 5 ∧ (5 : Int) ≤ 7
      ∧ ((Macroblock.new ⟨0, 0⟩ exampleRaster).1.Y_sub 3 1).above 5
          = ((Macroblock.new ⟨0, 0⟩ exampleRaster).1.Y_sub 3 0).above 5
      ∧ ((Macroblock.new ⟨0, 0⟩ exampleRaster).1.Y_sub 3 0).above 5 = some 4
      ∧ (exampleRaster.Y_subblocks_ 3 1).above 5 = some 31 :=
  ⟨Or.inl rfl, by decide, by decide,
    ((Macroblock.new_right_edge ⟨0, 0⟩ exampleRaster 1 (Or.inl rfl)).2.2.2.2.1 5 (by decide)
      (by decide)).1, by decide, by decide⟩

/-- C18: the constructor of a raster fails with `Unsupported` and the message
"display dimensions must be even" exactly when the width is odd or the height is odd;
when both are even it returns a raster that stores the two arguments as they are (and leaves
the other members as initialised); it fails in no other way. -/
theorem Raster.new_spec (display_width display_height : Nat) (members : RasterBlocks) :
    (Raster.new display_width display_height members
        = Except.error (Unsupported.mk "display dimensions must be even")
      ↔ (display_width % 2 = 1 ∨ display_height % 2 = 1))
    ∧ ((display_width % 2 = 0 ∧ display_height % 2 = 0) →
        ∃ raster, Raster.new display_width display_height members = Except.ok raster
          ∧ raster.display_width_ = display_width ∧ raster.display_height_ = display_height
          ∧ raster.toRasterBlocks = members)
    ∧ (∀ e, Raster.new display_width display_height members = Except.error e →
        e = Unsupported.mk "display dimensions must be even") := by
  unfold Raster.new
  by_cases h : display_width % 2 ≠ 0 ∨ display_height % 2 ≠ 0
  · dsimp only
    rw [if_pos h]
    refine ⟨⟨fun _ => by omega, fun _ => rfl⟩, fun h2 => by omega, ?_⟩
    intro e he
    injection he with he
    exact he.symm
  · dsimp only
    rw [if_neg h]
    refine ⟨⟨fun h2 => (by cases h2), fun h2 => by omega⟩, fun _ => ⟨_, rfl, rfl, rfl, rfl⟩, ?_⟩
    intro e he
    cases he


/-- C20: the constructor of a macroblock leaves `above_row`, `left_column`, `above_left`, the
samples and the context of every luma sub-block of the raster as they were; every luma
sub-block other than `(3, 1)`, `(3, 2)`, `(3, 3)` of this macroblock is unchanged as a whole,
in particular those in columns other than 3 and in row 0; the grids of 16x16 Y blocks, of
U and V blocks and of U and V sub-blocks and the display dimensions are unchanged, and the
macroblock refers to these blocks. -/
theorem Macroblock.new_frame (c : MacroblockContext) (raster : Raster) :
    (∀ x y : Nat,
      ((Macroblock.new c raster).2.Y_subblocks_ x y).predictors_.above_row
          = (raster.Y_subblocks_ x y).predictors_.above_row
      ∧ ((Macroblock.new c raster).2.Y_subblocks_ x y).predictors_.left_column
          = (raster.Y_subblocks_ x y).predictors_.left_column
      ∧ ((Macroblock.new c raster).2.Y_subblocks_ x y).predictors_.above_left
          = (raster.Y_subblocks_ x y).predictors_.above_left
      ∧ ((Macroblock.new c raster).2.Y_subblocks_ x y).contents_
          = (raster.Y_subblocks_ x y).contents_
      ∧ ((Macroblock.new c raster).2.Y_subblocks_ x y).context_
          = (raster.Y_subblocks_ x y).context_)
    ∧ (∀ x y : Nat,
        ¬ (x = 4 * c.column % 4294967296 + 3
            ∧ (y = 4 * c.row % 4294967296 + 1 ∨ y = 4 * c.row % 4294967296 + 2
              ∨ y = 4 * c.row % 4294967296 + 3)) →
        (Macroblock.new c raster).2.Y_subblocks_ x y = raster.Y_subblocks_ x y)
    ∧ (∀ column row : Nat, column ≠ 3 ∨ row = 0 →
        (Macroblock.new c raster).1.Y_sub column row
          = raster.Y_subblocks_ (4 * c.column % 4294967296 + column)
              (4 * c.row % 4294967296 + row))
    ∧ (Macroblock.new c raster).2.Y_bigblocks_ = raster.Y_bigblocks_
    ∧ (Macroblock.new c raster).2.U_bigblocks_ = raster.U_bigblocks_
    ∧ (Macroblock.new c raster).2.V_bigblocks_ = raster.V_bigblocks_
    ∧ (Macroblock.new c raster).2.U_subblocks_ = raster.U_subblocks_
    ∧ (Macroblock.new c raster).2.V_subblocks_ = raster.V_subblocks_
    ∧ (Macroblock.new c raster).2.display_width_ = raster.display_width_
    ∧ (Macroblock.new c raster).2.display_height_ = raster.display_height_
    ∧ (Macroblock.new c raster).1.Y = raster.Y_bigblocks_ c.column c.row
    ∧ (Macroblock.new c raster).1.U = raster.U_bigblocks_ c.column c.row
    ∧ (Macroblock.new c raster).1.V = raster.V_bigblocks_ c.column c.row
    ∧ (∀ column row : Nat, (Macroblock.new c raster).1.U_sub column row
        = raster.U_subblocks_ (2 * c.column % 4294967296 + column)
            (2 * c.row % 4294967296 + row))
    ∧ (∀ column row : Nat, (Macroblock.new c raster).1.V_sub column row
        = raster.V_subblocks_ (2 * c.column % 4294967296 + column)
            (2 * c.row % 4294967296 + row)) := by
  refine ⟨?_, ?_, ?_, rfl, rfl, rfl, rfl, rfl, rfl, rfl, rfl, rfl, rfl, fun _ _ => rfl,
    fun _ _ => rfl⟩
  · intro x y
    rw [Macroblock.new_Y_subblocks]
    split
    · exact ⟨rfl, rfl, rfl, rfl, rfl⟩
    · exact ⟨rfl, rfl, rfl, rfl, rfl⟩
  · intro x y h
    rw [Macroblock.new_Y_subblocks, if_neg h]
  · intro column row h
    rw [Macroblock.new_Y_sub, Macroblock.new_Y_subblocks, if_neg (by omega)]

/-! ## The reads of the fast path: the claim -/

/-- A `for` loop over a state with a recorded component projects onto the loop over the
state alone. -/
theorem forLoopM_map {σ τ : Type} (π : τ → σ) (body : Nat → σ → Option σ)
    (body' : Nat → τ → Option τ) (h : ∀ i t, (body' i t).map π = body i (π t)) :
    ∀ n t, (forLoopM body' n t).map π = forLoopM body n (π t) := by
  intro n
  induction n with
  | zero => intro t; rfl
  | succ n ih =>
    intro t
    have := ih t
    simp only [forLoopM]
    cases hx : forLoopM body' n t with
    | none =>
      rw [hx] at this
      rw [← this]
      rfl
    | some t' =>
      rw [hx] at this
      rw [← this]
      exact h n t'

/-- A `while` loop over a state with a recorded component projects onto the loop over the
state alone. -/
theorem whileLoop_map {σ τ : Type} (π : τ → σ) (cond : σ → Bool) (cond' : τ → Bool)
    (body : σ → Option σ) (body' : τ → Option τ) (hc : ∀ t, cond' t = cond (π t))
    (hb : ∀ t, (body' t).map π = body (π t)) :
    ∀ fuel t, (whileLoop cond' body' fuel t).map π = whileLoop cond body fuel (π t) := by
  intro fuel
  induction fuel with
  | zero => intro t; rfl
  | succ n ih =>
    intro t
    simp only [whileLoop, hc]
    by_cases h : cond (π t) = true
    · rw [if_pos h, if_pos h, ← hb]
      cases hx : body' t with
      | none => rfl
      | some t' => exact ih t'
    · rw [if_neg h, if_neg h]
      rfl

/-- An invariant of the body of a `for` loop holds of the state it returns. -/
theorem forLoopM_invariant {σ : Type} (body : Nat → σ → Option σ) (n : Nat)
    (inv : Nat → σ → Prop)
    (h : ∀ k s s', k < n → inv k s → body k s = some s' → inv (k + 1) s') :
    ∀ m, m ≤ n → ∀ s s', inv 0 s → forLoopM body m s = some s' → inv m s' := by
  intro m
  induction m with
  | zero =>
    intro _ s s' h0 he
    simp only [forLoopM, Option.some.injEq] at he
    exact he ▸ h0
  | succ m ih =>
    intro hm s s' h0 he
    simp only [forLoopM] at he
    cases hx : forLoopM body m s with
    | none => rw [hx] at he; cases he
    | some t =>
      rw [hx] at he
      exact h m t s' (by omega) (ih (by omega) s t h0 hx) he

/-- An invariant of the body of a `while` loop holds of the state it returns, where the
loop condition is false. -/
theorem whileLoop_invariant {σ : Type} (cond : σ → Bool) (body : σ → Option σ)
    (inv : σ → Prop) (h : ∀ s s', inv s → cond s = true → body s = some s' → inv s') :
    ∀ fuel s s', inv s → whileLoop cond body fuel s = some s' → inv s' ∧ cond s' = false := by
  intro fuel
  induction fuel with
  | zero => intro s s' _ he; cases he
  | succ n ih =>
    intro s s' h0 he
    simp only [whileLoop] at he
    by_cases hcnd : cond s = true
    · rw [if_pos hcnd] at he
      cases hx : body s with
      | none => rw [hx] at he; cases he
      | some t =>
        rw [hx] at he
        exact ih t s' (h s t h0 hcnd hx) he
    · rw [if_neg hcnd] at he
      simp only [Option.some.injEq] at he
      subst he
      exact ⟨h0, by simpa using hcnd⟩

/-- The copy loop with recorded reads returns the block of `unsafe_copy_rows`. -/
theorem unsafe_copy_rows_traced_fst (size stride : Nat) (ref : TwoD) (p0 : Nat) (b : Contents) :
    (unsafe_copy_rows_traced size stride ref p0 b).map Prod.fst
      = unsafe_copy_rows size stride ref p0 b := by
  have key := whileLoop_map (Prod.fst : CopyState × List Nat → CopyState)
    (fun s : CopyState => s.dest_row_start != 0 + size * stride)
    (fun s : CopyState × List Nat => s.1.dest_row_start != 0 + size * stride)
    (fun s => do
      let contents ← forLoopM (fun k (b : Contents) => do
          let v ← ref.storage[s.src_row_start + k]?
          pure (b.store stride (s.dest_row_start + k) v)) size s.contents
      pure ⟨s.dest_row_start + stride, s.src_row_start + stride, contents⟩)
    (fun s => do
      let r ← forLoopM (fun k (b : Contents × List Nat) => do
          let v ← ref.storage[s.1.src_row_start + k]?
          pure (b.1.store stride (s.1.dest_row_start + k) v, b.2 ++ [s.1.src_row_start + k]))
        size (s.1.contents, s.2)
      pure (⟨s.1.dest_row_start + stride, s.1.src_row_start + stride, r.1⟩, r.2))
    (fun _ => rfl) ?_ (size * stride + 1) (⟨0, p0, b⟩, [])
  · unfold unsafe_copy_rows_traced unsafe_copy_rows
    simp only [Option.bind_eq_bind, Option.pure_def] at key ⊢
    rw [← key]
    cases whileLoop _ _ _ _ <;> rfl
  · intro t
    have inner := forLoopM_map (Prod.fst : Contents × List Nat → Contents)
      (fun k (b : Contents) => do
          let v ← ref.storage[t.1.src_row_start + k]?
          pure (b.store stride (t.1.dest_row_start + k) v))
      (fun k (b : Contents × List Nat) => do
          let v ← ref.storage[t.1.src_row_start + k]?
          pure (b.1.store stride (t.1.dest_row_start + k) v, b.2 ++ [t.1.src_row_start + k]))
      ?_ size (t.1.contents, t.2)
    · simp only [Option.bind_eq_bind, Option.pure_def]
      simp only [Option.bind_eq_bind, Option.pure_def] at inner
      rw [← inner]
      cases forLoopM _ _ _ <;> rfl
    · intro i b
      simp only [Option.bind_eq_bind, Option.pure_def]
      cases ref.storage[t.1.src_row_start + i]? <;> rfl

/-- The copy loop reads `size` addresses in each of `size` rows of pitch `stride`. -/
theorem unsafe_copy_rows_traced_reads (size stride : Nat) (ref : TwoD) (p0 : Nat) (b : Contents)
    (hst : 0 < stride) (out : Contents) (reads : List Nat)
    (h : unsafe_copy_rows_traced size stride ref p0 b = some (out, reads)) :
    reads.length = size * size
      ∧ ∀ p, p ∈ reads → ∃ i k, i < size ∧ k < size ∧ p = p0 + i * stride + k := by
  unfold unsafe_copy_rows_traced at h
  simp only [Option.bind_eq_bind, Option.pure_def] at h
  cases hx : whileLoop (fun s : CopyState × List Nat => s.1.dest_row_start != 0 + size * stride)
    (fun s =>
      (forLoopM (fun k (b : Contents × List Nat) =>
          ref.storage[s.1.src_row_start + k]?.bind fun v =>
            some (b.1.store stride (s.1.dest_row_start + k) v, b.2 ++ [s.1.src_row_start + k]))
        size (s.1.contents, s.2)).bind
      fun r => some (⟨s.1.dest_row_start + stride, s.1.src_row_start + stride, r.1⟩, r.2))
    (size * stride + 1) (⟨0, p0, b⟩, []) with
  | none => rw [hx] at h; cases h
  | some t =>
    rw [hx] at h
    simp only [Option.some_bind, Option.some.injEq, Prod.mk.injEq] at h
    obtain ⟨-, rfl⟩ := h
    have key := whileLoop_invariant _ _
      (fun s : CopyState × List Nat => ∃ i, i ≤ size ∧ s.1.dest_row_start = i * stride
        ∧ s.1.src_row_start = p0 + i * stride ∧ s.2.length = i * size
        ∧ ∀ p, p ∈ s.2 → ∃ i k, i < size ∧ k < size ∧ p = p0 + i * stride + k)
      ?_ _ _ _ ?_ hx
    · obtain ⟨⟨i, hi, hd, -, hl, hp⟩, hc⟩ := key
      simp only [bne_eq_false_iff_eq, hd, Nat.zero_add] at hc
      have : i = size := Nat.eq_of_mul_eq_mul_right hst hc
      subst this
      exact ⟨hl, hp⟩
    · rintro s s' ⟨i, hi, hd, hsrc, hl, hp⟩ hc hb
      simp only [bne_iff_ne, hd, Nat.zero_add, ne_eq] at hc
      have hi2 : i < size := by
        rcases Nat.lt_or_ge i size with h1 | h1
        · exact h1
        · exact absurd (by rw [Nat.le_antisymm hi h1]) hc
      cases hy : forLoopM (fun k (b : Contents × List Nat) =>
          ref.storage[s.1.src_row_start + k]?.bind fun v =>
            some (b.1.store stride (s.1.dest_row_start + k) v, b.2 ++ [s.1.src_row_start + k]))
        size (s.1.contents, s.2) with
      | none => rw [hy] at hb; cases hb
      | some r =>
        rw [hy] at hb
        simp only [Option.some_bind, Option.some.injEq] at hb
        subst hb
        have inner := forLoopM_invariant _ size
          (fun k (b : Contents × List Nat) => b.2.length = i * size + k
            ∧ ∀ p, p ∈ b.2 → ∃ i k, i < size ∧ k < size ∧ p = p0 + i * stride + k)
          ?_ size (Nat.le_refl _) _ _ ⟨hl, hp⟩ hy
        · refine ⟨i + 1, hi2, ?_, ?_, ?_, inner.2⟩
          · simp only [hd]; ring
          · simp only [hsrc]; ring
          · rw [inner.1]; ring
        · rintro k b b' hk ⟨h1, h2⟩ hb
          cases hz : ref.storage[s.1.src_row_start + k]? with
          | none => rw [hz] at hb; cases hb
          | some v =>
            rw [hz] at hb
            simp only [Option.some_bind, Option.some.injEq] at hb
            subst hb
            refine ⟨by simp [h1]; omega, ?_⟩
            intro p hp2
            rcases List.mem_append.1 hp2 with h3 | h3
            · exact h2 p h3
            · simp only [List.mem_singleton] at h3
              exact ⟨i, k, hi2, hk, by rw [h3, hsrc]⟩
    · exact ⟨0, Nat.zero_le _, by simp, by simp, by simp, by simp⟩

/-- The horizontal pass with recorded reads returns the array of `unsafe_horizontal_pass`. -/
theorem unsafe_horizontal_pass_traced_fst (size stride : Nat) (ref : TwoD) (hfilt : List Int)
    (p0 : Nat) :
    (unsafe_horizontal_pass_traced size stride ref hfilt p0).map Prod.fst
      = unsafe_horizontal_pass size stride ref hfilt p0 := by
  have key := whileLoop_map (Prod.fst : HState × List Nat → HState)
    (fun s : HState => s.intermediate_row_start != 0 + size * (size + 5))
    (fun s : HState × List Nat => s.1.intermediate_row_start != 0 + size * (size + 5))
    (fun s => do
      let intermediate ← forLoopM (fun k (im : Nat → Nat) => do
          let s0 ← ref.storage[s.src_row_start + k]?
          let s1 ← ref.storage[s.src_row_start + k + 1]?
          let s2 ← ref.storage[s.src_row_start + k + 2]?
          let s3 ← ref.storage[s.src_row_start + k + 3]?
          let s4 ← ref.storage[s.src_row_start + k + 4]?
          let s5 ← ref.storage[s.src_row_start + k + 5]?
          let v ← sixtap hfilt s0 s1 s2 s3 s4 s5
          pure (Function.update im (s.intermediate_row_start + k) v)) size s.intermediate
      pure ⟨s.intermediate_row_start + size,
            s.src_row_start + size + (toUInt32 ((stride : Int) - size)).toNat, intermediate⟩)
    (fun s => do
      let r ← forLoopM (fun k (im : (Nat → Nat) × List Nat) => do
          let s0 ← ref.storage[s.1.src_row_start + k]?
          let s1 ← ref.storage[s.1.src_row_start + k + 1]?
          let s2 ← ref.storage[s.1.src_row_start + k + 2]?
          let s3 ← ref.storage[s.1.src_row_start + k + 3]?
          let s4 ← ref.storage[s.1.src_row_start + k + 4]?
          let s5 ← ref.storage[s.1.src_row_start + k + 5]?
          let v ← sixtap hfilt s0 s1 s2 s3 s4 s5
          pure (Function.update im.1 (s.1.intermediate_row_start + k) v,
            im.2 ++ [s.1.src_row_start + k, s.1.src_row_start + k + 1,
              s.1.src_row_start + k + 2, s.1.src_row_start + k + 3,
              s.1.src_row_start + k + 4, s.1.src_row_start + k + 5]))
        size (s.1.intermediate, s.2)
      pure (⟨s.1.intermediate_row_start + size,
             s.1.src_row_start + size + (toUInt32 ((stride : Int) - size)).toNat, r.1⟩, r.2))
    (fun _ => rfl) ?_ (size * (size + 5) + 1) (⟨0, p0, fun _ => 0⟩, [])
  · unfold unsafe_horizontal_pass_traced unsafe_horizontal_pass
    simp only [Option.bind_eq_bind, Option.pure_def] at key ⊢
    rw [← key]
    cases whileLoop _ _ _ _ <;> rfl
  · intro t
    have inner := forLoopM_map (Prod.fst : (Nat → Nat) × List Nat → (Nat → Nat))
      (fun k (im : Nat → Nat) => do
          let s0 ← ref.storage[t.1.src_row_start + k]?
          let s1 ← ref.storage[t.1.src_row_start + k + 1]?
          let s2 ← ref.storage[t.1.src_row_start + k + 2]?
          let s3 ← ref.storage[t.1.src_row_start + k + 3]?
          let s4 ← ref.storage[t.1.src_row_start + k + 4]?
          let s5 ← ref.storage[t.1.src_row_start + k + 5]?
          let v ← sixtap hfilt s0 s1 s2 s3 s4 s5
          pure (Function.update im (t.1.intermediate_row_start + k) v))
      (fun k (im : (Nat → Nat) × List Nat) => do
          let s0 ← ref.storage[t.1.src_row_start + k]?
          let s1 ← ref.storage[t.1.src_row_start + k + 1]?
          let s2 ← ref.storage[t.1.src_row_start + k + 2]?
          let s3 ← ref.storage[t.1.src_row_start + k + 3]?
          let s4 ← ref.storage[t.1.src_row_start + k + 4]?
          let s5 ← ref.storage[t.1.src_row_start + k + 5]?
          let v ← sixtap hfilt s0 s1 s2 s3 s4 s5
          pure (Function.update im.1 (t.1.intermediate_row_start + k) v,
            im.2 ++ [t.1.src_row_start + k, t.1.src_row_start + k + 1,
              t.1.src_row_start + k + 2, t.1.src_row_start + k + 3,
              t.1.src_row_start + k + 4, t.1.src_row_start + k + 5]))
      ?_ size (t.1.intermediate, t.2)
    · simp only [Option.bind_eq_bind, Option.pure_def] at inner ⊢
      rw [← inner]
      cases forLoopM _ _ _ <;> rfl
    · intro i b
      simp only [Option.bind_eq_bind, Option.pure_def]
      cases ref.storage[t.1.src_row_start + i]? <;> try rfl
      cases ref.storage[t.1.src_row_start + i + 1]? <;> try rfl
      cases ref.storage[t.1.src_row_start + i + 2]? <;> try rfl
      cases ref.storage[t.1.src_row_start + i + 3]? <;> try rfl
      cases ref.storage[t.1.src_row_start + i + 4]? <;> try rfl
      cases ref.storage[t.1.src_row_start + i + 5]? <;> try rfl
      simp only [Option.some_bind]
      cases sixtap hfilt _ _ _ _ _ _ <;> rfl

/-- The horizontal pass reads six addresses per cell, all among the first `size + 5` of
`size + 5` rows of pitch `stride`. -/
theorem unsafe_horizontal_pass_traced_reads (size stride : Nat) (ref : TwoD) (hfilt : List Int)
    (p0 : Nat) (hs : 0 < size) (hst : size ≤ stride) (hst2 : stride < 4294967296)
    (out : Nat → Nat) (reads : List Nat)
    (h : unsafe_horizontal_pass_traced size stride ref hfilt p0 = some (out, reads)) :
    reads.length = 6 * (size * (size + 5))
      ∧ ∀ p, p ∈ reads → ∃ i x, i < size + 5 ∧ x < size + 5 ∧ p = p0 + i * stride + x := by
  unfold unsafe_horizontal_pass_traced at h
  simp only [Option.bind_eq_bind, Option.pure_def, toUInt32_sub stride size hst hst2] at h
  cases hx : whileLoop
    (fun s : HState × List Nat => s.1.intermediate_row_start != 0 + size * (size + 5))
    (fun s =>
      (forLoopM (fun k (im : (Nat → Nat) × List Nat) =>
          ref.storage[s.1.src_row_start + k]?.bind fun s0 =>
          ref.storage[s.1.src_row_start + k + 1]?.bind fun s1 =>
          ref.storage[s.1.src_row_start + k + 2]?.bind fun s2 =>
          ref.storage[s.1.src_row_start + k + 3]?.bind fun s3 =>
          ref.storage[s.1.src_row_start + k + 4]?.bind fun s4 =>
          ref.storage[s.1.src_row_start + k + 5]?.bind fun s5 =>
          (sixtap hfilt s0 s1 s2 s3 s4 s5).bind fun v =>
            some (Function.update im.1 (s.1.intermediate_row_start + k) v,
              im.2 ++ [s.1.src_row_start + k, s.1.src_row_start + k + 1,
                s.1.src_row_start + k + 2, s.1.src_row_start + k + 3,
                s.1.src_row_start + k + 4, s.1.src_row_start + k + 5]))
        size (s.1.intermediate, s.2)).bind
      fun r => some (⟨s.1.intermediate_row_start + size,
        s.1.src_row_start + size + (stride - size), r.1⟩, r.2))
    (size * (size + 5) + 1) (⟨0, p0, fun _ => 0⟩, []) with
  | none => rw [hx] at h; cases h
  | some t =>
    rw [hx] at h
    simp only [Option.some_bind, Option.some.injEq, Prod.mk.injEq] at h
    obtain ⟨-, rfl⟩ := h
    have key := whileLoop_invariant _ _
      (fun s : HState × List Nat => ∃ i, i ≤ size + 5 ∧ s.1.intermediate_row_start = i * size
        ∧ s.1.src_row_start = p0 + i * stride ∧ s.2.length = 6 * (i * size)
        ∧ ∀ p, p ∈ s.2 → ∃ i x, i < size + 5 ∧ x < size + 5 ∧ p = p0 + i * stride + x)
      ?_ _ _ _ ?_ hx
    · obtain ⟨⟨i, hi, hd, -, hl, hp⟩, hc⟩ := key
      simp only [bne_eq_false_iff_eq, hd, Nat.zero_add] at hc
      have : i = size + 5 := by
        rw [Nat.mul_comm size (size + 5)] at hc
        exact Nat.eq_of_mul_eq_mul_right hs hc
      subst this
      refine ⟨?_, hp⟩
      rw [hl, Nat.mul_comm size (size + 5)]
    · rintro s s' ⟨i, hi, hd, hsrc, hl, hp⟩ hc hb
      simp only [bne_iff_ne, hd, Nat.zero_add, ne_eq] at hc
      have hi2 : i < size + 5 := by
        rcases Nat.lt_or_ge i (size + 5) with h1 | h1
        · exact h1
        · exact absurd (by rw [Nat.le_antisymm hi h1, Nat.mul_comm]) hc
      cases hy : forLoopM (fun k (im : (Nat → Nat) × List Nat) =>
          ref.storage[s.1.src_row_start + k]?.bind fun s0 =>
          ref.storage[s.1.src_row_start + k + 1]?.bind fun s1 =>
          ref.storage[s.1.src_row_start + k + 2]?.bind fun s2 =>
          ref.storage[s.1.src_row_start + k + 3]?.bind fun s3 =>
          ref.storage[s.1.src_row_start + k + 4]?.bind fun s4 =>
          ref.storage[s.1.src_row_start + k + 5]?.bind fun s5 =>
          (sixtap hfilt s0 s1 s2 s3 s4 s5).bind fun v =>
            some (Function.update im.1 (s.1.intermediate_row_start + k) v,
              im.2 ++ [s.1.src_row_start + k, s.1.src_row_start + k + 1,
                s.1.src_row_start + k + 2, s.1.src_row_start + k + 3,
                s.1.src_row_start + k + 4, s.1.src_row_start + k + 5]))
        size (s.1.intermediate, s.2) with
      | none => rw [hy] at hb; cases hb
      | some r =>
        rw [hy] at hb
        simp only [Option.some_bind, Option.some.injEq] at hb
        subst hb
        have inner := forLoopM_invariant _ size
          (fun k (b : (Nat → Nat) × List Nat) => b.2.length = 6 * (i * size) + 6 * k
            ∧ ∀ p, p ∈ b.2 → ∃ i x, i < size + 5 ∧ x < size + 5 ∧ p = p0 + i * stride + x)
          ?_ size (Nat.le_refl _) _ _ ⟨by simpa using hl, hp⟩ hy
        · refine ⟨i + 1, hi2, ?_, ?_, ?_, inner.2⟩
          · simp only [hd]; ring
          · simp only [hsrc]
            have : (i + 1) * stride = i * stride + stride := by ring
            omega
          · rw [inner.1]; ring
        · rintro k b b' hk ⟨h1, h2⟩ hb
          cases hz0 : ref.storage[s.1.src_row_start + k]? with
          | none => rw [hz0] at hb; cases hb
          | some v0 =>
          cases hz1 : ref.storage[s.1.src_row_start + k + 1]? with
          | none => rw [hz0, hz1] at hb; cases hb
          | some v1 =>
          cases hz2 : ref.storage[s.1.src_row_start + k + 2]? with
          | none => rw [hz0, hz1, hz2] at hb; cases hb
          | some v2 =>
          cases hz3 : ref.storage[s.1.src_row_start + k + 3]? with
          | none => rw [hz0, hz1, hz2, hz3] at hb; cases hb
          | some v3 =>
          cases hz4 : ref.storage[s.1.src_row_start + k + 4]? with
          | none => rw [hz0, hz1, hz2, hz3, hz4] at hb; cases hb
          | some v4 =>
          cases hz5 : ref.storage[s.1.src_row_start + k + 5]? with
          | none => rw [hz0, hz1, hz2, hz3, hz4, hz5] at hb; cases hb
          | some v5 =>
          rw [hz0, hz1, hz2, hz3, hz4, hz5] at hb
          simp only [Option.some_bind] at hb
          cases hz6 : sixtap hfilt v0 v1 v2 v3 v4 v5 with
          | none => rw [hz6] at hb; cases hb
          | some v =>
            rw [hz6] at hb
            simp only [Option.some_bind, Option.some.injEq] at hb
            subst hb
            refine ⟨by simp [h1]; omega, ?_⟩
            intro p hp2
            rcases List.mem_append.1 hp2 with h3 | h3
            · exact h2 p h3
            · simp only [List.mem_cons, List.mem_singleton, List.not_mem_nil, or_false] at h3
              rcases h3 with h3 | h3 | h3 | h3 | h3 | h3
              · exact ⟨i, k, hi2, by omega, by rw [h3, hsrc]⟩
              · exact ⟨i, k + 1, hi2, by omega, by rw [h3, hsrc]; omega⟩
              · exact ⟨i, k + 2, hi2, by omega, by rw [h3, hsrc]; omega⟩
              · exact ⟨i, k + 3, hi2, by omega, by rw [h3, hsrc]; omega⟩
              · exact ⟨i, k + 4, hi2, by omega, by rw [h3, hsrc]; omega⟩
              · exact ⟨i, k + 5, hi2, by omega, by rw [h3, hsrc]; omega⟩
    · exact ⟨0, Nat.zero_le _, by simp, by simp, by simp, by simp⟩

/-- The fast path with recorded reads returns the block of `unsafe_inter_predict`. -/
theorem unsafe_inter_predict_traced_fst (size stride : Nat) (mv : MotionVector) (ref : TwoD)
    (sc sr : Int) (b : Contents) :
    (unsafe_inter_predict_traced size stride mv ref sc sr b).map Prod.fst
      = unsafe_inter_predict size stride mv ref sc sr b := by
  unfold unsafe_inter_predict_traced unsafe_inter_predict
  by_cases h0 : stride ≠ ref.width
  · rw [if_pos h0, if_pos h0]
    rfl
  · rw [if_neg h0, if_neg h0]
    dsimp only
    by_cases h : toUInt8 (mv.x % 8) % 8 = 0 ∧ toUInt8 (mv.y % 8) % 8 = 0
    · rw [if_pos h, if_pos h]
      cases ref.addr (toUInt32 sc).toNat (toUInt32 sr).toNat with
      | none => rfl
      | some p0 => exact unsafe_copy_rows_traced_fst size stride ref p0 b
    · rw [if_neg h, if_neg h]
      cases ref.addr (toUInt32 (sc - 2)).toNat (toUInt32 (sr - 2)).toNat with
      | none => rfl
      | some p0 =>
        cases sixtap_filters[toUInt8 (mv.x % 8)]? with
        | none => rfl
        | some hf =>
          simp only [Option.bind_eq_bind, Option.some_bind, Option.pure_def]
          rw [← unsafe_horizontal_pass_traced_fst]
          cases unsafe_horizontal_pass_traced size stride ref hf p0 with
          | none => rfl
          | some t =>
            simp only [Option.some_bind, Option.map_some']
            cases sixtap_filters[toUInt8 (mv.y % 8)]? with
            | none => rfl
            | some vf =>
              simp only [Option.some_bind]
              cases unsafe_vertical_pass size stride vf t.1 b <;> rfl

/-- The reads of a run of the fast path whose footprint is inside the reference. -/
theorem unsafe_inter_predict_traced_reads (size : Nat) (hS : 0 < size ∧ size ≤ 16)
    (ref : TwoD) (sc sr : Int) (hW : ref.width < 4294967296)
    (h1 : 2 ≤ sc) (h2 : sc + size + 3 ≤ ref.width) (h3 : 2 ≤ sr)
    (h4 : sr + size + 3 ≤ ref.height) (h5 : sr < 2147483648) (stride : Nat)
    (mv : MotionVector) (b out : Contents) (reads : List Nat)
    (h : unsafe_inter_predict_traced size stride mv ref sc sr b = some (out, reads)) :
    reads.length
        = (if mv.x % 8 = 0 ∧ mv.y % 8 = 0 then size * size else 6 * (size * (size + 5)))
    ∧ ∀ p, p ∈ reads → ∃ c r : Nat, p = r * ref.width + c ∧ c < ref.width ∧ r < ref.height
        ∧ (if mv.x % 8 = 0 ∧ mv.y % 8 = 0 then
            sc ≤ c ∧ (c : Int) ≤ sc + size - 1 ∧ sr ≤ r ∧ (r : Int) ≤ sr + size - 1
          else
            sc - 2 ≤ c ∧ (c : Int) ≤ sc + size + 2 ∧ sr - 2 ≤ r ∧ (r : Int) ≤ sr + size + 2) := by
  obtain ⟨a, rfl⟩ := Int.eq_ofNat_of_zero_le (by omega : 0 ≤ sc)
  obtain ⟨d, rfl⟩ := Int.eq_ofNat_of_zero_le (by omega : 0 ≤ sr)
  have hmx : toUInt8 (mv.x % 8) = (mv.x % 8).toNat := by unfold toUInt8; omega
  have hmy : toUInt8 (mv.y % 8) = (mv.y % 8).toNat := by unfold toUInt8; omega
  unfold unsafe_inter_predict_traced at h
  by_cases h0 : stride ≠ ref.width
  · rw [if_pos h0] at h; cases h
  · rw [if_neg h0] at h
    have h0 : stride = ref.width := by omega
    subst h0
    simp only [hmx, hmy] at h
    by_cases hp : mv.x % 8 = 0 ∧ mv.y % 8 = 0
    · rw [if_pos (by omega)] at h
      rw [if_pos hp]
      have ea : (toUInt32 (a : Int)).toNat = a := by unfold toUInt32; omega
      have ed : (toUInt32 (d : Int)).toNat = d := by unfold toUInt32; omega
      simp only [ea, ed, TwoD.addr] at h
      rw [if_pos (by omega)] at h
      simp only [Option.bind_eq_bind, Option.some_bind] at h
      obtain ⟨hl, hr⟩ := unsafe_copy_rows_traced_reads size ref.width ref _ b (by omega) out
        reads h
      refine ⟨hl, ?_⟩
      intro p hp2
      obtain ⟨i, k, hi, hk, rfl⟩ := hr p hp2
      refine ⟨a + k, d + i, by ring, by omega, by omega, ?_⟩
      rw [if_pos hp]
      push_cast
      omega
    · rw [if_neg (by omega)] at h
      rw [if_neg hp]
      have ea : (toUInt32 ((a : Int) - 2)).toNat = a - 2 := by unfold toUInt32; omega
      have ed : (toUInt32 ((d : Int) - 2)).toNat = d - 2 := by unfold toUInt32; omega
      simp only [ea, ed, TwoD.addr] at h
      rw [if_pos (by omega)] at h
      simp only [Option.bind_eq_bind, Option.some_bind, Option.pure_def] at h
      cases hf : sixtap_filters[(mv.x % 8).toNat]? with
      | none => rw [hf] at h; cases h
      | some f =>
        rw [hf] at h
        simp only [Option.some_bind] at h
        cases hh : unsafe_horizontal_pass_traced size ref.width ref f
            ((d - 2) * ref.width + (a - 2)) with
        | none => rw [hh] at h; cases h
        | some t =>
          rw [hh] at h
          simp only [Option.some_bind] at h
          cases hvf : sixtap_filters[(mv.y % 8).toNat]? with
          | none => rw [hvf] at h; cases h
          | some vf =>
            rw [hvf] at h
            simp only [Option.some_bind] at h
            cases hvp : unsafe_vertical_pass size ref.width vf t.1 b with
            | none => rw [hvp] at h; cases h
            | some o =>
              rw [hvp] at h
              simp only [Option.some_bind, Option.some.injEq, Prod.mk.injEq] at h
              obtain ⟨-, rfl⟩ := h
              obtain ⟨hl, hr⟩ := unsafe_horizontal_pass_traced_reads size ref.width ref f _
                hS.1 (by omega) hW t.1 t.2 hh
              refine ⟨hl, ?_⟩
              intro p hp2
              obtain ⟨i, x, hi, hx, rfl⟩ := hr p hp2
              refine ⟨a - 2 + x, d - 2 + i, by ring, by omega, by omega, ?_⟩
              rw [if_neg hp]
              push_cast
              omega

/-- C19: for a block size of 4, 8 or 16, an `int` source position `(sc, sr)` and a
reference of width `W` and height `H`, the guard of `safe_inter_predict` holds exactly when
`sc - 2 < 0` or `sc + size + 3 > W` or `sr - 2 < 0` or `sr + size + 3 > H` over the integers,
and `safe_inter_predict` takes the edge-extended path under this condition and the fast path
otherwise. The fast path with its reads recorded returns the block of `unsafe_inter_predict`.
When the guard is false, a run of the fast path reads `size * size` samples when both phases
are zero and `6 * size * (size + 5)` otherwise, and every address read is `r * W + c` for a
position with `c < W` and `r < H`, in columns `sc .. sc + size - 1` and rows
`sr .. sr + size - 1` when copying and in columns `sc - 2 .. sc + size + 2` and rows
`sr - 2 .. sr + size + 2` when filtering; on a well-formed reference whose width is the stride
the run returns, and when the stride differs from the width the assertion stops it before a
read. Both phase indices are below 8 and select a filter of the table. -/
theorem fast_path_reads_in_bounds (size : Nat) (hS : size = 4 ∨ size = 8 ∨ size = 16)
    (reference : TwoD) (sc sr : Int)
    (hsc : -2147483648 ≤ sc ∧ sc < 2147483648) (hsr : -2147483648 ≤ sr ∧ sr < 2147483648)
    (hW : reference.width < 4294967296) :
    (needs_edge_extension size reference sc sr
      ↔ (sc - 2 < 0 ∨ sc + size + 3 > reference.width
          ∨ sr - 2 < 0 ∨ sr + size + 3 > reference.height))
    ∧ (∀ (column row stride : Nat) (mv : MotionVector) (contents_ : Contents),
        source_column size column mv = sc → source_row size row mv = sr →
        safe_inter_predict size column row stride mv reference contents_
          = if sc - 2 < 0 ∨ sc + size + 3 > reference.width
                ∨ sr - 2 < 0 ∨ sr + size + 3 > reference.height then
              inter_predict size mv (EdgeExtendedRaster.at reference) sc sr contents_
            else unsafe_inter_predict size stride mv reference sc sr contents_)
    ∧ (∀ (stride : Nat) (mv : MotionVector) (contents_ : Contents),
        (unsafe_inter_predict_traced size stride mv reference sc sr contents_).map Prod.fst
          = unsafe_inter_predict size stride mv reference sc sr contents_)
    ∧ (¬ needs_edge_extension size reference sc sr →
        ∀ (stride : Nat) (mv : MotionVector) (contents_ out : Contents) (reads : List Nat),
        unsafe_inter_predict_traced size stride mv reference sc sr contents_
            = some (out, reads) →
        reads.length
            = (if mv.x % 8 = 0 ∧ mv.y % 8 = 0 then size * size else 6 * (size * (size + 5)))
        ∧ ∀ p, p ∈ reads →
            ∃ c r : Nat, p = r * reference.width + c ∧ c < reference.width
              ∧ r < reference.height
              ∧ (if mv.x % 8 = 0 ∧ mv.y % 8 = 0 then
                  sc ≤ c ∧ (c : Int) ≤ sc + size - 1 ∧ sr ≤ r ∧ (r : Int) ≤ sr + size - 1
                else
                  sc - 2 ≤ c ∧ (c : Int) ≤ sc + size + 2
                    ∧ sr - 2 ≤ r ∧ (r : Int) ≤ sr + size + 2))
    ∧ (¬ needs_edge_extension size reference sc sr → reference.valid →
        ∀ (mv : MotionVector) (contents_ : Contents),
        (unsafe_inter_predict_traced size reference.width mv reference sc sr
          contents_).isSome = true)
    ∧ (∀ (stride : Nat) (mv : MotionVector) (contents_ : Contents),
        stride ≠ reference.width →
        unsafe_inter_predict_traced size stride mv reference sc sr contents_ = none)
    ∧ (∀ mv : MotionVector, toUInt8 (mv.x % 8) < 8 ∧ toUInt8 (mv.y % 8) < 8
        ∧ (sixtap_filters[toUInt8 (mv.x % 8)]?).isSome = true
        ∧ (sixtap_filters[toUInt8 (mv.y % 8)]?).isSome = true) := by
  have hguard : needs_edge_extension size reference sc sr
      ↔ (sc - 2 < 0 ∨ sc + size + 3 > reference.width
          ∨ sr - 2 < 0 ∨ sr + size + 3 > reference.height) := by
    unfold needs_edge_extension toUInt32
    omega
  refine ⟨hguard, ?_, ?_, ?_, ?_, ?_, ?_⟩
  · intro column row stride mv b e1 e2
    unfold safe_inter_predict
    rw [e1, e2]
    by_cases h : needs_edge_extension size reference sc sr
    · rw [if_pos h, if_pos (hguard.1 h)]
    · rw [if_neg h, if_neg (fun h2 => h (hguard.2 h2))]
  · intro stride mv b
    exact unsafe_inter_predict_traced_fst size stride mv reference sc sr b
  · intro h stride mv b out reads he
    obtain ⟨h1, h2, h3, h4⟩ := fast_path_bounds size reference sc sr (by omega) hsc hsr h
    exact unsafe_inter_predict_traced_reads size (by omega) reference sc sr hW h1 h2 h3 h4
      hsr.2 stride mv b out reads he
  · intro h hv mv b
    obtain ⟨h1, h2, h3, h4⟩ := fast_path_bounds size reference sc sr (by omega) hsc hsr h
    have e := unsafe_inter_predict_traced_fst size reference.width mv reference sc sr b
    rw [unsafe_inter_predict_eq size reference.width mv reference sc sr b hv rfl (by omega)
      h1 h2 h3 h4] at e
    cases hx : unsafe_inter_predict_traced size reference.width mv reference sc sr b with
    | none => rw [hx] at e; cases e
    | some t => rfl
  · intro stride mv b h
    unfold unsafe_inter_predict_traced
    rw [if_pos h]
  · intro mv
    have hmx : toUInt8 (mv.x % 8) = (mv.x % 8).toNat := by unfold toUInt8; omega
    have hmy : toUInt8 (mv.y % 8) = (mv.y % 8).toNat := by unfold toUInt8; omega
    obtain ⟨f, hf, -⟩ := sixtap_filters_get (mv.x % 8).toNat (phase_lt _)
    obtain ⟨g, hg, -⟩ := sixtap_filters_get (mv.y % 8).toNat (phase_lt _)
    rw [hmx, hmy, hf, hg]
    exact ⟨phase_lt _, phase_lt _, rfl, rfl⟩

/-- C19 for the 4x4 block at source position `(4, 4)` of a 12x12 reference with the motion
vector `(3, 5)`: the fast path is taken and its 216 reads stay in columns and rows 2..10. -/
theorem fast_path_reads_in_bounds_witness :
    (4 = 4 ∨ 4 = 8 ∨ 4 = 16) ∧ exampleReference.width < 4294967296
      ∧ ¬ needs_edge_extension 4 exampleReference 4 4
      ∧ ∃ out reads,
          unsafe_inter_predict_traced 4 12 exampleVector exampleReference 4 4 (fun _ _ => 0)
            = some (out, reads)
          ∧ reads.length = 216
          ∧ ∀ p, p ∈ reads → ∃ c r : Nat, p = r * 12 + c ∧ 2 ≤ c ∧ c ≤ 10 ∧ 2 ≤ r ∧ r ≤ 10 := by
  have hg : ¬ needs_edge_extension 4 exampleReference 4 4 := by decide
  have key := fast_path_reads_in_bounds 4 (Or.inl rfl) exampleReference 4 4 (by decide)
    (by decide) (by decide)
  refine ⟨Or.inl rfl, by decide, hg, ?_⟩
  have hsome := key.2.2.2.2.1 hg exampleReference_valid exampleVector (fun _ _ => 0)
  obtain ⟨t, ht⟩ := Option.isSome_iff_exists.1 hsome
  obtain ⟨hl, hr⟩ := key.2.2.2.1 hg 12 exampleVector (fun _ _ => 0) t.1 t.2 ht
  refine ⟨t.1, t.2, ht, hl, ?_⟩
  intro p hp
  obtain ⟨c, r, e, -, -, hb⟩ := hr p hp
  rw [if_neg (by decide)] at hb
  exact ⟨c, r, e, by omega, by omega, by omega, by omega⟩

/-! ## Prior samples of a block: the claim -/

/-- Two 4x4 blocks with the same predictors are predicted alike in every cell of the block,
whatever their samples and contexts were, and keep their predictors. -/
theorem Block4.intra_predict_prior (mode : bmode) (p : Predictors) (x1 x2 : Context)
    (c1 c2 : Contents) :
    ∃ out1 out2, Block4.intra_predict mode ⟨c1, x1, p⟩ = some out1
      ∧ Block4.intra_predict mode ⟨c2, x2, p⟩ = some out2
      ∧ (∀ c r, c < 4 → r < 4 → out1.contents_ c r = out2.contents_ c r)
      ∧ out1.predictors_ = p ∧ out2.predictors_ = p := by
  have hb : ∀ (blk : Block), blk.predictors_ = p →
      (∀ k : Nat, k < 8 → blk.above (k : Int) = some (if k < 4 then p.above_row k
        else p.above_right_bottom_row_predictor.above_right (k - 4)))
      ∧ (∀ k : Nat, k < 4 → blk.left (k : Int) = some (p.left_column k))
      ∧ (∀ n : Nat, n ≤ 8 → blk.east (n : Int) = some (if n < 4 then p.left_column (3 - n)
        else if n = 4 then p.above_left else p.above_row (n - 5)))
      ∧ blk.left (-1) = some p.above_left ∧ blk.above (-1) = some p.above_left := by
    intro blk h
    subst h
    exact ⟨blk.above_eq, blk.left_eq, blk.east_eq, blk.left_neg_one, blk.above_neg_one⟩
  obtain ⟨A, L, E, ln, an⟩ := hb ⟨c1, x1, p⟩ rfl
  obtain ⟨A', L', E', ln', an'⟩ := hb ⟨c2, x2, p⟩ rfl
  have a0 := A 0 (by omega)
  have a1 := A 1 (by omega)
  have a2 := A 2 (by omega)
  have a3 := A 3 (by omega)
  have a4 := A 4 (by omega)
  have a5 := A 5 (by omega)
  have a6 := A 6 (by omega)
  have a7 := A 7 (by omega)
  have l0 := L 0 (by omega)
  have l1 := L 1 (by omega)
  have l2 := L 2 (by omega)
  have l3 := L 3 (by omega)
  have e0 := E 0 (by omega)
  have e1 := E 1 (by omega)
  have e2 := E 2 (by omega)
  have e3 := E 3 (by omega)
  have e4 := E 4 (by omega)
  have e5 := E 5 (by omega)
  have e6 := E 6 (by omega)
  have e7 := E 7 (by omega)
  have e8 := E 8 (by omega)
  have a0' := A' 0 (by omega)
  have a1' := A' 1 (by omega)
  have a2' := A' 2 (by omega)
  have a3' := A' 3 (by omega)
  have a4' := A' 4 (by omega)
  have a5' := A' 5 (by omega)
  have a6' := A' 6 (by omega)
  have a7' := A' 7 (by omega)
  have l0' := L' 0 (by omega)
  have l1' := L' 1 (by omega)
  have l2' := L' 2 (by omega)
  have l3' := L' 3 (by omega)
  have e0' := E' 0 (by omega)
  have e1' := E' 1 (by omega)
  have e2' := E' 2 (by omega)
  have e3' := E' 3 (by omega)
  have e4' := E' 4 (by omega)
  have e5' := E' 5 (by omega)
  have e6' := E' 6 (by omega)
  have e7' := E' 7 (by omega)
  have e8' := E' 8 (by omega)
  simp only [Nat.cast_ofNat, Nat.cast_zero, Nat.cast_one] at a0 a1 a2 a3 a4 a5 a6 a7
  simp only [Nat.cast_ofNat, Nat.cast_zero, Nat.cast_one] at l0 l1 l2 l3
  simp only [Nat.cast_ofNat, Nat.cast_zero, Nat.cast_one] at e0 e1 e2 e3 e4 e5 e6 e7 e8
  simp only [Nat.cast_ofNat, Nat.cast_zero, Nat.cast_one] at a0' a1' a2' a3' a4' a5' a6' a7'
  simp only [Nat.cast_ofNat, Nat.cast_zero, Nat.cast_one] at l0' l1' l2' l3'
  simp only [Nat.cast_ofNat, Nat.cast_zero, Nat.cast_one] at e0' e1' e2' e3' e4' e5' e6' e7' e8'
  have cases4 : ∀ c, c < 4 → c = 0 ∨ c = 1 ∨ c = 2 ∨ c = 3 := fun c h => by omega
  cases mode
  · refine ⟨_, _, rfl, rfl, fun c r hc hr => ?_, rfl, rfl⟩
    simp only [Block.dc_predict_simple, Contents.fill, hc, hr, and_self, if_true]
  · refine ⟨_, _, rfl, rfl, fun c r hc hr => ?_, rfl, rfl⟩
    simp only [Block.true_motion_predict, Contents.forall_ij, hc, hr, and_self, if_true]
  all_goals
    refine ⟨_, _, by
      simp only [Block4.intra_predict, Block4.vertical_smoothed_predict,
        Block4.horizontal_smoothed_predict, Block4.left_down_predict,
        Block4.right_down_predict, Block4.vertical_right_predict,
        Block4.vertical_left_predict, Block4.horizontal_down_predict,
        Block4.horizontal_up_predict, avg3M, avg2M, a0, a1, a2, a3, a4, a5, a6, a7,
        l0, l1, l2, l3, e0, e1, e2, e3, e4, e5, e6, e7, e8, ln, an, Option.bind_eq_bind,
        Option.some_bind, Option.pure_def]
      rfl, by
      simp only [Block4.intra_predict, Block4.vertical_smoothed_predict,
        Block4.horizontal_smoothed_predict, Block4.left_down_predict,
        Block4.right_down_predict, Block4.vertical_right_predict,
        Block4.vertical_left_predict, Block4.horizontal_down_predict,
        Block4.horizontal_up_predict, avg3M, avg2M, a0', a1', a2', a3', a4', a5', a6', a7',
        l0', l1', l2', l3', e0', e1', e2', e3', e4', e5', e6', e7', e8', ln', an',
        Option.bind_eq_bind, Option.some_bind, Option.pure_def]
      rfl, fun c r hc hr => ?_, rfl, rfl⟩
    rcases cases4 c hc with rfl | rfl | rfl | rfl <;>
      rcases cases4 r hr with rfl | rfl | rfl | rfl <;>
      simp [Contents.set, Contents.row_fill, Contents.column_fill]

/-- The four macroblock predictors give two blocks with the same predictors and the same
neighbours present the same sample in every cell of the block. -/
theorem Block.mb_predict_prior (size : Nat) (p : Predictors) (x1 x2 : Context)
    (c1 c2 : Contents) (ha : x1.above.isSome = x2.above.isSome)
    (hl : x1.left.isSome = x2.left.isSome) (c r : Nat) (hc : c < size) (hr : r < size) :
    ((Block.mk c1 x1 p).dc_predict size).contents_ c r
        = ((Block.mk c2 x2 p).dc_predict size).contents_ c r
    ∧ ((Block.mk c1 x1 p).vertical_predict size).contents_ c r
        = ((Block.mk c2 x2 p).vertical_predict size).contents_ c r
    ∧ ((Block.mk c1 x1 p).horizontal_predict size).contents_ c r
        = ((Block.mk c2 x2 p).horizontal_predict size).contents_ c r
    ∧ ((Block.mk c1 x1 p).true_motion_predict size).contents_ c r
        = ((Block.mk c2 x2 p).true_motion_predict size).contents_ c r := by
  refine ⟨?_, ?_, ?_, ?_⟩
  · simp only [Block.dc_predict, Block.dc_predict_simple, ha, hl]
    split_ifs <;> simp only [Contents.fill, hc, hr, and_self, if_true]
  · simp only [Block.vertical_predict, forLoop_column_fill, hc, hr, and_self, if_true]
  · simp only [Block.horizontal_predict, forLoop_row_fill, hc, hr, and_self, if_true]
  · simp only [Block.true_motion_predict, Contents.forall_ij, hc, hr, and_self, if_true]

/-- C21: two blocks with the same predictors and the same above and left neighbours present,
whatever their prior samples, are predicted alike: each of the ten modes of a 4x4 block and
each of the modes DC, V, H and TM of an 8x8 and of a 16x16 block returns for both, and the
two predicted blocks agree in all `size * size` cells. So every cell of the block is assigned
and no prior sample remains. -/
theorem intra_predict_overwrites (blk1 blk2 : Block)
    (hp : blk1.predictors_ = blk2.predictors_)
    (ha : blk1.context_.above.isSome = blk2.context_.above.isSome)
    (hl : blk1.context_.left.isSome = blk2.context_.left.isSome) :
    (∀ mode : bmode, ∃ out1 out2,
        Block4.intra_predict mode blk1 = some out1
        ∧ Block4.intra_predict mode blk2 = some out2
        ∧ ∀ c r, c < 4 → r < 4 → out1.contents_ c r = out2.contents_ c r)
    ∧ (∀ mode : mbmode, mode ≠ mbmode.B_PRED → ∃ out1 out2,
        Block8.intra_predict mode blk1 = some out1
        ∧ Block8.intra_predict mode blk2 = some out2
        ∧ ∀ c r, c < 8 → r < 8 → out1.contents_ c r = out2.contents_ c r)
    ∧ (∀ mode : mbmode, mode ≠ mbmode.B_PRED → ∃ out1 out2,
        Block16.intra_predict mode blk1 = some out1
        ∧ Block16.intra_predict mode blk2 = some out2
        ∧ ∀ c r, c < 16 → r < 16 → out1.contents_ c r = out2.contents_ c r) := by
  obtain ⟨c1, x1, p1⟩ := blk1
  obtain ⟨c2, x2, p2⟩ := blk2
  simp only at hp ha hl
  subst hp
  refine ⟨?_, ?_, ?_⟩
  · intro mode
    obtain ⟨o1, o2, h1, h2, h3, -, -⟩ := Block4.intra_predict_prior mode p1 x1 x2 c1 c2
    exact ⟨o1, o2, h1, h2, h3⟩
  · intro mode hm
    cases mode
    · exact ⟨_, _, rfl, rfl, fun c r hc hr =>
        (Block.mb_predict_prior 8 p1 x1 x2 c1 c2 ha hl c r hc hr).1⟩
    · exact ⟨_, _, rfl, rfl, fun c r hc hr =>
        (Block.mb_predict_prior 8 p1 x1 x2 c1 c2 ha hl c r hc hr).2.1⟩
    · exact ⟨_, _, rfl, rfl, fun c r hc hr =>
        (Block.mb_predict_prior 8 p1 x1 x2 c1 c2 ha hl c r hc hr).2.2.1⟩
    · exact ⟨_, _, rfl, rfl, fun c r hc hr =>
        (Block.mb_predict_prior 8 p1 x1 x2 c1 c2 ha hl c r hc hr).2.2.2⟩
    · exact absurd rfl hm
  · intro mode hm
    cases mode
    · exact ⟨_, _, rfl, rfl, fun c r hc hr =>
        (Block.mb_predict_prior 16 p1 x1 x2 c1 c2 ha hl c r hc hr).1⟩
    · exact ⟨_, _, rfl, rfl, fun c r hc hr =>
        (Block.mb_predict_prior 16 p1 x1 x2 c1 c2 ha hl c r hc hr).2.1⟩
    · exact ⟨_, _, rfl, rfl, fun c r hc hr =>
        (Block.mb_predict_prior 16 p1 x1 x2 c1 c2 ha hl c r hc hr).2.2.1⟩
    · exact ⟨_, _, rfl, rfl, fun c r hc hr =>
        (Block.mb_predict_prior 16 p1 x1 x2 c1 c2 ha hl c r hc hr).2.2.2⟩
    · exact absurd rfl hm

/-- C21 for two 4x4 blocks that differ in their prior samples, predicted with `B_HU_PRED`:
the cell `(3, 3)` differs before and agrees after. -/
theorem intra_predict_overwrites_witness :
    (Block.new 4 exampleContext (fun _ _ => 0)).contents_ 3 3
        ≠ (Block.new 4 exampleContext (fun c _ => 200 + c)).contents_ 3 3
    ∧ ∃ out1 out2,
        Block4.intra_predict bmode.B_HU_PRED (Block.new 4 exampleContext (fun _ _ => 0))
          = some out1
        ∧ Block4.intra_predict bmode.B_HU_PRED
            (Block.new 4 exampleContext (fun c _ => 200 + c)) = some out2
        ∧ out1.contents_ 3 3 = out2.contents_ 3 3 := by
  obtain ⟨out1, out2, h1, h2, h3⟩ := (intra_predict_overwrites
    (Block.new 4 exampleContext (fun _ _ => 0))
    (Block.new 4 exampleContext (fun c _ => 200 + c)) rfl rfl rfl).1 bmode.B_HU_PRED
  exact ⟨by decide, out1, out2, h1, h2, h3 3 3 (by decide) (by decide)⟩

/-! ## Unity gain of the filters: the claim -/

/-- A six-tap filter of the table returns the sample it is given six times. -/
theorem filtered_const (p : Nat) (hp : p < 8) (k : Nat) (hk : k ≤ 255) :
    filtered p k k k k k k = k := by
  have e : ∀ x : Int, x >>> (7 : Nat) = x / 128 := fun x => by
    rw [Int.shiftRight_eq_div_pow]; rfl
  rw [filtered_eq_spec p hp]
  interval_cases p <;> simp only [spec_filter, spec_taps, e] <;> omega

/-- Every read of the edge-extended reference is the sample the grid is filled with. -/
theorem edgeRead_const (ref : TwoD) (hv : ref.valid) (k : Nat)
    (hconst : ∀ v, v ∈ ref.storage → v = k) (x y : Int) : edgeRead ref x y = k := by
  have h := EdgeExtendedRaster.at_some ref hv x y
  rw [EdgeExtendedRaster.at_eq ref hv] at h
  unfold TwoD.at at h
  split_ifs at h
  exact hconst _ (List.getElem?_mem h)

/-- The predicted sample over reads that all return `k` is `k`. -/
theorem interCell_const (mv : MotionVector) (R : Int → Int → Nat) (k : Nat) (hk : k ≤ 255)
    (hR : ∀ x y, R x y = k) (sc sr : Int) (c r : Nat) : interCell mv R sc sr c r = k := by
  unfold interCell
  split_ifs
  · exact hR _ _
  · simp only [interRow, hR]
    rw [filtered_const _ (phase_lt _) k hk, filtered_const _ (phase_lt _) k hk]

/-- The constant example grid is well formed. -/
theorem exampleConstantReference_valid : exampleConstantReference.valid :=
  ⟨by decide, by decide, by decide, by decide, by simp [exampleConstantReference]⟩

/-- C22, as amended: the table has eight filters of six taps that sum to 128, so a filter
returns the 8-bit sample it is given six times; hence for a block size in `{4, 8, 16}`, any
block position and motion vector, a reference whose samples all equal `k ≤ 255` and whose
width is the stride of the destination grid whenever the guard selects the fast path,
`safe_inter_predict` returns a block whose cells all hold `k` (and leaves the samples outside
the block alone). -/
theorem safe_inter_predict_unity_gain (size col row stride : Nat) (mv : MotionVector)
    (ref : TwoD) (b : Contents) (k : Nat) (hS : size = 4 ∨ size = 8 ∨ size = 16)
    (hv : ref.valid) (hk : k ≤ 255) (hconst : ∀ v, v ∈ ref.storage → v = k)
    (hstride : ¬ needs_edge_extension size ref (source_column size col mv)
      (source_row size row mv) → stride = ref.width) :
    sixtap_filters.length = 8
    ∧ (∀ f, f ∈ sixtap_filters → f.length = 6 ∧ f.sum = 128)
    ∧ (∀ p, p < 8 → ∀ s, s ≤ 255 → filtered p s s s s s s = s)
    ∧ ∃ out, safe_inter_predict size col row stride mv ref b = some out
        ∧ (∀ c r, c < size → r < size → out c r = k)
        ∧ (∀ c r, ¬ (c < size ∧ r < size) → out c r = b c r) := by
  refine ⟨rfl, by decide, fun p hp s hs => filtered_const p hp s hs, _,
    safe_inter_predict_eq size col row stride mv ref b hS hv hstride, ?_, ?_⟩
  · intro c r hc hr
    simp only [hc, hr, and_self, if_true]
    exact interCell_const mv _ k hk (edgeRead_const ref hv k hconst) _ _ c r
  · intro c r h
    simp only [h, if_false]

/-- C22, as amended, for the 4x4 block at `(1, 1)` of the constant 12x12 grid and the motion
vector `(3, 5)`, the destination having the stride 12. -/
theorem safe_inter_predict_unity_gain_witness :
    exampleConstantReference.valid
      ∧ (∀ v, v ∈ exampleConstantReference.storage → v = 100)
      ∧ ∃ out, safe_inter_predict 4 1 1 12 exampleVector exampleConstantReference
            (fun _ _ => 0) = some out
          ∧ out 0 0 = 100 ∧ out 3 3 = 100 := by
  have hc : ∀ v, v ∈ exampleConstantReference.storage → v = 100 := by
    intro v h
    exact List.eq_of_mem_replicate h
  obtain ⟨-, -, -, out, h, hcell, -⟩ := safe_inter_predict_unity_gain 4 1 1 12 exampleVector
    exampleConstantReference (fun _ _ => 0) 100 (Or.inl rfl) exampleConstantReference_valid
    (by decide) hc (fun _ => rfl)
  exact ⟨exampleConstantReference_valid, hc, out, h, hcell 0 0 (by decide) (by decide),
    hcell 3 3 (by decide) (by decide)⟩

/-- Counterexample to C22 as stated: the constant 12x12 reference and a destination grid of
stride 16. The block at `(1, 1)` with motion vector `(3, 5)` takes the fast path, whose
assertion `contents_.stride() == reference.width()` fails, so no cell is filled. -/
theorem safe_inter_predict_unity_gain_counterexample :
    exampleConstantReference.valid
      ∧ (∀ v, v ∈ exampleConstantReference.storage → v = 100)
      ∧ safe_inter_predict 4 1 1 16 exampleVector exampleConstantReference (fun _ _ => 0)
          = none := by
  refine ⟨exampleConstantReference_valid, fun v h => List.eq_of_mem_replicate h, ?_⟩
  have hg : ¬ needs_edge_extension 4 exampleConstantReference (source_column 4 1 exampleVector)
      (source_row 4 1 exampleVector) := by decide
  unfold safe_inter_predict
  rw [if_neg hg]
  unfold unsafe_inter_predict
  rw [if_pos (by decide)]

end Alfalfa
